import Mathlib

/-!
# Authorization pipeline of `rekam-medis-pasien` (Go backend)

A shallow embedding of

* `internal/middleware/ownership_middleware.go`
  (`OwnershipMiddleware`, `OptionalOwnershipMiddleware`, `SelfOnlyMiddleware`),
* `internal/middleware/auth_middleware.go` (`AuthMiddleware`, `RoleMiddleware`),
* `internal/routes/api.go` (`setupAPIRouter`),
* `internal/routes/auth_router.go` (`setupAuthRouter`),
* `internal/utils/response.go` (`ErrorResponse`, `SuccessResponse`,
  `ValidationErrorResponse`),
* `internal/models/user.go` (the role constants, `User`, `ValidateRole`),
* `internal/dto/user_dto.go` (request and response types),
* `internal/repository/user_repository.go` (the repository over a table of users),
* `internal/service/user_service.go` (the user service),
* `internal/handler/user_handler.go` (the route handlers),

together with the two Go standard-library functions the middleware calls
(`strconv.ParseUint` at base 10 / 32 bits and `strings.SplitN` at separator
`" "` / limit 2) and the `float64` arithmetic of the page count.  The token
functions `utils.GenerateToken` and `utils.ValidateToken`, whose bodies are
not among the sources, are modelled from the specification.  The table
`users` is the one that `AutoMigrate` creates from the tags of `models.User`
(primary key, `unique` indexes, `varchar` widths, column defaults), and the
validation that gin's binding runs on a `dto.UpdateUserRequest` is read off
its `binding` tags; the binding of the other request types is a parameter.

## Modelling conventions

* A gin handler is a function of the request context.  `ctx.Next()` runs the
  rest of the handler chain; it is the first argument `next` of a
  `HandlerFunc`, so a source line `ctx.Next()` in tail position reads
  `next ctx`.  A result that does not mention `next` is a run in which the
  rest of the chain (further middleware and the route handler) never executes.
* `ctx.JSON` appends the pair (status, body) to `Context.Writer`.
* `ctx.Abort()` sets `Context.aborted`.
* Go's `uint` is taken at its 64-bit width (amd64 / arm64); values of type
  `uint` and `uint64` are natural numbers below `2 ^ 64`.
* A failed type assertion (`role.(string)`, `authUserID.(uint)`) is a Go
  panic; it is recorded in `Context.panicked`.
* A Go `error` is represented by its `Error()` text; a function returning
  `(T, error)` returns `Except String T`, and a method of a stateful object
  also returns the state it leaves behind.
* A `time.Time` is a natural number, the zero time being `0`.
* A `float64` is IEEE 754 binary64 with rounding to nearest, ties to even.
  The only `float64` expression of the sources,
  `math.Ceil(float64(total) / float64(pageSize))`, has non-negative integer
  operands; the conversion, the division and the ceiling are computed exactly
  on natural numbers (`float64OfNat`, `ceilQuotient`).
* Go strings are Lean strings.  `strconv.ParseUint` walks the bytes of its
  argument; a character outside ASCII is encoded by bytes that are all
  `≥ 0x80`, none of which is a digit or a letter, so walking characters and
  rejecting every non-ASCII character gives the same result.
-/

set_option autoImplicit false

namespace RekamMedis

/-! ## `net/http` status codes -/

def StatusOK : Nat := 200
def StatusCreated : Nat := 201
def StatusBadRequest : Nat := 400
def StatusUnauthorized : Nat := 401
def StatusForbidden : Nat := 403
def StatusNotFound : Nat := 404

/-! ## `internal/models/user.go`: role constants -/

def RolePatient : String := "patient"
def RoleDoctor : String := "doctor"
def RoleReceptionist : String := "receptionist"
def RoleAdmin : String := "admin"
def RoleSuperAdmin : String := "super_admin"

/-! ## `strconv.ParseUint(s, 10, 32)` -/

/-- The two sentinel errors of package `strconv`. -/
inductive StrconvErr where
  | ErrSyntax
  | ErrRange
  deriving DecidableEq, Repr

/-- Go's `strconv.NumError`: the failing function, the input, the reason. -/
structure NumError where
  Func : String
  Num : String
  Err : StrconvErr
  deriving DecidableEq, Repr

def syntaxError (fn str : String) : NumError := ⟨fn, str, StrconvErr.ErrSyntax⟩
def rangeError (fn str : String) : NumError := ⟨fn, str, StrconvErr.ErrRange⟩

/-- Largest `uint64`. -/
def maxUint64 : Nat := 2 ^ 64 - 1

/-- Conversion `uint(x)` of a `uint64` on a 64-bit target. -/
def toUint (x : Nat) : Nat := x % 2 ^ 64

/-- The helper `lower(c)` of package `strconv`: `c | ('x' - 'X')`. -/
def lower (c : Nat) : Nat := Nat.lor c 32

/-- The digit value the loop of `ParseUint` assigns to one character, or
`none` where the `switch` reaches `default` (base is non-zero, so `_` is not
accepted). -/
def digitVal (c : Char) : Option Nat :=
  if c.toNat ≥ 128 then none
  else if 48 ≤ c.toNat ∧ c.toNat ≤ 57 then some (c.toNat - 48)
  else if 97 ≤ lower c.toNat ∧ lower c.toNat ≤ 122 then some (lower c.toNat - 97 + 10)
  else none

/-- The loop of `strconv.ParseUint` over the characters still to read, with
accumulator `n`, for `base` and the bound `maxVal`; `s0` is the whole input,
kept for the error value. -/
def parseUintLoop (s0 : String) (base maxVal : Nat) : List Char → Nat → Except NumError Nat
  | [], n => Except.ok n
  | c :: cs, n =>
    match digitVal c with
    | none => Except.error (syntaxError "ParseUint" s0)
    | some d =>
      if d ≥ base then Except.error (syntaxError "ParseUint" s0)
      -- cutoff = maxUint64 / base + 1: n * base overflows
      else if n ≥ maxUint64 / base + 1 then Except.error (rangeError "ParseUint" s0)
      else
        let n0 := (n * base) % 2 ^ 64
        let n1 := (n0 + d) % 2 ^ 64
        if n1 < n0 ∨ n1 > maxVal then Except.error (rangeError "ParseUint" s0)
        else parseUintLoop s0 base maxVal cs n1

/-- Go's `strconv.ParseUint(s, 10, 32)`. -/
def ParseUint (s : String) : Except NumError Nat :=
  if s = "" then Except.error (syntaxError "ParseUint" s)
  else parseUintLoop s 10 (2 ^ 32 - 1) s.data 0

/-- Decimal representation of an unsigned integer (what `strconv.FormatUint(n, 10)`
prints): no sign, no leading zero, `"0"` for zero. -/
def decimal (n : Nat) : String := Nat.repr n

/-! ## `internal/models/user.go`: the account record -/

/-- The source type `models.User`; `DeletedAt` is `none` for a live record
(`gorm.DeletedAt` not valid) and the deletion time for a soft-deleted one. -/
structure User where
  ID : Nat
  Username : String
  Email : String
  Phone : String
  Password : String
  Role : String
  IsActive : Bool
  CreatedAt : Nat
  UpdatedAt : Nat
  DeletedAt : Option Nat
  deriving DecidableEq, Repr

/-- The source function `models.GetAvailableRoles`. -/
def GetAvailableRoles : List String :=
  [RolePatient, RoleDoctor, RoleReceptionist, RoleAdmin, RoleSuperAdmin]

/-- The source function `models.ValidateRole`. -/
def ValidateRole (role : String) : Bool :=
  GetAvailableRoles.any (fun r => r = role)

/-- The gorm hook `(*User).BeforeCreate`, run at time `now`. -/
def User.BeforeCreate (u : User) (now : Nat) : User :=
  let u := if u.Role = "" then { u with Role := RolePatient } else u
  let u := if u.CreatedAt = 0 then { u with CreatedAt := now } else u
  if u.UpdatedAt = 0 then { u with UpdatedAt := now } else u

/-! ## `internal/dto/user_dto.go` -/

structure RegisterRequest where
  Username : String
  Email : String
  Phone : String
  Password : String
  Role : String
  deriving DecidableEq, Repr

structure LoginRequest where
  UsernameOrEmail : String
  Password : String
  deriving DecidableEq, Repr

structure CreateUserRequest where
  Username : String
  Email : String
  Phone : String
  Password : String
  Role : String
  IsActive : Option Bool
  deriving DecidableEq, Repr

/-- The source type `dto.UpdateUserRequest`; a `nil` pointer field is `none`. -/
structure UpdateUserRequest where
  Username : Option String
  Email : Option String
  Phone : Option String
  Password : Option String
  Role : Option String
  IsActive : Option Bool
  deriving DecidableEq, Repr

structure ChangePasswordRequest where
  OldPassword : String
  NewPassword : String
  deriving DecidableEq, Repr

structure UserResponse where
  ID : Nat
  Username : String
  Email : String
  Phone : String
  Role : String
  IsActive : Bool
  CreatedAt : Nat
  UpdatedAt : Nat
  deriving DecidableEq, Repr

structure LoginResponse where
  Token : String
  ExpiresAt : Nat
  User : UserResponse
  deriving DecidableEq, Repr

structure PaginationQuery where
  Page : Int
  PageSize : Int
  Search : String
  Role : String
  IsActive : Option Bool
  SortBy : String
  SortDir : String
  deriving DecidableEq, Repr

structure PaginationMeta where
  Page : Int
  PageSize : Int
  TotalItems : Int
  TotalPages : Int
  deriving DecidableEq, Repr

structure UserListResponse where
  Data : List UserResponse
  Meta : PaginationMeta
  deriving DecidableEq, Repr

structure DeleteAccountRequest where
  Password : String
  Reason : String
  deriving DecidableEq, Repr

structure DeactivateAccountRequest where
  Password : String
  Reason : String
  deriving DecidableEq, Repr

structure DeletedUserResponse where
  ID : Nat
  Username : String
  Email : String
  Phone : String
  Role : String
  IsActive : Bool
  CreatedAt : Nat
  UpdatedAt : Nat
  DeletedAt : Nat
  deriving DecidableEq, Repr

structure DeletedUserListResponse where
  Data : List DeletedUserResponse
  Meta : PaginationMeta
  deriving DecidableEq, Repr

structure ResetPasswordRequest where
  NewPassword : String
  deriving DecidableEq, Repr

/-! ## The gin request context -/

/-- A value stored in the context bag `ctx.Keys` (`map[string]any`): the
middleware stores a `uint` (the subject id) and strings. -/
inductive Value where
  | uint (n : Nat)
  | str (s : String)
  deriving DecidableEq, Repr

/-- The `err interface{}` argument of `utils.ErrorResponse`: `nil`, the
`Error()` text of a `strconv.NumError`, or the `Error()` text of another error. -/
inductive ErrorDetail where
  | nil
  | numError (e : NumError)
  | text (s : String)
  deriving DecidableEq, Repr

/-- The `data interface{}` argument of `utils.SuccessResponse`: one of the
response types of package `dto`. -/
inductive ResponseData where
  | user (u : UserResponse)
  | login (r : LoginResponse)
  | users (r : UserListResponse)
  | deletedUsers (r : DeletedUserListResponse)
  deriving DecidableEq, Repr

/-- The JSON body `utils.Response`. -/
structure Response where
  Success : Bool
  Message : String
  Data : Option ResponseData
  Error : ErrorDetail
  deriving DecidableEq, Repr

/-- The part of `gin.Context` the middleware reads and writes. -/
structure Context where
  /-- request headers, by canonical name -/
  Header : List (String × String)
  /-- path parameters of the matched route -/
  Params : List (String × String)
  /-- the raw query string of the request URL -/
  RawQuery : String
  /-- the raw request body -/
  Body : String
  /-- the request-scoped bag written by `ctx.Set` -/
  Keys : List (String × Value)
  /-- responses written by `ctx.JSON`, oldest first -/
  Writer : List (Nat × Response)
  /-- set by `ctx.Abort()` -/
  aborted : Bool
  /-- a Go panic was raised (failed type assertion) -/
  panicked : Bool
  deriving DecidableEq, Repr

namespace Context

/-- Model of `ctx.GetHeader(key)`: the empty string when the header is absent. -/
def GetHeader (ctx : Context) (key : String) : String :=
  (ctx.Header.lookup key).getD ""

/-- Model of `ctx.Param(key)`: the empty string when the parameter is absent. -/
def Param (ctx : Context) (key : String) : String :=
  (ctx.Params.lookup key).getD ""

/-- Model of `ctx.Get(key)`: `(value, exists)`. -/
def Get (ctx : Context) (key : String) : Option Value :=
  ctx.Keys.lookup key

/-- Model of `ctx.Set(key, value)`: `c.Keys[key] = value`. -/
def Set (ctx : Context) (key : String) (value : Value) : Context :=
  { ctx with Keys := (key, value) :: ctx.Keys.filter (fun kv => kv.1 != key) }

/-- Model of `ctx.JSON(code, obj)`. -/
def JSON (ctx : Context) (code : Nat) (obj : Response) : Context :=
  { ctx with Writer := ctx.Writer ++ [(code, obj)] }

/-- Model of `ctx.Abort()`. -/
def Abort (ctx : Context) : Context :=
  { ctx with aborted := true }

/-- A failed type assertion. -/
def panic (ctx : Context) : Context :=
  { ctx with panicked := true }

end Context

/-- A gin handler; the first argument is the effect of `ctx.Next()`. -/
abbrev HandlerFunc := (Context → Context) → Context → Context

/-! ## `internal/utils/response.go` -/

/-- The source function `utils.ErrorResponse`. -/
def ErrorResponse (ctx : Context) (statusCode : Nat) (message : String) (err : ErrorDetail) :
    Context :=
  ctx.JSON statusCode { Success := false, Message := message, Data := none, Error := err }

/-- The source function `utils.SuccessResponse`. -/
def SuccessResponse (ctx : Context) (statusCode : Nat) (message : String)
    (data : Option ResponseData) : Context :=
  ctx.JSON statusCode { Success := true, Message := message, Data := data,
                        Error := ErrorDetail.nil }

/-- The source function `utils.ValidationErrorResponse`. -/
def ValidationErrorResponse (ctx : Context) (err : String) : Context :=
  ctx.JSON StatusBadRequest { Success := false, Message := "Validation error", Data := none,
                              Error := ErrorDetail.text err }

/-! ## `internal/middleware/ownership_middleware.go` -/

/-- The source function `middleware.OwnershipMiddleware`. -/
def OwnershipMiddleware : HandlerFunc := fun next ctx =>
  match ctx.Get "user_id" with
  | none => (ErrorResponse ctx StatusUnauthorized "Unauthorized" ErrorDetail.nil).Abort
  | some authUserID =>
    match ctx.Get "role" with
    | none => (ErrorResponse ctx StatusUnauthorized "Unauthorized" ErrorDetail.nil).Abort
    | some (Value.uint _) => ctx.panic
    | some (Value.str userRole) =>
      if userRole = RoleAdmin ∨ userRole = RoleSuperAdmin then next ctx
      else
        match ParseUint (ctx.Param "id") with
        | Except.error err =>
          (ErrorResponse ctx StatusBadRequest "Invalid user ID" (ErrorDetail.numError err)).Abort
        | Except.ok targetUserID =>
          match authUserID with
          | Value.str _ => ctx.panic
          | Value.uint authID =>
            if authID ≠ toUint targetUserID then
              (ErrorResponse ctx StatusForbidden
                "Access denied: You can only access your own data" ErrorDetail.nil).Abort
            else next ctx

/-- The source function `middleware.OptionalOwnershipMiddleware`. -/
def OptionalOwnershipMiddleware (allowedRoles : List String) : HandlerFunc := fun next ctx =>
  match ctx.Get "user_id" with
  | none => (ErrorResponse ctx StatusUnauthorized "Unauthorized" ErrorDetail.nil).Abort
  | some authUserID =>
    match ctx.Get "role" with
    | none => (ErrorResponse ctx StatusUnauthorized "Unauthorized" ErrorDetail.nil).Abort
    | some (Value.uint _) => ctx.panic
    | some (Value.str userRole) =>
      if allowedRoles.any (fun allowedRole => userRole = allowedRole) then next ctx
      else
        let forbidden := (ErrorResponse ctx StatusForbidden
          "Access denied: insufficient permissions" ErrorDetail.nil).Abort
        if ctx.Param "id" ≠ "" then
          match ParseUint (ctx.Param "id") with
          | Except.error err =>
            (ErrorResponse ctx StatusBadRequest "Invalied user ID"
              (ErrorDetail.numError err)).Abort
          | Except.ok targetUserID =>
            match authUserID with
            | Value.str _ => ctx.panic
            | Value.uint authID =>
              if authID = toUint targetUserID then next ctx else forbidden
        else forbidden

/-- The source function `middleware.SelfOnlyMiddleware`. -/
def SelfOnlyMiddleware : HandlerFunc := fun next ctx =>
  match ctx.Get "user_id" with
  | none => (ErrorResponse ctx StatusUnauthorized "Unauthorized" ErrorDetail.nil).Abort
  | some authUserID =>
    match ParseUint (ctx.Param "id") with
    | Except.error err =>
      (ErrorResponse ctx StatusBadRequest "Invalid User ID" (ErrorDetail.numError err)).Abort
    | Except.ok targetUserID =>
      match authUserID with
      | Value.str _ => ctx.panic
      | Value.uint authID =>
        if authID ≠ toUint targetUserID then
          (ErrorResponse ctx StatusForbidden
            "Access denied: You can only access your own data" ErrorDetail.nil).Abort
        else next ctx

/-! ## `strings.SplitN(s, " ", 2)` -/

/-- The one `strings.Index(s, " ")` step of `SplitN`: the text before the first
space and the text after it, or `none` when there is no space. -/
def cutAtSpace : List Char → Option (List Char × List Char)
  | [] => none
  | c :: cs =>
    if c = ' ' then some ([], cs)
    else
      match cutAtSpace cs with
      | none => none
      | some (a, b) => some (c :: a, b)

/-- Go's `strings.SplitN(s, " ", 2)`: at most two parts, cut at the first space. -/
def SplitN (s : String) : List String :=
  match cutAtSpace s.data with
  | none => [s]
  | some (a, b) => [String.mk a, String.mk b]

/-! ## `internal/config/config.go` -/

/-- The configuration section `config.JWTConfig` (`ExpiredTime` in nanoseconds). -/
structure JWTConfig where
  Secret : String
  ExpiredTime : Nat
  deriving DecidableEq, Repr

/-- The configuration section `config.PaginationConfig`. -/
structure PaginationConfig where
  DefaultPageSize : Int
  MaxPageSize : Int
  deriving DecidableEq, Repr

/-- The sections of `config.Config` read by the middleware and the services
(`App` and `Database` are read at start-up only). -/
structure Config where
  JWT : JWTConfig
  Pagination : PaginationConfig
  deriving DecidableEq, Repr

/-! ## `internal/middleware/auth_middleware.go` -/

/-- The identity claims of a verified token, as `AuthMiddleware` reads them
(`claims.UserID`, `claims.Username`, `claims.Email`, `claims.Role`). -/
structure Claims where
  UserID : Nat
  Username : String
  Email : String
  Role : String
  deriving DecidableEq, Repr

/-- The signature of `utils.ValidateToken(token, secret)`; its body is not
part of the sources at hand, so the middleware takes it as a parameter.  An
error is represented by its `Error()` text. -/
abbrev TokenValidator := String → String → Except String Claims

/-- The four `ctx.Set` calls of `AuthMiddleware`, in source order. -/
def setClaims (ctx : Context) (claims : Claims) : Context :=
  (((ctx.Set "user_id" (Value.uint claims.UserID)).Set "username"
    (Value.str claims.Username)).Set "email" (Value.str claims.Email)).Set "role"
    (Value.str claims.Role)

/-- The source function `middleware.AuthMiddleware`. -/
def AuthMiddleware (ValidateToken : TokenValidator) (cfg : Config) : HandlerFunc :=
  fun next ctx =>
  let authHandler := ctx.GetHeader "Authorization"
  if authHandler = "" then
    (ErrorResponse ctx StatusUnauthorized "Authorization header is required"
      ErrorDetail.nil).Abort
  else
    match SplitN authHandler with
    | [scheme, token] =>
      if scheme ≠ "Bearer" then
        (ErrorResponse ctx StatusUnauthorized "Invalid authorization header format"
          ErrorDetail.nil).Abort
      else
        match ValidateToken token cfg.JWT.Secret with
        | Except.error err =>
          (ErrorResponse ctx StatusUnauthorized "Invalid or expired token"
            (ErrorDetail.text err)).Abort
        | Except.ok claims => next (setClaims ctx claims)
    | _ =>
      (ErrorResponse ctx StatusUnauthorized "Invalid authorization header format"
        ErrorDetail.nil).Abort

/-- The source function `middleware.RoleMiddleware`. -/
def RoleMiddleware (allowedRoles : List String) : HandlerFunc := fun next ctx =>
  match ctx.Get "role" with
  | none => (ErrorResponse ctx StatusUnauthorized "Unauthorized" ErrorDetail.nil).Abort
  | some (Value.uint _) => ctx.panic
  | some (Value.str userRole) =>
    let isAllowed := allowedRoles.any (fun allowedRole => userRole = allowedRole)
    if !isAllowed then
      (ErrorResponse ctx StatusForbidden "Access denied: insufficent permissions"
        ErrorDetail.nil).Abort
    else next ctx

/-! ## `internal/routes/api.go` -/

/-- The method values of `*handler.UserHandler` that the router registers.
The route table is stated for arbitrary handler bodies; every call into the
user service happens inside one of them. -/
structure UserHandler where
  Register : HandlerFunc
  Login : HandlerFunc
  GetMyProfile : HandlerFunc
  UpdateMyProfile : HandlerFunc
  ChangeMyPassword : HandlerFunc
  DeleteMyAccount : HandlerFunc
  DeactivateMyAccount : HandlerFunc
  CreateUser : HandlerFunc
  ListUsers : HandlerFunc
  DeleteListUsers : HandlerFunc
  GetUserByID : HandlerFunc
  UpdateUser : HandlerFunc
  SoftDeleteUser : HandlerFunc
  RestoreUser : HandlerFunc
  ResetPassword : HandlerFunc
  ActivateUser : HandlerFunc
  DeactivateUser : HandlerFunc
  HardDeleteUser : HandlerFunc

/-- The source type `routes.RouteConfig`. -/
structure RouteConfig where
  Config : Config
  UserHandler : UserHandler

/-- A `gin.RouterGroup`: a path and the middleware inherited by its routes. -/
structure RouterGroup where
  basePath : String
  Handlers : List HandlerFunc

/-- A registered route: method, full path pattern and handler chain. -/
structure RouteInfo where
  Method : String
  Path : String
  Handlers : List HandlerFunc

namespace RouterGroup

/-- Path joining of gin for the relative paths used here (empty, or starting
with `/` and without a trailing `/`): the empty path leaves the base unchanged. -/
def calculateAbsolutePath (group : RouterGroup) (relativePath : String) : String :=
  if relativePath = "" then group.basePath else group.basePath ++ relativePath

/-- Model of `group.Group(relativePath)`: the new group copies the middleware
registered so far. -/
def Group (group : RouterGroup) (relativePath : String) : RouterGroup :=
  { basePath := group.calculateAbsolutePath relativePath, Handlers := group.Handlers }

/-- Model of `group.Use(middleware...)`. -/
def Use (group : RouterGroup) (middleware : List HandlerFunc) : RouterGroup :=
  { group with Handlers := group.Handlers ++ middleware }

/-- Model of `group.handle(httpMethod, relativePath, handler)`: the chain of
the route is the middleware of the group followed by the handler. -/
def handle (group : RouterGroup) (httpMethod relativePath : String) (handler : HandlerFunc) :
    RouteInfo :=
  { Method := httpMethod, Path := group.calculateAbsolutePath relativePath,
    Handlers := group.Handlers ++ [handler] }

def GET (group : RouterGroup) (relativePath : String) (handler : HandlerFunc) : RouteInfo :=
  group.handle "GET" relativePath handler

def POST (group : RouterGroup) (relativePath : String) (handler : HandlerFunc) : RouteInfo :=
  group.handle "POST" relativePath handler

def PUT (group : RouterGroup) (relativePath : String) (handler : HandlerFunc) : RouteInfo :=
  group.handle "PUT" relativePath handler

def PATCH (group : RouterGroup) (relativePath : String) (handler : HandlerFunc) : RouteInfo :=
  group.handle "PATCH" relativePath handler

def DELETE (group : RouterGroup) (relativePath : String) (handler : HandlerFunc) : RouteInfo :=
  group.handle "DELETE" relativePath handler

end RouterGroup

/-- The source function `routes.setupAPIRouter`: the routes it registers on
the group `rg`, in source order. -/
def setupAPIRouter (ValidateToken : TokenValidator) (rg : RouterGroup) (cfg : RouteConfig) :
    List RouteInfo :=
  let apiGroup := rg.Group "/users"
  let apiGroup := apiGroup.Use [AuthMiddleware ValidateToken cfg.Config]
  let meRoutes := apiGroup.Group "/me"
  let adminRoutes := apiGroup.Group ""
  let adminRoutes := adminRoutes.Use [RoleMiddleware [RoleAdmin, RoleSuperAdmin]]
  let superAdminRoutes := apiGroup.Group ""
  let superAdminRoutes := superAdminRoutes.Use [RoleMiddleware [RoleSuperAdmin]]
  [ meRoutes.GET "" cfg.UserHandler.GetMyProfile,
    meRoutes.PUT "" cfg.UserHandler.UpdateMyProfile,
    meRoutes.PATCH "/change-password" cfg.UserHandler.ChangeMyPassword,
    meRoutes.DELETE "" cfg.UserHandler.DeleteMyAccount,
    meRoutes.PATCH "/deactivate" cfg.UserHandler.DeactivateMyAccount,
    adminRoutes.POST "" cfg.UserHandler.CreateUser,
    adminRoutes.GET "" cfg.UserHandler.ListUsers,
    adminRoutes.GET "/deleted" cfg.UserHandler.DeleteListUsers,
    adminRoutes.GET "/:id" cfg.UserHandler.GetUserByID,
    adminRoutes.PUT "/:id" cfg.UserHandler.UpdateUser,
    adminRoutes.DELETE "/:id" cfg.UserHandler.SoftDeleteUser,
    adminRoutes.PATCH "/:id/restore" cfg.UserHandler.RestoreUser,
    adminRoutes.PATCH "/:id/reset-password" cfg.UserHandler.ResetPassword,
    adminRoutes.PATCH "/:id/activate" cfg.UserHandler.ActivateUser,
    adminRoutes.PATCH "/:id/deactivate" cfg.UserHandler.DeactivateUser,
    superAdminRoutes.DELETE "/:id/hard-delete" cfg.UserHandler.HardDeleteUser ]

/-- The source function `routes.setupAuthRouter`: the routes it registers on
the group `rg`, in source order; the group `/auth` gets no middleware of its
own. -/
def setupAuthRouter (rg : RouterGroup) (cfg : RouteConfig) : List RouteInfo :=
  let authGroup := rg.Group "/auth"
  [ authGroup.POST "/register" cfg.UserHandler.Register,
    authGroup.POST "/login" cfg.UserHandler.Login ]

/-- Running a handler chain (`Context.Next` of gin): each handler receives
the run of the handlers after it as its `ctx.Next()`.  Every middleware of
this repository ends by calling `ctx.Next()` or `ctx.Abort()`, and the route
handler is last, so a handler that returns hands control back to the caller. -/
def serveChain : List HandlerFunc → Context → Context
  | [], ctx => ctx
  | h :: rest, ctx => h (serveChain rest) ctx

/-- The chain registered for a method and path pattern, if any. -/
def findRoute (routes : List RouteInfo) (method path : String) : Option (List HandlerFunc) :=
  (routes.find? (fun r => r.Method = method ∧ r.Path = path)).map (fun r => r.Handlers)

/-! ## Observing whether the rest of the chain runs -/

/-- The handler calls `ctx.Next()`: whatever the rest of the chain is, the
result is the rest of the chain run on one context `c` fixed by the handler. -/
def CallsNext (h : HandlerFunc) (ctx : Context) : Prop :=
  ∃ c, ∀ next, h next ctx = next c

/-- A stand-in for the rest of a chain that leaves a visible trace: it stores
the key `reached` in the context. -/
def markReached : Context → Context :=
  fun ctx => ctx.Set "reached" (Value.str "handler")

/-- A request context as `AuthMiddleware` leaves it for subject `userID` with
role `role`, on a route whose path parameter `id` is `id`. -/
def authenticatedContext (userID : Nat) (role id : String) : Context :=
  { Header := [], Params := [("id", id)], RawQuery := "", Body := "",
    Keys := [("user_id", Value.uint userID), ("role", Value.str role)],
    Writer := [], aborted := false, panicked := false }

/-- A fresh request context: one `Authorization` header, the path parameter
`id`, nothing stored or written yet. -/
def requestContext (authorization id : String) : Context :=
  { Header := [("Authorization", authorization)], Params := [("id", id)],
    RawQuery := "", Body := "",
    Keys := [], Writer := [], aborted := false, panicked := false }

/-- The configuration of `setupTestRouter` in `routes/api_test.go`
(24 hours in nanoseconds; the pagination section is left at zero there). -/
def testConfig : Config :=
  { JWT := { Secret := "test-secret-key", ExpiredTime := 86400000000000 },
    Pagination := { DefaultPageSize := 0, MaxPageSize := 0 } }

/-- A token validator for concrete runs: under the secret of `testConfig` it
accepts the token `patient-token` (subject 1, role `patient`), `admin-token`
(subject 2, role `admin`) and `super-token` (subject 3, role `super_admin`). -/
def testValidator : TokenValidator := fun token secret =>
  if secret ≠ "test-secret-key" then Except.error "signature is invalid"
  else if token = "patient-token" then
    Except.ok { UserID := 1, Username := "testuser", Email := "test@example.com",
                Role := RolePatient }
  else if token = "admin-token" then
    Except.ok { UserID := 2, Username := "admin", Email := "admin@example.com",
                Role := RoleAdmin }
  else if token = "super-token" then
    Except.ok { UserID := 3, Username := "superadmin", Email := "superadmin@example.com",
                Role := RoleSuperAdmin }
  else Except.error "token is malformed"

/-- A route handler for concrete runs: it only leaves the trace of `markReached`. -/
def tracingHandler : HandlerFunc := fun _ ctx => markReached ctx

/-- A `UserHandler` for concrete runs, every method being `tracingHandler`. -/
def tracingUserHandler : UserHandler :=
  { Register := tracingHandler, Login := tracingHandler,
    GetMyProfile := tracingHandler, UpdateMyProfile := tracingHandler,
    ChangeMyPassword := tracingHandler, DeleteMyAccount := tracingHandler,
    DeactivateMyAccount := tracingHandler, CreateUser := tracingHandler,
    ListUsers := tracingHandler, DeleteListUsers := tracingHandler,
    GetUserByID := tracingHandler, UpdateUser := tracingHandler,
    SoftDeleteUser := tracingHandler, RestoreUser := tracingHandler,
    ResetPassword := tracingHandler, ActivateUser := tracingHandler,
    DeactivateUser := tracingHandler, HardDeleteUser := tracingHandler }

/-- The route configuration of `setupTestRouter`, with tracing handlers. -/
def testRouteConfig : RouteConfig :=
  { Config := testConfig, UserHandler := tracingUserHandler }

/-- The administrative `/users` routes (create, list, list deleted, and get,
update, soft-delete, restore, reset-password, activate, deactivate by id) under
the group `/api/v1` of `routes.SetupRouter`, each with the handler method it is
registered with. -/
def adminUserRoutes (h : UserHandler) : List (String × String × HandlerFunc) :=
  [ ("POST", "/api/v1/users", h.CreateUser),
    ("GET", "/api/v1/users", h.ListUsers),
    ("GET", "/api/v1/users/deleted", h.DeleteListUsers),
    ("GET", "/api/v1/users/:id", h.GetUserByID),
    ("PUT", "/api/v1/users/:id", h.UpdateUser),
    ("DELETE", "/api/v1/users/:id", h.SoftDeleteUser),
    ("PATCH", "/api/v1/users/:id/restore", h.RestoreUser),
    ("PATCH", "/api/v1/users/:id/reset-password", h.ResetPassword),
    ("PATCH", "/api/v1/users/:id/activate", h.ActivateUser),
    ("PATCH", "/api/v1/users/:id/deactivate", h.DeactivateUser) ]

/-- Decidable equality of Go results `(value, error)`. -/
instance instDecidableEqExcept {ε α : Type} [DecidableEq ε] [DecidableEq α] :
    DecidableEq (Except ε α)
  | Except.ok a, Except.ok b =>
    if h : a = b then isTrue (by rw [h]) else isFalse (fun e => h (Except.ok.inj e))
  | Except.error a, Except.error b =>
    if h : a = b then isTrue (by rw [h]) else isFalse (fun e => h (Except.error.inj e))
  | Except.ok _, Except.error _ => isFalse (fun e => Except.noConfusion e)
  | Except.error _, Except.ok _ => isFalse (fun e => Except.noConfusion e)

/-! ## `internal/repository/user_repository.go` -/

/-- The result of a method of a stateful object with state `σ` that returns
`(T, error)`: the Go result and the state left behind. -/
abbrev Result (σ α : Type) := Except String α × σ

/-- The Go idiom `x, err := f(); if err != nil { return nil, err }`, then
the rest of the function body `k` on `x`. -/
def orReturn {σ α β : Type} (r : Result σ α) (k : α → σ → Result σ β) : Result σ β :=
  match r with
  | (Except.error err, st) => (Except.error err, st)
  | (Except.ok x, st) => k x st

/-- The source interface `repository.UserRepository`, over a store of type `σ`.
`Create` and `Update` receive a pointer and may write to the record, so they
also return it; the variadic `excludeID ...uint` is a list.  (The two listing
methods stand last.) -/
structure UserRepository (σ : Type) where
  Create : User → σ → Result σ User
  FindByID : Nat → σ → Result σ User
  FindByUsername : String → σ → Result σ User
  FindByEmail : String → σ → Result σ User
  FindByPhone : String → σ → Result σ User
  FindByUsernameOrEmail : String → σ → Result σ User
  Update : User → σ → Result σ User
  SoftDelete : Nat → σ → Result σ Unit
  HardDelete : Nat → σ → Result σ Unit
  Restore : Nat → σ → Result σ Unit
  IsUsernameExists : String → List Nat → σ → Result σ Bool
  IsEmailExists : String → List Nat → σ → Result σ Bool
  IsPhoneExists : String → List Nat → σ → Result σ Bool
  DeleteList : PaginationQuery → σ → Result σ (List User × Int)
  List : PaginationQuery → σ → Result σ (List User × Int)

/-- The table `users` behind `*gorm.DB`: its rows (soft-deleted ones
included), the next value of the id sequence, and the clock reading used for
time stamps.  Failures of the database connection are not modelled: a query
fails only for the reasons the table itself gives (no row, a value longer
than its column, a violated `unique` index). -/
structure DB where
  users : List User
  nextID : Nat
  now : Nat
  deriving DecidableEq, Repr

namespace userRepository

/-- The scope gorm adds to every query on a model with a `gorm.DeletedAt`
field unless `Unscoped()` is used: `deleted_at IS NULL`. -/
def live (u : User) : Bool := u.DeletedAt.isNone

/-- The row picked by gorm's `First`: among the live rows satisfying `cond`
the one with the least primary key, `gorm.ErrRecordNotFound` mapped by the
repository to `user not found`. -/
def First (db : DB) (cond : User → Bool) : Except String User :=
  let best := (db.users.filter (fun u => live u && cond u)).foldl
    (fun (acc : Option User) u =>
      match acc with
      | none => some u
      | some b => if u.ID < b.ID then some u else some b) none
  match best with
  | none => Except.error "user not found"
  | some u => Except.ok u

/-- The result of `Count` on a scoped query with the condition `cond`. -/
def Count (db : DB) (cond : User → Bool) : Nat :=
  db.users.countP (fun u => live u && cond u)

/-- A row other than the one with primary key `u.ID` holds the username, the
email or the phone of `u` (the three `unique` indexes of the table, which
cover soft-deleted rows as well). -/
def violatesUnique (db : DB) (u : User) : Bool :=
  db.users.any (fun r => r.ID != u.ID
    && (r.Username == u.Username || r.Email == u.Email || r.Phone == u.Phone))

/-- The error text of a violated `unique` index or primary key. -/
def duplicateKey : String := "duplicate key value violates unique constraint"

/-- The widths of the `varchar` columns that the tags of `models.User` declare
(`size:50`, `size:100`, `size:15`, `size:255`, `type:varchar(20)`; the
connection settings of `config.go` are those of PostgreSQL, which counts
characters): the error of the first column, in the order of the fields, whose
value in `u` is longer than its column, if there is one.  (A value whose
excess characters are all spaces, which PostgreSQL cuts to the width of the
column instead, is not set apart from the other values that are too long.) -/
def columnSizeError (u : User) : Option String :=
  if u.Username.length > 50 then
    some "ERROR: value too long for type character varying(50) (SQLSTATE 22001)"
  else if u.Email.length > 100 then
    some "ERROR: value too long for type character varying(100) (SQLSTATE 22001)"
  else if u.Phone.length > 15 then
    some "ERROR: value too long for type character varying(15) (SQLSTATE 22001)"
  else if u.Password.length > 255 then
    some "ERROR: value too long for type character varying(255) (SQLSTATE 22001)"
  else if u.Role.length > 20 then
    some "ERROR: value too long for type character varying(20) (SQLSTATE 22001)"
  else none

/-- The source method `(*userRepository).Create`: gorm's `Create`.  The hook
`BeforeCreate` runs first; a zero id is taken from the sequence; a `false`
`IsActive` is replaced by the column default `true` (a zero value of a field
with a `default` tag is replaced by the default).  The insert fails when a
value is longer than its column, and when the primary key or a `unique` index
is violated. -/
def Create (user : User) (db : DB) : Result DB User :=
  let hooked := user.BeforeCreate db.now
  let row := { hooked with ID := if user.ID = 0 then db.nextID else user.ID, IsActive := true }
  match columnSizeError row with
  | some err => (Except.error err, db)
  | none =>
    if db.users.any (fun r => r.ID == row.ID) || violatesUnique db row then
      (Except.error duplicateKey, db)
    else
      (Except.ok row,
        { db with users := db.users ++ [row],
                  nextID := if user.ID = 0 then db.nextID + 1 else db.nextID })

/-- The source method `(*userRepository).FindByID`. -/
def FindByID (id : Nat) (db : DB) : Result DB User :=
  (First db (fun u => u.ID == id), db)

/-- The source method `(*userRepository).FindByUsername`. -/
def FindByUsername (username : String) (db : DB) : Result DB User :=
  (First db (fun u => u.Username == username), db)

/-- The source method `(*userRepository).FindByEmail`. -/
def FindByEmail (email : String) (db : DB) : Result DB User :=
  (First db (fun u => u.Email == email), db)

/-- The source method `(*userRepository).FindByPhone`. -/
def FindByPhone (phone : String) (db : DB) : Result DB User :=
  (First db (fun u => u.Phone == phone), db)

/-- The source method `(*userRepository).FindByUsernameOrEmail`. -/
def FindByUsernameOrEmail (usernameOrEmail : String) (db : DB) : Result DB User :=
  (First db (fun u => u.Username == usernameOrEmail || u.Email == usernameOrEmail), db)

/-- The record that the insert of gorm's `Save` writes when its `UPDATE`
matched no row: the hooks are skipped (`SkipHooks`), and a zero value of a
field with a default is replaced by it, `role` by `patient`, `is_active` by
`true`, `created_at` by the current time. -/
def insertDefaults (user : User) (now : Nat) : User :=
  { user with
    Role := if user.Role = "" then RolePatient else user.Role,
    IsActive := true,
    CreatedAt := if user.CreatedAt = 0 then now else user.CreatedAt }

/-- The source method `(*userRepository).Update`: gorm's `Save`.  Without a
primary key it is `Create`.  Otherwise `Save` issues an `UPDATE` of every
column, `UpdatedAt` being set to the current time, on the rows with that key
in the scope `deleted_at IS NULL`.  When no row is matched it falls back to an
insert of the record with the defaults of `insertDefaults`, with
`ON CONFLICT (id) DO UPDATE` of every column but `id` and `created_at`, which
overwrites a soft-deleted row with that key.  Either statement fails when a
value is longer than its column or a `unique` index is violated. -/
def Update (user : User) (db : DB) : Result DB User :=
  if user.ID = 0 then Create user db
  else
    let row := { user with UpdatedAt := db.now }
    if db.users.any (fun r => r.ID == row.ID && live r) then
      match columnSizeError row with
      | some err => (Except.error err, db)
      | none =>
        if violatesUnique db row then (Except.error duplicateKey, db)
        else
          let updated := db.users.map (fun r => if r.ID = row.ID ∧ live r then row else r)
          (Except.ok row, { db with users := updated })
    else
      let inserted := insertDefaults row db.now
      match columnSizeError inserted with
      | some err => (Except.error err, db)
      | none =>
        if violatesUnique db inserted then (Except.error duplicateKey, db)
        else if db.users.any (fun r => r.ID == inserted.ID) then
          let upserted := db.users.map
            (fun r => if r.ID = inserted.ID then { inserted with CreatedAt := r.CreatedAt } else r)
          (Except.ok inserted, { db with users := upserted })
        else
          (Except.ok inserted, { db with users := db.users ++ [inserted] })

/-- The source method `(*userRepository).SoftDelete`: gorm's `Delete` on a
model with `DeletedAt`, which stamps the live row. -/
def SoftDelete (id : Nat) (db : DB) : Result DB Unit :=
  (Except.ok (),
    { db with users := db.users.map (fun r =>
        if r.ID = id ∧ live r then { r with DeletedAt := some db.now } else r) })

/-- The source method `(*userRepository).HardDelete`: `Unscoped().Delete`. -/
def HardDelete (id : Nat) (db : DB) : Result DB Unit :=
  (Except.ok (), { db with users := db.users.filter (fun r => r.ID != id) })

/-- The source method `(*userRepository).Restore`: an unscoped update of the
column `deleted_at` to `NULL`, which also stamps `updated_at`. -/
def Restore (id : Nat) (db : DB) : Result DB Unit :=
  (Except.ok (),
    { db with users := db.users.map (fun r =>
        if r.ID = id then { r with DeletedAt := none, UpdatedAt := db.now } else r) })

/-- The condition `id != excludeID[0]` added when `len(excludeID) > 0`. -/
def notExcluded (excludeID : List Nat) (u : User) : Bool :=
  match excludeID with
  | [] => true
  | x :: _ => u.ID != x

/-- The source method `(*userRepository).IsUsernameExists`. -/
def IsUsernameExists (username : String) (excludeID : List Nat) (db : DB) : Result DB Bool :=
  (Except.ok (decide (Count db (fun u => u.Username == username && notExcluded excludeID u) > 0)),
    db)

/-- The source method `(*userRepository).IsEmailExists`. -/
def IsEmailExists (email : String) (excludeID : List Nat) (db : DB) : Result DB Bool :=
  (Except.ok (decide (Count db (fun u => u.Email == email && notExcluded excludeID u) > 0)), db)

/-- The source method `(*userRepository).IsPhoneExists`. -/
def IsPhoneExists (phone : String) (excludeID : List Nat) (db : DB) : Result DB Bool :=
  (Except.ok (decide (Count db (fun u => u.Phone == phone && notExcluded excludeID u) > 0)), db)

end userRepository

/-- The source function `repository.NewUserRepository`.  The two listing
queries (`List`, `DeleteList`: search pattern, filters, offset, limit) are
taken as parameters. -/
def NewUserRepository (list deleteList : PaginationQuery → DB → Result DB (List User × Int)) :
    UserRepository DB :=
  { Create := userRepository.Create,
    FindByID := userRepository.FindByID,
    FindByUsername := userRepository.FindByUsername,
    FindByEmail := userRepository.FindByEmail,
    FindByPhone := userRepository.FindByPhone,
    FindByUsernameOrEmail := userRepository.FindByUsernameOrEmail,
    List := list,
    DeleteList := deleteList,
    Update := userRepository.Update,
    SoftDelete := userRepository.SoftDelete,
    HardDelete := userRepository.HardDelete,
    Restore := userRepository.Restore,
    IsUsernameExists := userRepository.IsUsernameExists,
    IsEmailExists := userRepository.IsEmailExists,
    IsPhoneExists := userRepository.IsPhoneExists }

/-! ## `internal/service/user_service.go` -/

/-- The functions of package `utils` that the service calls and whose bodies
are not among the sources at hand (`HashPassword`, `CheckPassword`,
`GenerateToken`), taken as parameters.  `CheckPassword` receives the stored
hash first; `GenerateToken` returns the token and its expiry time. -/
structure Utils where
  HashPassword : String → Except String String
  CheckPassword : String → String → Bool
  GenerateToken : Nat → String → String → String → String → Nat → Except String (String × Nat)

/-- The source type `service.userService`, with the package-level functions
it calls passed explicitly: `utils`, and `ceilDiv total pageSize` for the
floating-point expression `int(math.Ceil(float64(total) / float64(pageSize)))`. -/
structure userService (σ : Type) where
  repo : UserRepository σ
  config : Config
  utils : Utils
  ceilDiv : Int → Int → Int

namespace userService

variable {σ : Type}

/-- The source method `(*userService).toUserResponse`. -/
def toUserResponse (user : User) : UserResponse :=
  { ID := user.ID, Username := user.Username, Email := user.Email, Phone := user.Phone,
    Role := user.Role, IsActive := user.IsActive, CreatedAt := user.CreatedAt,
    UpdatedAt := user.UpdatedAt }

/-- The source method `(*userService).toDeletedUserResponse`. -/
def toDeletedUserResponse (user : User) : DeletedUserResponse :=
  { ID := user.ID, Username := user.Username, Email := user.Email, Phone := user.Phone,
    Role := user.Role, IsActive := user.IsActive, CreatedAt := user.CreatedAt,
    UpdatedAt := user.UpdatedAt, DeletedAt := user.DeletedAt.getD 0 }

/-- The source method `(*userService).Register`. -/
def Register (s : userService σ) (req : RegisterRequest) (st : σ) : Result σ UserResponse :=
  orReturn (s.repo.IsUsernameExists req.Username [] st) fun exists_ st =>
  if exists_ then (Except.error "username already exists", st) else
  orReturn (s.repo.IsEmailExists req.Email [] st) fun exists_ st =>
  if exists_ then (Except.error "email already exists", st) else
  orReturn (s.repo.IsPhoneExists req.Phone [] st) fun exists_ st =>
  if exists_ then (Except.error "phone already exists", st) else
  match s.utils.HashPassword req.Password with
  | Except.error err => (Except.error err, st)
  | Except.ok hashedPassword =>
    let role := if req.Role = "" then RolePatient else req.Role
    if !ValidateRole role then (Except.error "invalid role", st) else
    let user : User :=
      { ID := 0, Username := req.Username, Email := req.Email, Phone := req.Phone,
        Password := hashedPassword, Role := role, IsActive := true,
        CreatedAt := 0, UpdatedAt := 0, DeletedAt := none }
    orReturn (s.repo.Create user st) fun user st =>
    (Except.ok (toUserResponse user), st)

/-- The source method `(*userService).Login`. -/
def Login (s : userService σ) (req : LoginRequest) (st : σ) : Result σ LoginResponse :=
  match s.repo.FindByUsernameOrEmail req.UsernameOrEmail st with
  | (Except.error _, st) => (Except.error "invalid credentials", st)
  | (Except.ok user, st) =>
    if !user.IsActive then (Except.error "user account is inactive", st)
    else if !s.utils.CheckPassword user.Password req.Password then
      (Except.error "invalid credentials", st)
    else
      match s.utils.GenerateToken user.ID user.Username user.Email user.Role
          s.config.JWT.Secret s.config.JWT.ExpiredTime with
      | Except.error err => (Except.error err, st)
      | Except.ok (token, expiresAt) =>
        (Except.ok { Token := token, ExpiresAt := expiresAt, User := toUserResponse user }, st)

/-- The source method `(*userService).CreateUser`. -/
def CreateUser (s : userService σ) (req : CreateUserRequest) (st : σ) : Result σ UserResponse :=
  orReturn (s.repo.IsUsernameExists req.Username [] st) fun exists_ st =>
  if exists_ then (Except.error "username already exists", st) else
  orReturn (s.repo.IsEmailExists req.Email [] st) fun exists_ st =>
  if exists_ then (Except.error "email already exists", st) else
  orReturn (s.repo.IsPhoneExists req.Phone [] st) fun exists_ st =>
  if exists_ then (Except.error "phone already exists", st) else
  match s.utils.HashPassword req.Password with
  | Except.error err => (Except.error err, st)
  | Except.ok hashedPassword =>
    let role := if req.Role = "" then RolePatient else req.Role
    if !ValidateRole role then (Except.error "invalid role", st) else
    let user : User :=
      { ID := 0, Username := req.Username, Email := req.Email, Phone := req.Phone,
        Password := hashedPassword, Role := role, IsActive := true,
        CreatedAt := 0, UpdatedAt := 0, DeletedAt := none }
    orReturn (s.repo.Create user st) fun user st =>
    (Except.ok (toUserResponse user), st)

/-- The source method `(*userService).GetUserByID`. -/
def GetUserByID (s : userService σ) (id : Nat) (st : σ) : Result σ UserResponse :=
  orReturn (s.repo.FindByID id st) fun user st =>
  (Except.ok (toUserResponse user), st)

/-- The normalisation of the query shared by `ListUsers` and `DeleteListUsers`
(the five leading `if` statements), with the default sort column `sortBy`. -/
def normalizeQuery (s : userService σ) (sortBy : String) (query : PaginationQuery) :
    PaginationQuery :=
  let query := if query.Page < 1 then { query with Page := 1 } else query
  let query := if query.PageSize < 1 then
    { query with PageSize := s.config.Pagination.DefaultPageSize } else query
  let query := if query.PageSize > s.config.Pagination.MaxPageSize then
    { query with PageSize := s.config.Pagination.MaxPageSize } else query
  let query := if query.SortBy = "" then { query with SortBy := sortBy } else query
  if query.SortDir = "" then { query with SortDir := "desc" } else query

/-- The source method `(*userService).ListUsers`. -/
def ListUsers (s : userService σ) (query : PaginationQuery) (st : σ) :
    Result σ UserListResponse :=
  let query := s.normalizeQuery "created_at" query
  if query.Role ≠ "" ∧ !ValidateRole query.Role then (Except.error "invalid role filter", st)
  else
    orReturn (s.repo.List query st) fun found st =>
    let totalPages := s.ceilDiv found.2 query.PageSize
    (Except.ok { Data := found.1.map toUserResponse,
                 Meta := { Page := query.Page, PageSize := query.PageSize,
                           TotalItems := found.2, TotalPages := totalPages } }, st)

/-- The source method `(*userService).DeleteListUsers`. -/
def DeleteListUsers (s : userService σ) (query : PaginationQuery) (st : σ) :
    Result σ DeletedUserListResponse :=
  let query := s.normalizeQuery "deleted_at" query
  if query.Role ≠ "" ∧ !ValidateRole query.Role then (Except.error "invalid role filter", st)
  else
    orReturn (s.repo.DeleteList query st) fun found st =>
    let totalPages := s.ceilDiv found.2 query.PageSize
    (Except.ok { Data := found.1.map toDeletedUserResponse,
                 Meta := { Page := query.Page, PageSize := query.PageSize,
                           TotalItems := found.2, TotalPages := totalPages } }, st)

/-- The block `if req.Username != nil && *req.Username != user.Username` of
`UpdateUser`: the uniqueness check excluding `id`, then the assignment. -/
def setUsername (s : userService σ) (id : Nat) (username : Option String) (user : User)
    (st : σ) : Result σ User :=
  match username with
  | none => (Except.ok user, st)
  | some username =>
    if username ≠ user.Username then
      orReturn (s.repo.IsUsernameExists username [id] st) fun exists_ st =>
      if exists_ then (Except.error "username already exists", st)
      else (Except.ok { user with Username := username }, st)
    else (Except.ok user, st)

/-- The block `if req.Email != nil && *req.Email != user.Email` of `UpdateUser`. -/
def setEmail (s : userService σ) (id : Nat) (email : Option String) (user : User)
    (st : σ) : Result σ User :=
  match email with
  | none => (Except.ok user, st)
  | some email =>
    if email ≠ user.Email then
      orReturn (s.repo.IsEmailExists email [id] st) fun exists_ st =>
      if exists_ then (Except.error "email already exists", st)
      else (Except.ok { user with Email := email }, st)
    else (Except.ok user, st)

/-- The block `if req.Phone != nil && *req.Phone != user.Phone` of `UpdateUser`. -/
def setPhone (s : userService σ) (id : Nat) (phone : Option String) (user : User)
    (st : σ) : Result σ User :=
  match phone with
  | none => (Except.ok user, st)
  | some phone =>
    if phone ≠ user.Phone then
      orReturn (s.repo.IsPhoneExists phone [id] st) fun exists_ st =>
      if exists_ then (Except.error "phone already exists", st)
      else (Except.ok { user with Phone := phone }, st)
    else (Except.ok user, st)

/-- The block `if req.Password != nil` of `UpdateUser`. -/
def setPassword (s : userService σ) (password : Option String) (user : User) (st : σ) :
    Result σ User :=
  match password with
  | none => (Except.ok user, st)
  | some password =>
    match s.utils.HashPassword password with
    | Except.error err => (Except.error err, st)
    | Except.ok hashedPassword => (Except.ok { user with Password := hashedPassword }, st)

/-- The block `if req.Role != nil` of `UpdateUser`. -/
def setRole (role : Option String) (user : User) (st : σ) : Result σ User :=
  match role with
  | none => (Except.ok user, st)
  | some role =>
    if !ValidateRole role then (Except.error "invalid role", st)
    else (Except.ok { user with Role := role }, st)

/-- The block `if req.IsActive != nil` of `UpdateUser`. -/
def setIsActive (isActive : Option Bool) (user : User) : User :=
  match isActive with
  | none => user
  | some isActive => { user with IsActive := isActive }

/-- The rest of `UpdateUser` after the three uniqueness blocks: the blocks
for password, role and active flag, then `Update` and the response. -/
def finishUpdate (s : userService σ) (req : UpdateUserRequest) (user : User) (st : σ) :
    Result σ UserResponse :=
  orReturn (s.setPassword req.Password user st) fun user st =>
  orReturn (setRole req.Role user st) fun user st =>
  let user := setIsActive req.IsActive user
  orReturn (s.repo.Update user st) fun user st =>
  (Except.ok (toUserResponse user), st)

/-- The source method `(*userService).UpdateUser`: the record is looked up,
the blocks for username, email, phone, password, role and active flag run in
this order on the record in memory, each returning at its first error, and the
record is written with `Update` at the end. -/
def UpdateUser (s : userService σ) (id : Nat) (req : UpdateUserRequest) (st : σ) :
    Result σ UserResponse :=
  orReturn (s.repo.FindByID id st) fun user st =>
  orReturn (s.setUsername id req.Username user st) fun user st =>
  orReturn (s.setEmail id req.Email user st) fun user st =>
  orReturn (s.setPhone id req.Phone user st) fun user st =>
  s.finishUpdate req user st

/-- The source method `(*userService).ChangePassword`. -/
def ChangePassword (s : userService σ) (id : Nat) (req : ChangePasswordRequest) (st : σ) :
    Result σ Unit :=
  orReturn (s.repo.FindByID id st) fun user st =>
  if !s.utils.CheckPassword user.Password req.OldPassword then
    (Except.error "old password is incorrect", st)
  else
    match s.utils.HashPassword req.NewPassword with
    | Except.error err => (Except.error err, st)
    | Except.ok hashedPassword =>
      orReturn (s.repo.Update { user with Password := hashedPassword } st) fun _ st =>
      (Except.ok (), st)

/-- The source method `(*userService).SoftDeleteUser`. -/
def SoftDeleteUser (s : userService σ) (id : Nat) (st : σ) : Result σ Unit :=
  orReturn (s.repo.FindByID id st) fun _ st =>
  s.repo.SoftDelete id st

/-- The source method `(*userService).HardDeleteUser`. -/
def HardDeleteUser (s : userService σ) (id : Nat) (st : σ) : Result σ Unit :=
  s.repo.HardDelete id st

/-- The source method `(*userService).RestoreUser`. -/
def RestoreUser (s : userService σ) (id : Nat) (st : σ) : Result σ Unit :=
  s.repo.Restore id st

/-- The source method `(*userService).ResetPassword`. -/
def ResetPassword (s : userService σ) (id : Nat) (newPassword : String) (st : σ) :
    Result σ Unit :=
  orReturn (s.repo.FindByID id st) fun user st =>
  match s.utils.HashPassword newPassword with
  | Except.error err => (Except.error err, st)
  | Except.ok hashedPassword =>
    orReturn (s.repo.Update { user with Password := hashedPassword } st) fun _ st =>
    (Except.ok (), st)

/-- The source method `(*userService).ActivateUser`. -/
def ActivateUser (s : userService σ) (id : Nat) (st : σ) : Result σ Unit :=
  orReturn (s.repo.FindByID id st) fun user st =>
  orReturn (s.repo.Update { user with IsActive := true } st) fun _ st =>
  (Except.ok (), st)

/-- The source method `(*userService).DeactivateUser`. -/
def DeactivateUser (s : userService σ) (id : Nat) (st : σ) : Result σ Unit :=
  orReturn (s.repo.FindByID id st) fun user st =>
  orReturn (s.repo.Update { user with IsActive := false } st) fun _ st =>
  (Except.ok (), st)

/-- The source method `(*userService).VerifyPasswordForDeletion`. -/
def VerifyPasswordForDeletion (s : userService σ) (id : Nat) (password : String) (st : σ) :
    Result σ Unit :=
  orReturn (s.repo.FindByID id st) fun user st =>
  if !s.utils.CheckPassword user.Password password then (Except.error "invalid password", st)
  else (Except.ok (), st)

end userService

/-- The source interface `service.UserService`, over a state of type `σ`. -/
structure UserService (σ : Type) where
  Register : RegisterRequest → σ → Result σ UserResponse
  Login : LoginRequest → σ → Result σ LoginResponse
  CreateUser : CreateUserRequest → σ → Result σ UserResponse
  GetUserByID : Nat → σ → Result σ UserResponse
  ListUsers : PaginationQuery → σ → Result σ UserListResponse
  DeleteListUsers : PaginationQuery → σ → Result σ DeletedUserListResponse
  UpdateUser : Nat → UpdateUserRequest → σ → Result σ UserResponse
  SoftDeleteUser : Nat → σ → Result σ Unit
  HardDeleteUser : Nat → σ → Result σ Unit
  RestoreUser : Nat → σ → Result σ Unit
  ChangePassword : Nat → ChangePasswordRequest → σ → Result σ Unit
  ResetPassword : Nat → String → σ → Result σ Unit
  ActivateUser : Nat → σ → Result σ Unit
  DeactivateUser : Nat → σ → Result σ Unit
  VerifyPasswordForDeletion : Nat → String → σ → Result σ Unit

/-- The source function `service.NewUserService`: the interface value whose
methods are those of `userService`. -/
def NewUserService {σ : Type} (s : userService σ) : UserService σ :=
  { Register := s.Register,
    Login := s.Login,
    CreateUser := s.CreateUser,
    GetUserByID := s.GetUserByID,
    ListUsers := s.ListUsers,
    DeleteListUsers := s.DeleteListUsers,
    UpdateUser := s.UpdateUser,
    SoftDeleteUser := s.SoftDeleteUser,
    HardDeleteUser := s.HardDeleteUser,
    RestoreUser := s.RestoreUser,
    ChangePassword := s.ChangePassword,
    ResetPassword := s.ResetPassword,
    ActivateUser := s.ActivateUser,
    DeactivateUser := s.DeactivateUser,
    VerifyPasswordForDeletion := s.VerifyPasswordForDeletion }

/-! ## `internal/handler/user_handler.go` -/

/-- The binding functions of gin, one for each target type: `ctx.ShouldBindJSON(&req)`
decodes and validates the request body, `ctx.ShouldBindQuery(&query)` the
query string.  Their bodies belong to gin and the validator library and are
taken as parameters. -/
structure Binding where
  bindRegisterRequest : String → Except String RegisterRequest
  bindLoginRequest : String → Except String LoginRequest
  bindCreateUserRequest : String → Except String CreateUserRequest
  bindUpdateUserRequest : String → Except String UpdateUserRequest
  bindChangePasswordRequest : String → Except String ChangePasswordRequest
  bindResetPasswordRequest : String → Except String ResetPasswordRequest
  bindDeleteAccountRequest : String → Except String DeleteAccountRequest
  bindDeactivateAccountRequest : String → Except String DeactivateAccountRequest
  bindPaginationQuery : String → Except String PaginationQuery

namespace handler

variable {σ : Type}

/-- The source method `(*UserHandler).getUserIDFromContext`; `none` is the
panic of the type assertion `userID.(uint)`. -/
def getUserIDFromContext (ctx : Context) : Option (Except String Nat) :=
  match ctx.Get "user_id" with
  | none => some (Except.error "user not authenticated")
  | some (Value.uint userID) => some (Except.ok userID)
  | some (Value.str _) => none

/-- The source method `(*UserHandler).getUserRoleFromContext`. -/
def getUserRoleFromContext (ctx : Context) : Option (Except String String) :=
  match ctx.Get "role" with
  | none => some (Except.error "user role not found")
  | some (Value.str role) => some (Except.ok role)
  | some (Value.uint _) => none

/-- The source method `(*UserHandler).Register`. -/
def Register (service : UserService σ) (bind : Binding) (ctx : Context) (st : σ) : Context × σ :=
  match bind.bindRegisterRequest ctx.Body with
  | Except.error err => (ValidationErrorResponse ctx err, st)
  | Except.ok req =>
    match service.Register req st with
    | (Except.error err, st) =>
      (ErrorResponse ctx StatusBadRequest "Failed to register user" (ErrorDetail.text err), st)
    | (Except.ok user, st) =>
      (SuccessResponse ctx StatusCreated "User registered successfully"
        (some (ResponseData.user user)), st)

/-- The source method `(*UserHandler).Login`. -/
def Login (service : UserService σ) (bind : Binding) (ctx : Context) (st : σ) : Context × σ :=
  match bind.bindLoginRequest ctx.Body with
  | Except.error err => (ValidationErrorResponse ctx err, st)
  | Except.ok req =>
    match service.Login req st with
    | (Except.error err, st) =>
      (ErrorResponse ctx StatusUnauthorized "Login failed" (ErrorDetail.text err), st)
    | (Except.ok response, st) =>
      (SuccessResponse ctx StatusOK "Login successful" (some (ResponseData.login response)), st)

/-- The source method `(*UserHandler).ResetPassword`. -/
def ResetPassword (service : UserService σ) (bind : Binding) (ctx : Context) (st : σ) :
    Context × σ :=
  match ParseUint (ctx.Param "id") with
  | Except.error err =>
    (ErrorResponse ctx StatusBadRequest "Invalid user ID" (ErrorDetail.numError err), st)
  | Except.ok id =>
    match bind.bindResetPasswordRequest ctx.Body with
    | Except.error err => (ValidationErrorResponse ctx err, st)
    | Except.ok req =>
      match service.ResetPassword (toUint id) req.NewPassword st with
      | (Except.error err, st) =>
        (ErrorResponse ctx StatusBadRequest "Failed to reset password" (ErrorDetail.text err), st)
      | (Except.ok _, st) =>
        (SuccessResponse ctx StatusOK "Password reset successfully" none, st)

/-- The source method `(*UserHandler).CreateUser`. -/
def CreateUser (service : UserService σ) (bind : Binding) (ctx : Context) (st : σ) :
    Context × σ :=
  match bind.bindCreateUserRequest ctx.Body with
  | Except.error err => (ValidationErrorResponse ctx err, st)
  | Except.ok req =>
    match service.CreateUser req st with
    | (Except.error err, st) =>
      (ErrorResponse ctx StatusBadRequest "Failed to created user" (ErrorDetail.text err), st)
    | (Except.ok response, st) =>
      (SuccessResponse ctx StatusOK "User created successfully"
        (some (ResponseData.user response)), st)

/-- The source method `(*UserHandler).GetUserByID`. -/
def GetUserByID (service : UserService σ) (ctx : Context) (st : σ) : Context × σ :=
  match ParseUint (ctx.Param "id") with
  | Except.error err =>
    (ErrorResponse ctx StatusBadRequest "Invalid user ID" (ErrorDetail.numError err), st)
  | Except.ok id =>
    match service.GetUserByID (toUint id) st with
    | (Except.error err, st) =>
      (ErrorResponse ctx StatusNotFound "User not found" (ErrorDetail.text err), st)
    | (Except.ok user, st) =>
      (SuccessResponse ctx StatusOK "User retrieved successfully"
        (some (ResponseData.user user)), st)

/-- The source method `(*UserHandler).ListUsers`. -/
def ListUsers (service : UserService σ) (bind : Binding) (ctx : Context) (st : σ) :
    Context × σ :=
  match bind.bindPaginationQuery ctx.RawQuery with
  | Except.error err => (ValidationErrorResponse ctx err, st)
  | Except.ok query =>
    match service.ListUsers query st with
    | (Except.error err, st) =>
      (ErrorResponse ctx StatusBadRequest "Failed to retrieve users" (ErrorDetail.text err), st)
    | (Except.ok users, st) =>
      (SuccessResponse ctx StatusOK "Users retrieved successfully"
        (some (ResponseData.users users)), st)

/-- The source method `(*UserHandler).DeleteListUsers`. -/
def DeleteListUsers (service : UserService σ) (bind : Binding) (ctx : Context) (st : σ) :
    Context × σ :=
  match bind.bindPaginationQuery ctx.RawQuery with
  | Except.error err => (ValidationErrorResponse ctx err, st)
  | Except.ok query =>
    match service.DeleteListUsers query st with
    | (Except.error err, st) =>
      (ErrorResponse ctx StatusBadRequest "Failed to retrieve users" (ErrorDetail.text err), st)
    | (Except.ok deletedUsers, st) =>
      (SuccessResponse ctx StatusOK "Deleted users retrieved successfully"
        (some (ResponseData.deletedUsers deletedUsers)), st)

/-- The source method `(*UserHandler).UpdateUser`. -/
def UpdateUser (service : UserService σ) (bind : Binding) (ctx : Context) (st : σ) :
    Context × σ :=
  match ParseUint (ctx.Param "id") with
  | Except.error err =>
    (ErrorResponse ctx StatusBadRequest "Invalid user id" (ErrorDetail.numError err), st)
  | Except.ok id =>
    match bind.bindUpdateUserRequest ctx.Body with
    | Except.error err => (ValidationErrorResponse ctx err, st)
    | Except.ok req =>
      match service.UpdateUser (toUint id) req st with
      | (Except.error err, st) =>
        (ErrorResponse ctx StatusBadRequest "Failed to updateuser" (ErrorDetail.text err), st)
      | (Except.ok user, st) =>
        (SuccessResponse ctx StatusOK "User updated successfuly"
          (some (ResponseData.user user)), st)

/-- The source method `(*UserHandler).SoftDeleteUser`. -/
def SoftDeleteUser (service : UserService σ) (ctx : Context) (st : σ) : Context × σ :=
  match ParseUint (ctx.Param "id") with
  | Except.error err =>
    (ErrorResponse ctx StatusBadRequest "Invalid user ID" (ErrorDetail.numError err), st)
  | Except.ok id =>
    match service.SoftDeleteUser (toUint id) st with
    | (Except.error err, st) =>
      (ErrorResponse ctx StatusNotFound "Failed to delete user" (ErrorDetail.text err), st)
    | (Except.ok _, st) => (SuccessResponse ctx StatusOK "User deleted successfully" none, st)

/-- The source method `(*UserHandler).HardDeleteUser`. -/
def HardDeleteUser (service : UserService σ) (ctx : Context) (st : σ) : Context × σ :=
  match ParseUint (ctx.Param "id") with
  | Except.error err =>
    (ErrorResponse ctx StatusBadRequest "Invalid user ID" (ErrorDetail.numError err), st)
  | Except.ok id =>
    match service.HardDeleteUser (toUint id) st with
    | (Except.error err, st) =>
      (ErrorResponse ctx StatusBadRequest "Failed to permanently delete user"
        (ErrorDetail.text err), st)
    | (Except.ok _, st) =>
      (SuccessResponse ctx StatusOK "User permanently delete successfully" none, st)

/-- The source method `(*UserHandler).RestoreUser`. -/
def RestoreUser (service : UserService σ) (ctx : Context) (st : σ) : Context × σ :=
  match ParseUint (ctx.Param "id") with
  | Except.error err =>
    (ErrorResponse ctx StatusBadRequest "Invalid user ID" (ErrorDetail.numError err), st)
  | Except.ok id =>
    match service.RestoreUser (toUint id) st with
    | (Except.error err, st) =>
      (ErrorResponse ctx StatusBadRequest "Failed to restore user" (ErrorDetail.text err), st)
    | (Except.ok _, st) => (SuccessResponse ctx StatusOK "User restored successfully" none, st)

/-- The source method `(*UserHandler).ActivateUser`; on success it returns
without writing a response. -/
def ActivateUser (service : UserService σ) (ctx : Context) (st : σ) : Context × σ :=
  match ParseUint (ctx.Param "id") with
  | Except.error err =>
    (ErrorResponse ctx StatusBadRequest "Invalid user ID" (ErrorDetail.numError err), st)
  | Except.ok id =>
    match service.ActivateUser (toUint id) st with
    | (Except.error err, st) =>
      (ErrorResponse ctx StatusBadRequest "Failed to activated user" (ErrorDetail.text err), st)
    | (Except.ok _, st) => (ctx, st)

/-- The source method `(*UserHandler).DeactivateUser`. -/
def DeactivateUser (service : UserService σ) (ctx : Context) (st : σ) : Context × σ :=
  match ParseUint (ctx.Param "id") with
  | Except.error err =>
    (ErrorResponse ctx StatusBadRequest "Invalid user ID" (ErrorDetail.numError err), st)
  | Except.ok id =>
    match service.DeactivateUser (toUint id) st with
    | (Except.error err, st) =>
      (ErrorResponse ctx StatusBadRequest "Failed to deactivate user" (ErrorDetail.text err), st)
    | (Except.ok _, st) =>
      (SuccessResponse ctx StatusOK "User deactivated successfully" none, st)

/-- The source method `(*UserHandler).GetMyProfile`. -/
def GetMyProfile (service : UserService σ) (ctx : Context) (st : σ) : Context × σ :=
  match getUserIDFromContext ctx with
  | none => (ctx.panic, st)
  | some (Except.error err) =>
    (ErrorResponse ctx StatusUnauthorized "Unauthorized" (ErrorDetail.text err), st)
  | some (Except.ok userID) =>
    match service.GetUserByID userID st with
    | (Except.error err, st) =>
      (ErrorResponse ctx StatusNotFound "User not found" (ErrorDetail.text err), st)
    | (Except.ok user, st) =>
      (SuccessResponse ctx StatusOK "Profile retrieved successfully"
        (some (ResponseData.user user)), st)

/-- The source method `(*UserHandler).UpdateMyProfile`. -/
def UpdateMyProfile (service : UserService σ) (bind : Binding) (ctx : Context) (st : σ) :
    Context × σ :=
  match getUserIDFromContext ctx with
  | none => (ctx.panic, st)
  | some (Except.error err) =>
    (ErrorResponse ctx StatusUnauthorized "Unauthorized" (ErrorDetail.text err), st)
  | some (Except.ok userID) =>
    match bind.bindUpdateUserRequest ctx.Body with
    | Except.error err => (ValidationErrorResponse ctx err, st)
    | Except.ok req =>
      if req.Role ≠ none then
        (ErrorResponse ctx StatusForbidden "Cannot change role via profile update"
          ErrorDetail.nil, st)
      else if req.IsActive ≠ none then
        (ErrorResponse ctx StatusForbidden "Cannot change account status via profile update"
          ErrorDetail.nil, st)
      else
        match service.UpdateUser userID req st with
        | (Except.error err, st) =>
          (ErrorResponse ctx StatusBadRequest "Failed to update profile"
            (ErrorDetail.text err), st)
        | (Except.ok user, st) =>
          (SuccessResponse ctx StatusOK "Profile updated successfully"
            (some (ResponseData.user user)), st)

/-- The source method `(*UserHandler).ChangeMyPassword`. -/
def ChangeMyPassword (service : UserService σ) (bind : Binding) (ctx : Context) (st : σ) :
    Context × σ :=
  match getUserIDFromContext ctx with
  | none => (ctx.panic, st)
  | some (Except.error err) =>
    (ErrorResponse ctx StatusUnauthorized "Unauthorized" (ErrorDetail.text err), st)
  | some (Except.ok userID) =>
    match bind.bindChangePasswordRequest ctx.Body with
    | Except.error err => (ValidationErrorResponse ctx err, st)
    | Except.ok req =>
      match service.ChangePassword userID req st with
      | (Except.error err, st) =>
        (ErrorResponse ctx StatusBadRequest "Failed to change password"
          (ErrorDetail.text err), st)
      | (Except.ok _, st) =>
        (SuccessResponse ctx StatusOK "Password changed successfully" none, st)

/-- The source method `(*UserHandler).DeleteMyAccount`. -/
def DeleteMyAccount (service : UserService σ) (bind : Binding) (ctx : Context) (st : σ) :
    Context × σ :=
  match getUserIDFromContext ctx with
  | none => (ctx.panic, st)
  | some (Except.error err) =>
    (ErrorResponse ctx StatusUnauthorized "Unauthorized" (ErrorDetail.text err), st)
  | some (Except.ok userID) =>
    match bind.bindDeleteAccountRequest ctx.Body with
    | Except.error err => (ValidationErrorResponse ctx err, st)
    | Except.ok req =>
      match service.VerifyPasswordForDeletion userID req.Password st with
      | (Except.error err, st) =>
        (ErrorResponse ctx StatusUnauthorized "Invalid password" (ErrorDetail.text err), st)
      | (Except.ok _, st) =>
        match service.SoftDeleteUser userID st with
        | (Except.error err, st) =>
          (ErrorResponse ctx StatusBadRequest "Failed to deleted account"
            (ErrorDetail.text err), st)
        | (Except.ok _, st) =>
          (SuccessResponse ctx StatusOK "Account deleted successfully" none, st)

/-- The source method `(*UserHandler).DeactivateMyAccount`. -/
def DeactivateMyAccount (service : UserService σ) (bind : Binding) (ctx : Context) (st : σ) :
    Context × σ :=
  match getUserIDFromContext ctx with
  | none => (ctx.panic, st)
  | some (Except.error err) =>
    (ErrorResponse ctx StatusUnauthorized "Unauthorized" (ErrorDetail.text err), st)
  | some (Except.ok userID) =>
    match bind.bindDeactivateAccountRequest ctx.Body with
    | Except.error err => (ValidationErrorResponse ctx err, st)
    | Except.ok req =>
      match service.VerifyPasswordForDeletion userID req.Password st with
      | (Except.error err, st) =>
        (ErrorResponse ctx StatusUnauthorized "Invalid password" (ErrorDetail.text err), st)
      | (Except.ok _, st) =>
        match service.DeactivateUser userID st with
        | (Except.error err, st) =>
          (ErrorResponse ctx StatusBadRequest "Failed to deactivate account"
            (ErrorDetail.text err), st)
        | (Except.ok _, st) =>
          (SuccessResponse ctx StatusOK
            "Account deactivate successfully. You can reactivate by contacting admin." none, st)

end handler

/-- The source function `handler.NewUserHandler`, as the method values the
router registers: each is the handler run against the service in state `st`,
giving the context it leaves (the state it leaves is given by the functions of
namespace `handler`). -/
def NewUserHandler {σ : Type} (service : UserService σ) (bind : Binding) (st : σ) : UserHandler :=
  { Register := fun _ ctx => (handler.Register service bind ctx st).1,
    Login := fun _ ctx => (handler.Login service bind ctx st).1,
    GetMyProfile := fun _ ctx => (handler.GetMyProfile service ctx st).1,
    UpdateMyProfile := fun _ ctx => (handler.UpdateMyProfile service bind ctx st).1,
    ChangeMyPassword := fun _ ctx => (handler.ChangeMyPassword service bind ctx st).1,
    DeleteMyAccount := fun _ ctx => (handler.DeleteMyAccount service bind ctx st).1,
    DeactivateMyAccount := fun _ ctx => (handler.DeactivateMyAccount service bind ctx st).1,
    CreateUser := fun _ ctx => (handler.CreateUser service bind ctx st).1,
    ListUsers := fun _ ctx => (handler.ListUsers service bind ctx st).1,
    DeleteListUsers := fun _ ctx => (handler.DeleteListUsers service bind ctx st).1,
    GetUserByID := fun _ ctx => (handler.GetUserByID service ctx st).1,
    UpdateUser := fun _ ctx => (handler.UpdateUser service bind ctx st).1,
    SoftDeleteUser := fun _ ctx => (handler.SoftDeleteUser service ctx st).1,
    RestoreUser := fun _ ctx => (handler.RestoreUser service ctx st).1,
    ResetPassword := fun _ ctx => (handler.ResetPassword service bind ctx st).1,
    ActivateUser := fun _ ctx => (handler.ActivateUser service ctx st).1,
    DeactivateUser := fun _ ctx => (handler.DeactivateUser service ctx st).1,
    HardDeleteUser := fun _ ctx => (handler.HardDeleteUser service ctx st).1 }

/-! ## Observing the calls a handler makes into the service -/

/-- One call of a method of `service.UserService`, with its arguments. -/
inductive ServiceCall where
  | Register (req : RegisterRequest)
  | Login (req : LoginRequest)
  | CreateUser (req : CreateUserRequest)
  | GetUserByID (id : Nat)
  | ListUsers (query : PaginationQuery)
  | DeleteListUsers (query : PaginationQuery)
  | UpdateUser (id : Nat) (req : UpdateUserRequest)
  | SoftDeleteUser (id : Nat)
  | HardDeleteUser (id : Nat)
  | RestoreUser (id : Nat)
  | ChangePassword (id : Nat) (req : ChangePasswordRequest)
  | ResetPassword (id : Nat) (newPassword : String)
  | ActivateUser (id : Nat)
  | DeactivateUser (id : Nat)
  | VerifyPasswordForDeletion (id : Nat) (password : String)
  deriving DecidableEq, Repr

/-- The account a service call addresses: its `id` argument, if it has one. -/
def ServiceCall.subject : ServiceCall → Option Nat
  | ServiceCall.GetUserByID id => some id
  | ServiceCall.UpdateUser id _ => some id
  | ServiceCall.SoftDeleteUser id => some id
  | ServiceCall.HardDeleteUser id => some id
  | ServiceCall.RestoreUser id => some id
  | ServiceCall.ChangePassword id _ => some id
  | ServiceCall.ResetPassword id _ => some id
  | ServiceCall.ActivateUser id => some id
  | ServiceCall.DeactivateUser id => some id
  | ServiceCall.VerifyPasswordForDeletion id _ => some id
  | _ => none

/-- The result of a call together with the log extended by that call. -/
def logged {σ α : Type} (call : ServiceCall) (log : List ServiceCall) (r : Result σ α) :
    Result (σ × List ServiceCall) α :=
  (r.1, (r.2, log ++ [call]))

/-- A service that behaves as `service` and appends every call it receives
to a log kept beside the state. -/
def traced {σ : Type} (service : UserService σ) : UserService (σ × List ServiceCall) :=
  { Register := fun req st => logged (ServiceCall.Register req) st.2 (service.Register req st.1),
    Login := fun req st => logged (ServiceCall.Login req) st.2 (service.Login req st.1),
    CreateUser := fun req st =>
      logged (ServiceCall.CreateUser req) st.2 (service.CreateUser req st.1),
    GetUserByID := fun id st =>
      logged (ServiceCall.GetUserByID id) st.2 (service.GetUserByID id st.1),
    ListUsers := fun query st =>
      logged (ServiceCall.ListUsers query) st.2 (service.ListUsers query st.1),
    DeleteListUsers := fun query st =>
      logged (ServiceCall.DeleteListUsers query) st.2 (service.DeleteListUsers query st.1),
    UpdateUser := fun id req st =>
      logged (ServiceCall.UpdateUser id req) st.2 (service.UpdateUser id req st.1),
    SoftDeleteUser := fun id st =>
      logged (ServiceCall.SoftDeleteUser id) st.2 (service.SoftDeleteUser id st.1),
    HardDeleteUser := fun id st =>
      logged (ServiceCall.HardDeleteUser id) st.2 (service.HardDeleteUser id st.1),
    RestoreUser := fun id st =>
      logged (ServiceCall.RestoreUser id) st.2 (service.RestoreUser id st.1),
    ChangePassword := fun id req st =>
      logged (ServiceCall.ChangePassword id req) st.2 (service.ChangePassword id req st.1),
    ResetPassword := fun id newPassword st =>
      logged (ServiceCall.ResetPassword id newPassword) st.2
        (service.ResetPassword id newPassword st.1),
    ActivateUser := fun id st =>
      logged (ServiceCall.ActivateUser id) st.2 (service.ActivateUser id st.1),
    DeactivateUser := fun id st =>
      logged (ServiceCall.DeactivateUser id) st.2 (service.DeactivateUser id st.1),
    VerifyPasswordForDeletion := fun id password st =>
      logged (ServiceCall.VerifyPasswordForDeletion id password) st.2
        (service.VerifyPasswordForDeletion id password st.1) }

/-! ## Wiring and fixtures for concrete runs -/

/-- The wiring of `initDependencies` in `cmd/api/main.go`: the user service
over the repository on the table `users`. -/
def dbService (cfg : Config) (utils : Utils) (ceilDiv : Int → Int → Int)
    (list deleteList : PaginationQuery → DB → Result DB (List User × Int)) : userService DB :=
  { repo := NewUserRepository list deleteList, config := cfg, utils := utils, ceilDiv := ceilDiv }

/-- A password codec and token issuer for concrete runs: the hash of `p` is
`hash:p`, and the token of user `u` is `token:u`, expiring at the lifetime. -/
def testUtils : Utils :=
  { HashPassword := fun password => Except.ok ("hash:" ++ password),
    CheckPassword := fun hashedPassword password => hashedPassword == "hash:" ++ password,
    GenerateToken := fun _ username _ _ _ expiredTime =>
      Except.ok ("token:" ++ username, expiredTime) }

/-- A listing query for concrete runs: no rows. -/
def testList : PaginationQuery → DB → Result DB (List User × Int) :=
  fun _ db => (Except.ok ([], 0), db)

/-- The user service for concrete runs. -/
def testService : userService DB :=
  dbService testConfig testUtils (fun total pageSize => (total + pageSize - 1) / pageSize)
    testList testList

/-- A table for concrete runs: `alice` (id 1, active patient, password
`alicepass`), `bob` (id 2, inactive doctor, password `bobpass12`) and `carol`
(id 3, soft-deleted at time 50). -/
def testDB : DB :=
  { users :=
      [ { ID := 1, Username := "alice", Email := "alice@x.com", Phone := "0811111111",
          Password := "hash:alicepass", Role := "patient", IsActive := true,
          CreatedAt := 10, UpdatedAt := 10, DeletedAt := none },
        { ID := 2, Username := "bob", Email := "bob@x.com", Phone := "0822222222",
          Password := "hash:bobpass12", Role := "doctor", IsActive := false,
          CreatedAt := 20, UpdatedAt := 20, DeletedAt := none },
        { ID := 3, Username := "carol", Email := "carol@x.com", Phone := "0833333333",
          Password := "hash:carolpass", Role := "patient", IsActive := true,
          CreatedAt := 30, UpdatedAt := 30, DeletedAt := some 50 } ],
    nextID := 4,
    now := 100 }

/-- A binding for concrete runs: the body is taken as the password of a
delete or deactivate request (an empty body fails validation); the other
request types are not bound. -/
def testBinding : Binding :=
  { bindRegisterRequest := fun _ => Except.error "EOF",
    bindLoginRequest := fun _ => Except.error "EOF",
    bindCreateUserRequest := fun _ => Except.error "EOF",
    bindUpdateUserRequest := fun _ => Except.error "EOF",
    bindChangePasswordRequest := fun _ => Except.error "EOF",
    bindResetPasswordRequest := fun _ => Except.error "EOF",
    bindDeleteAccountRequest := fun body =>
      if body = "" then Except.error "Password is required"
      else Except.ok { Password := body, Reason := "" },
    bindDeactivateAccountRequest := fun body =>
      if body = "" then Except.error "Password is required"
      else Except.ok { Password := body, Reason := "" },
    bindPaginationQuery := fun _ => Except.error "EOF" }

/-- The context of an authenticated request of subject `userID` with the
request body `body`. -/
def authenticatedRequest (userID : Nat) (role body : String) : Context :=
  { authenticatedContext userID role "" with Body := body }

/-- The `/users/me` routes under the group `/api/v1`, each with the handler
method it is registered with. -/
def meUserRoutes (h : UserHandler) : List (String × String × HandlerFunc) :=
  [ ("GET", "/api/v1/users/me", h.GetMyProfile),
    ("PUT", "/api/v1/users/me", h.UpdateMyProfile),
    ("PATCH", "/api/v1/users/me/change-password", h.ChangeMyPassword),
    ("DELETE", "/api/v1/users/me", h.DeleteMyAccount),
    ("PATCH", "/api/v1/users/me/deactivate", h.DeactivateMyAccount) ]

/-- A fresh request with an `Authorization` header, a path parameter `id`
and a body. -/
def bearerRequest (authorization id body : String) : Context :=
  { requestContext authorization id with Body := body }

/-! ## Vocabulary for the statements about the table -/

/-- The record that `Register` and `CreateUser` build and hand to `Create`
(the literal `&models.User{...}` of both functions, with the role defaulted
to `patient` when the request leaves it empty). -/
def newUserRecord (username email phone hashedPassword role : String) : User :=
  { ID := 0, Username := username, Email := email, Phone := phone,
    Password := hashedPassword, Role := if role = "" then RolePatient else role,
    IsActive := true, CreatedAt := 0, UpdatedAt := 0, DeletedAt := none }

/-- A live record of the table holds `value` in the column `field`. -/
def heldByLive (db : DB) (field : User → String) (value : String) : Prop :=
  ∃ u ∈ db.users, u.DeletedAt = none ∧ field u = value

/-- A live record other than `id` holds `value` in the column `field`. -/
def heldByOther (db : DB) (id : Nat) (field : User → String) (value : String) : Prop :=
  ∃ u ∈ db.users, u.DeletedAt = none ∧ field u = value ∧ u.ID ≠ id

/-- The request sets the column `field` of the record `user` (id `id`) to a
value different from the current one, and another live record holds that
value. -/
def conflicts (db : DB) (id : Nat) (field : User → String) (requested : Option String)
    (user : User) : Prop :=
  ∃ value, requested = some value ∧ value ≠ field user ∧ heldByOther db id field value

instance instDecidableHeldByLive (db : DB) (field : User → String) (value : String) :
    Decidable (heldByLive db field value) :=
  inferInstanceAs (Decidable (∃ u ∈ db.users, u.DeletedAt = none ∧ field u = value))

instance instDecidableHeldByOther (db : DB) (id : Nat) (field : User → String)
    (value : String) : Decidable (heldByOther db id field value) :=
  inferInstanceAs
    (Decidable (∃ u ∈ db.users, u.DeletedAt = none ∧ field u = value ∧ u.ID ≠ id))

instance instDecidableConflicts (db : DB) (id : Nat) (field : User → String)
    (requested : Option String) (user : User) :
    Decidable (conflicts db id field requested user) :=
  match requested with
  | none => isFalse (fun h => by obtain ⟨v, hv, _⟩ := h; cases hv)
  | some v =>
    if h : v ≠ field user ∧ heldByOther db id field v then isTrue ⟨v, rfl, h.1, h.2⟩
    else isFalse (fun hc => by
      obtain ⟨w, hw, h1, h2⟩ := hc
      cases hw
      exact h ⟨h1, h2⟩)

/-- The number a list of decimal digits denotes, read from the left with the
digits read so far worth `n`. -/
def decimalValue : List Char → Nat → Nat
  | [], n => n
  | c :: cs, n => decimalValue cs (n * 10 + (c.toNat - 48))

/-- The text is a base-10 unsigned integer that fits 32 bits: at least one
character, every character one of `0` to `9`, and a value below `2 ^ 32`. -/
def isUint32Text (s : String) : Prop :=
  s ≠ "" ∧ (∀ c ∈ s.data, 48 ≤ c.toNat ∧ c.toNat ≤ 57) ∧ decimalValue s.data 0 < 2 ^ 32

instance instDecidableIsUint32Text (s : String) : Decidable (isUint32Text s) :=
  inferInstanceAs (Decidable (s ≠ "" ∧ (∀ c ∈ s.data, 48 ≤ c.toNat ∧ c.toNat ≤ 57)
    ∧ decimalValue s.data 0 < 2 ^ 32))

/-- The service `s` with the method `Update` of its repository replaced by
`upd`.  A result of `s` that is the same for every `upd` is one for which
`Update` is not called. -/
def userService.withUpdate {σ : Type} (s : userService σ) (upd : User → σ → Result σ User) :
    userService σ :=
  { s with repo := { s.repo with Update := upd } }

/-- The part of `UpdateUser` before the one call of `Update`: the lookup and
the blocks for username, email, phone, password, role and active flag, in
source order; its value is the record that `Update` is to write. -/
def userService.prepareUpdate {σ : Type} (s : userService σ) (id : Nat)
    (req : UpdateUserRequest) (st : σ) : Result σ User :=
  orReturn (s.repo.FindByID id st) fun user st =>
  orReturn (s.setUsername id req.Username user st) fun user st =>
  orReturn (s.setEmail id req.Email user st) fun user st =>
  orReturn (s.setPhone id req.Phone user st) fun user st =>
  orReturn (s.setPassword req.Password user st) fun user st =>
  orReturn (userService.setRole req.Role user st) fun user st =>
  (Except.ok (userService.setIsActive req.IsActive user), st)

/-! ## The `float64` arithmetic of the page count -/

/-- The integer nearest to `num / den`, the even one of the two when they are
equally near: the rounding of IEEE 754 binary64 (Go's `float64`), applied to
a significand. -/
def roundHalfEven (num den : Nat) : Nat :=
  let q := num / den
  let r := num % den
  if 2 * r < den then q
  else if den < 2 * r then q + 1
  else if q % 2 = 0 then q else q + 1

/-- The number of halvings that take `n` below `2`, at most `fuel` of them;
`floorLog2 n n` is the exponent of the leading bit of `n ≥ 1`. -/
def floorLog2 : Nat → Nat → Nat
  | 0, _ => 0
  | fuel + 1, n => if n < 2 then 0 else floorLog2 fuel (n / 2) + 1

/-- Go's conversion `float64(n)` of an integer `0 ≤ n < 2 ^ 64`: `n` itself
when it has at most 53 significant bits, otherwise `n` rounded to 53
significant bits.  The value of the `float64` is given as the integer it is. -/
def float64OfNat (n : Nat) : Nat :=
  if n < 2 ^ 53 then n
  else
    let shift := floorLog2 n n - 52
    roundHalfEven n (2 ^ shift) * 2 ^ shift

/-- Go's `math.Ceil(x / y)` for two `float64` numbers whose values are the
integers `x ≥ 0` and `y > 0`: the quotient is rounded to 53 significant bits
(the significand is the quotient in units of `2 ^ (e - 52)`, where
`2 ^ e ≤ x / y < 2 ^ (e + 1)`), then taken upward to an integer.  For
`x, y < 2 ^ 64` the quotient is in the normal range of `float64`. -/
def ceilQuotient (x y : Nat) : Nat :=
  if x = 0 then 0
  else if y ≤ x then
    let e := floorLog2 (x / y) (x / y)
    if e ≤ 52 then
      let s := 52 - e
      (roundHalfEven (x * 2 ^ s) y + 2 ^ s - 1) / 2 ^ s
    else
      let s := e - 52
      roundHalfEven x (y * 2 ^ s) * 2 ^ s
  else
    -- 2 ^ (-c) ≤ x / y < 2 ^ (-c + 1)
    let c := floorLog2 ((y - 1) / x) ((y - 1) / x) + 1
    let s := 52 + c
    (roundHalfEven (x * 2 ^ s) y + 2 ^ s - 1) / 2 ^ s

/-- The source expression `int(math.Ceil(float64(total) / float64(query.PageSize)))`
of `ListUsers` and `DeleteListUsers`, for a count `total ≥ 0` and a page size
`≥ 1` whose page count is below `2 ^ 63`.  Outside that (a negative operand, a
division by zero, a value that `int` cannot hold) the result of the
conversion depends on the platform and is left to the parameter `other`. -/
def pageCount (other : Int → Int → Int) (total pageSize : Int) : Int :=
  if 0 ≤ total ∧ 1 ≤ pageSize then
    let pages := ceilQuotient (float64OfNat total.toNat) (float64OfNat pageSize.toNat)
    if pages < 2 ^ 63 then (pages : Int) else other total pageSize
  else other total pageSize

/-- The pagination defaults of `config.LoadConfig` (`DEFAULT_PAGE_SIZE` 10,
`MAX_PAGE_SIZE` 100), with the token section of `testConfig`. -/
def pageConfig : Config :=
  { testConfig with Pagination := { DefaultPageSize := 10, MaxPageSize := 100 } }

/-- A listing query for concrete runs: no rows on the page, and the count
`total`. -/
def countingList (total : Int) : PaginationQuery → DB → Result DB (List User × Int) :=
  fun _ db => (Except.ok ([], total), db)

/-- The user service for concrete runs of the listings: the page count is the
source expression, and the repository reports the count `total`. -/
def pagedService (total : Int) : userService DB :=
  dbService pageConfig testUtils (pageCount (fun _ _ => 0)) (countingList total)
    (countingList total)

/-! ## Session tokens (`utils.GenerateToken`, `utils.ValidateToken`) -/

/-- Modelled from the spec: the claims payload of a session token.  The bodies
of `utils.GenerateToken` and `utils.ValidateToken` are not among the sources;
section 3 of the spec lists what a token carries: "subject id, username,
email, role tag, issued-at timestamp, expiry timestamp". -/
structure TokenPayload where
  claims : Claims
  IssuedAt : Nat
  ExpiresAt : Nat
  deriving DecidableEq, Repr

/-- Modelled from the spec: the token of section 6, "a three-part structure —
header describing the signing algorithm, a claims payload, and a signature
over the first two parts"; `Sig` is the type of signatures. -/
structure SessionToken (Sig : Type) where
  header : String
  payload : TokenPayload
  signature : Sig

/-- Modelled from the spec: the failures of `verify` in section 4.2,
`TokenError{Malformed}`, `TokenError{BadSignature}` and `TokenError{Expired}`. -/
inductive TokenError where
  | Malformed
  | BadSignature
  | Expired
  deriving DecidableEq, Repr

/-- Modelled from the spec: what sections 4.2 and 6 leave open about the
absent `utils.GenerateToken` and `utils.ValidateToken` ("conceptual, not a
specific encoding"): the name of the signing algorithm, the signature computed
over the first two parts with a secret, and the serialization of a token
together with its parser. -/
structure TokenScheme (Sig Wire : Type) where
  algorithm : String
  sign : String → String → TokenPayload → Sig
  encode : SessionToken Sig → Wire
  decode : Wire → Option (SessionToken Sig)

/-- Modelled from the spec: the absent `utils.GenerateToken`, which is
`issue(subject_id, username, email, role, secret, ttl) -> (token, expires_at)`
of section 4.2, run at the time `now`: it "embeds all five claim fields plus
issued-at = now and expires-at = now+ttl; signs with `secret`". -/
def GenerateToken {Sig Wire : Type} (scheme : TokenScheme Sig Wire) (now : Nat)
    (userID : Nat) (username email role secret : String) (expiredTime : Nat) : Wire × Nat :=
  let payload : TokenPayload :=
    { claims := { UserID := userID, Username := username, Email := email, Role := role },
      IssuedAt := now, ExpiresAt := now + expiredTime }
  (scheme.encode { header := scheme.algorithm, payload := payload,
                   signature := scheme.sign secret scheme.algorithm payload },
    now + expiredTime)

/-- Modelled from the spec: the absent `utils.ValidateToken`, which is
`verify(token, secret) -> Claims` of section 4.2, run at the time `now`: it
"fails with `TokenError{Malformed}` if the token cannot be parsed/decoded;
fails with `TokenError{BadSignature}` if the signature does not match; fails
with `TokenError{Expired}` if current time ≥ expires-at.  Returns the embedded
claims otherwise." -/
def ValidateToken {Sig Wire : Type} [DecidableEq Sig] (scheme : TokenScheme Sig Wire)
    (now : Nat) (token : Wire) (secret : String) : Except TokenError Claims :=
  match scheme.decode token with
  | none => Except.error TokenError.Malformed
  | some t =>
    if t.signature ≠ scheme.sign secret t.header t.payload then
      Except.error TokenError.BadSignature
    else if now ≥ t.payload.ExpiresAt then Except.error TokenError.Expired
    else Except.ok t.payload.claims

/-- A token scheme for concrete runs: the signature records the secret and
the two parts it was computed over, and a token is its own serialization. -/
def recordingScheme : TokenScheme (String × String × TokenPayload)
    (SessionToken (String × String × TokenPayload)) :=
  { algorithm := "HS256",
    sign := fun secret header payload => (secret, header, payload),
    encode := fun t => t,
    decode := fun t => some t }

/-! ## Binding of `dto.UpdateUserRequest` -/

/-- One failure that the validator behind gin's binding reports: the field and
the tag it failed. -/
structure FieldError where
  Field : String
  Tag : String
  deriving DecidableEq, Repr

/-- The text of one failure of a field of the type `typeName`, the method
`Error` of the validator's `FieldError`: the key `typeName.Field` and the
failed tag, each between apostrophes. -/
def FieldError.Error (typeName : String) (fe : FieldError) : String :=
  let q := String.singleton (Char.ofNat 39)
  "Key: " ++ q ++ typeName ++ "." ++ fe.Field ++ q ++ " Error:Field validation for " ++ q
    ++ fe.Field ++ q ++ " failed on the " ++ q ++ fe.Tag ++ q ++ " tag"

/-- The `binding` tags of one field of type `*string`, in the order written:
`omitempty` skips the field when the pointer is `nil`; otherwise the tags are
checked in order on the string pointed to, and the first one that fails is
reported. -/
def validateStringField (field : String) (value : Option String)
    (tags : List (String × (String → Bool))) : List FieldError :=
  match value with
  | none => []
  | some v =>
    match tags.find? (fun tag => !tag.2 v) with
    | none => []
    | some tag => [{ Field := field, Tag := tag.1 }]

/-- The validation of the `binding` tags of `dto.UpdateUserRequest`, field by
field in the order of the struct: `min` and `max` bound the number of
characters, `oneof` lists the admitted values, and `email` is the validator's
test of an e-mail address, taken as a parameter.  The field `IsActive` has the
tag `omitempty` alone. -/
def validateUpdateUserRequest (isEmail : String → Bool) (req : UpdateUserRequest) :
    List FieldError :=
  validateStringField "Username" req.Username
      [("min", fun v => decide (3 ≤ v.length)), ("max", fun v => decide (v.length ≤ 50))]
    ++ validateStringField "Email" req.Email [("email", isEmail)]
    ++ validateStringField "Phone" req.Phone
      [("min", fun v => decide (10 ≤ v.length)), ("max", fun v => decide (v.length ≤ 15))]
    ++ validateStringField "Password" req.Password [("min", fun v => decide (8 ≤ v.length))]
    ++ validateStringField "Role" req.Role
      [("oneof", fun v =>
        ["patient", "doctor", "receptionist", "admin", "super_admin"].contains v)]

/-- The call `ctx.ShouldBindJSON(&req)` with `req` of type
`dto.UpdateUserRequest`: the body is decoded (`decode`, the JSON decoder, a
parameter) and the decoded request is validated against its `binding` tags;
the error of a failed validation is the list of the failures, one on a line. -/
def ShouldBindUpdateUserRequest (decode : String → Except String UpdateUserRequest)
    (isEmail : String → Bool) (body : String) : Except String UpdateUserRequest :=
  match decode body with
  | Except.error err => Except.error err
  | Except.ok req =>
    match validateUpdateUserRequest isEmail req with
    | [] => Except.ok req
    | errs =>
      Except.error (String.intercalate "\n" (errs.map (FieldError.Error "UpdateUserRequest")))

/-- A JSON decoder for concrete runs: it reads the two bodies
`{"role":"hacker"}` and `{"role":"admin"}`, and takes every other body for
an incomplete document. -/
def testDecodeUpdate (body : String) : Except String UpdateUserRequest :=
  if body = "\x7b\"role\":\"hacker\"\x7d" then
    Except.ok { Username := none, Email := none, Phone := none, Password := none,
                Role := some "hacker", IsActive := none }
  else if body = "\x7b\"role\":\"admin\"\x7d" then
    Except.ok { Username := none, Email := none, Phone := none, Password := none,
                Role := some "admin", IsActive := none }
  else Except.error "unexpected end of JSON input"

/-- A binding for concrete runs that decodes a profile or user update body
with `testDecodeUpdate` and validates the decoded request against its tags (an
e-mail address being a text with the character `@`); the other request types
are bound as by `testBinding`. -/
def validatingBinding : Binding :=
  let bindUpdate :=
    ShouldBindUpdateUserRequest testDecodeUpdate (fun v => v.contains (Char.ofNat 64))
  { testBinding with bindUpdateUserRequest := bindUpdate }

/-! ## Facts about `ParseUint` -/

theorem digitVal_digitChar (k : Nat) (hk : k < 10) : digitVal (Nat.digitChar k) = some k := by
  interval_cases k <;> decide

theorem toDigitsCore_ne_nil (b : Nat) : ∀ (f n : Nat) (ds : List Char),
    ds ≠ [] → Nat.toDigitsCore b f n ds ≠ [] := by
  intro f
  induction f with
  | zero => intro n ds h; simpa [Nat.toDigitsCore] using h
  | succ f ih =>
    intro n ds h
    simp only [Nat.toDigitsCore]
    split
    · simp
    · exact ih _ _ (by simp)

/-- Reading the digits that `Nat.toDigitsCore` puts in front of `ds` takes the
accumulator from `0` to `n`. -/
theorem parseUintLoop_toDigitsCore (s0 : String) : ∀ (f n : Nat) (ds : List Char),
    n < f → n < 2 ^ 32 →
    parseUintLoop s0 10 (2 ^ 32 - 1) (Nat.toDigitsCore 10 f n ds) 0
      = parseUintLoop s0 10 (2 ^ 32 - 1) ds n := by
  intro f
  induction f with
  | zero => intro n ds h; omega
  | succ f ih =>
    intro n ds hf hn
    simp only [Nat.toDigitsCore]
    have hd : digitVal (Nat.digitChar (n % 10)) = some (n % 10) :=
      digitVal_digitChar _ (Nat.mod_lt _ (by decide))
    split
    · rename_i h0
      have hlt : n < 10 := by omega
      have hmod : n % 10 = n := Nat.mod_eq_of_lt hlt
      rw [hmod] at hd ⊢
      simp only [parseUintLoop, hd]
      have h1 : ¬ (n ≥ 10) := by omega
      have h2 : ¬ ((0 : Nat) ≥ maxUint64 / 10 + 1) := by decide
      simp only [h1, h2, if_false]
      have h3 : (0 * 10 % 2 ^ 64 + n) % 2 ^ 64 = n := by omega
      simp only [h3]
      have h4 : ¬ (n < 0 * 10 % 2 ^ 64 ∨ n > 2 ^ 32 - 1) := by omega
      simp only [h4, if_false]
    · rename_i h0
      rw [ih (n / 10) _ (by omega) (by omega)]
      simp only [parseUintLoop, hd]
      have h1 : ¬ (n % 10 ≥ 10) := by omega
      have h2 : ¬ (n / 10 ≥ maxUint64 / 10 + 1) := by
        have : maxUint64 / 10 + 1 = 1844674407370955162 := by decide
        omega
      simp only [h1, h2, if_false]
      have h3 : (n / 10 * 10 % 2 ^ 64 + n % 10) % 2 ^ 64 = n := by omega
      simp only [h3]
      have h4 : ¬ (n < n / 10 * 10 % 2 ^ 64 ∨ n > 2 ^ 32 - 1) := by omega
      simp only [h4, if_false]

/-- Round trip: the decimal text of a number below `2 ^ 32` parses to it. -/
theorem ParseUint_decimal (n : Nat) (hn : n < 2 ^ 32) : ParseUint (decimal n) = Except.ok n := by
  have hdata : (decimal n).data = Nat.toDigitsCore 10 (n + 1) n [] := rfl
  have hne : decimal n ≠ "" := by
    intro h
    have h2 : (decimal n).data = [] := by rw [h]
    rw [hdata] at h2
    simp only [Nat.toDigitsCore] at h2
    split at h2
    · simp at h2
    · exact toDigitsCore_ne_nil 10 _ _ _ (by simp) h2
  unfold ParseUint
  rw [if_neg hne, hdata, parseUintLoop_toDigitsCore _ _ _ _ (by omega) hn]
  rfl

theorem parseUintLoop_le (s0 : String) (maxVal : Nat) : ∀ (cs : List Char) (n t : Nat),
    n ≤ maxVal → parseUintLoop s0 10 maxVal cs n = Except.ok t → t ≤ maxVal := by
  intro cs
  induction cs with
  | nil =>
    intro n t hn h
    simp only [parseUintLoop, Except.ok.injEq] at h
    omega
  | cons c cs ih =>
    intro n t hn h
    simp only [parseUintLoop] at h
    split at h
    · exact absurd h (by simp)
    · split at h
      · exact absurd h (by simp)
      · split at h
        · exact absurd h (by simp)
        · split at h
          · exact absurd h (by simp)
          · rename_i hb
            exact ih _ t (by omega) h

/-- A successful `ParseUint(s, 10, 32)` returns a value below `2 ^ 32`. -/
theorem ParseUint_lt (s : String) (t : Nat) (h : ParseUint s = Except.ok t) : t < 2 ^ 32 := by
  unfold ParseUint at h
  split at h
  · exact absurd h (by simp)
  · have := parseUintLoop_le s (2 ^ 32 - 1) s.data 0 t (by omega) h
    omega

/-- The conversion `uint(targetUserID)` does not change a parsed identifier. -/
theorem toUint_of_ParseUint (s : String) (t : Nat) (h : ParseUint s = Except.ok t) :
    toUint t = t := by
  have := ParseUint_lt s t h
  unfold toUint
  omega

/-- A handler whose result does not depend on the rest of the chain does not
call `ctx.Next()`. -/
theorem not_callsNext_of_const (h : HandlerFunc) (ctx r : Context)
    (hr : ∀ next, h next ctx = r) : ¬ CallsNext h ctx := by
  rintro ⟨c, hc⟩
  have h1 := hc (fun _ => { r with panicked := !r.panicked })
  rw [hr] at h1
  have h2 := congrArg Context.panicked h1
  simp at h2

/-! ## Ownership evaluator -/

/-- The mismatch branch of `OwnershipMiddleware`, for every rest of the chain. -/
theorem OwnershipMiddleware_mismatch (ctx : Context) (authID targetUserID : Nat)
    (userRole : String)
    (hid : ctx.Get "user_id" = some (Value.uint authID))
    (hrole : ctx.Get "role" = some (Value.str userRole))
    (hadmin : userRole ≠ RoleAdmin) (hsuper : userRole ≠ RoleSuperAdmin)
    (hparse : ParseUint (ctx.Param "id") = Except.ok targetUserID)
    (hne : targetUserID ≠ authID) :
    ∀ nx, OwnershipMiddleware nx ctx
      = (ErrorResponse ctx StatusForbidden
          "Access denied: You can only access your own data" ErrorDetail.nil).Abort := by
  intro nx
  have hne2 : authID ≠ toUint targetUserID := by
    rw [toUint_of_ParseUint _ _ hparse]
    exact fun h => hne h.symm
  simp only [OwnershipMiddleware, hid, hrole, hparse]
  rw [if_neg (by simp [hadmin, hsuper]), if_pos hne2]

/-- C1, refuted as stated: the caller with subject id `1` and role `patient`
who addresses the path id `4294967296`, the decimal text of another subject id
(a value of Go's 64-bit `uint`), is answered with `400 Bad Request`, not with
`403 Forbidden`. -/
theorem OwnershipMiddleware_other_subject_counterexample :
    (authenticatedContext 1 "patient" "4294967296").Get "user_id" = some (Value.uint 1)
      ∧ (authenticatedContext 1 "patient" "4294967296").Get "role"
        = some (Value.str "patient")
      ∧ (authenticatedContext 1 "patient" "4294967296").Param "id" = decimal 4294967296
      ∧ OwnershipMiddleware markReached (authenticatedContext 1 "patient" "4294967296")
        = (ErrorResponse (authenticatedContext 1 "patient" "4294967296") 400
            "Invalid user ID"
            (ErrorDetail.numError (rangeError "ParseUint" "4294967296"))).Abort
      ∧ OwnershipMiddleware markReached (authenticatedContext 1 "patient" "4294967296")
        ≠ (ErrorResponse (authenticatedContext 1 "patient" "4294967296") 403
            "Access denied: You can only access your own data" ErrorDetail.nil).Abort := by
  decide

/-- C1, amended: in `OwnershipMiddleware`, for an authenticated caller whose
role is neither `admin` nor `super_admin`, a path id that `ParseUint` accepts
(a base-10 unsigned integer that fits 32 bits) and that addresses a subject
other than the caller is answered with `403 Forbidden` and `ctx.Abort()`; the
rest of the chain is not run. -/
theorem OwnershipMiddleware_other_subject_forbidden (next : Context → Context) (ctx : Context)
    (authID targetUserID : Nat) (userRole : String)
    (hid : ctx.Get "user_id" = some (Value.uint authID))
    (hrole : ctx.Get "role" = some (Value.str userRole))
    (hadmin : userRole ≠ RoleAdmin) (hsuper : userRole ≠ RoleSuperAdmin)
    (hparse : ParseUint (ctx.Param "id") = Except.ok targetUserID)
    (hne : targetUserID ≠ authID) :
    OwnershipMiddleware next ctx
        = (ErrorResponse ctx StatusForbidden
            "Access denied: You can only access your own data" ErrorDetail.nil).Abort
      ∧ ¬ CallsNext OwnershipMiddleware ctx := by
  have key := OwnershipMiddleware_mismatch ctx authID targetUserID userRole hid hrole hadmin
    hsuper hparse hne
  exact ⟨key next, not_callsNext_of_const _ _ _ key⟩

theorem OwnershipMiddleware_other_subject_forbidden_witness :
    OwnershipMiddleware markReached (authenticatedContext 1 "patient" "2")
        = (ErrorResponse (authenticatedContext 1 "patient" "2") 403
            "Access denied: You can only access your own data" ErrorDetail.nil).Abort
      ∧ ¬ CallsNext OwnershipMiddleware (authenticatedContext 1 "patient" "2") :=
  OwnershipMiddleware_other_subject_forbidden markReached (authenticatedContext 1 "patient" "2")
    1 2 "patient" (by decide) (by decide) (by decide) (by decide) (by decide) (by decide)

/-- C2: in `OwnershipMiddleware`, a caller whose context role is `admin` or
`super_admin` is let through (`ctx.Next()` on the unchanged context, no abort)
whatever the path parameter `id` holds. -/
theorem OwnershipMiddleware_privileged_allowed (next : Context → Context) (ctx : Context)
    (authUserID : Value) (userRole : String)
    (hid : ctx.Get "user_id" = some authUserID)
    (hrole : ctx.Get "role" = some (Value.str userRole))
    (hpriv : userRole = RoleAdmin ∨ userRole = RoleSuperAdmin) :
    OwnershipMiddleware next ctx = next ctx ∧ CallsNext OwnershipMiddleware ctx := by
  have key : ∀ nx, OwnershipMiddleware nx ctx = nx ctx := by
    intro nx
    simp only [OwnershipMiddleware, hid, hrole]
    rw [if_pos hpriv]
  exact ⟨key next, ctx, key⟩

theorem OwnershipMiddleware_privileged_allowed_witness :
    OwnershipMiddleware markReached (authenticatedContext 1 "admin" "2")
        = markReached (authenticatedContext 1 "admin" "2")
      ∧ CallsNext OwnershipMiddleware (authenticatedContext 1 "admin" "2") :=
  OwnershipMiddleware_privileged_allowed markReached (authenticatedContext 1 "admin" "2")
    (Value.uint 1) "admin" (by decide) (by decide) (by decide)

/-- C3, refuted as stated: the caller with subject id `4294967296` (a value of
Go's 64-bit `uint`) and role `patient` who addresses the decimal text of that
id is answered with `400 Bad Request`, and the rest of the chain is not run. -/
theorem OwnershipMiddleware_own_id_counterexample :
    (authenticatedContext 4294967296 "patient" "4294967296").Get "user_id"
        = some (Value.uint 4294967296)
      ∧ (authenticatedContext 4294967296 "patient" "4294967296").Param "id"
        = decimal 4294967296
      ∧ OwnershipMiddleware markReached (authenticatedContext 4294967296 "patient" "4294967296")
        = (ErrorResponse (authenticatedContext 4294967296 "patient" "4294967296") 400
            "Invalid user ID"
            (ErrorDetail.numError (rangeError "ParseUint" "4294967296"))).Abort
      ∧ OwnershipMiddleware markReached (authenticatedContext 4294967296 "patient" "4294967296")
        ≠ markReached (authenticatedContext 4294967296 "patient" "4294967296") := by
  decide

/-- C3, amended: in `OwnershipMiddleware`, for an authenticated caller with a
role other than `admin` and `super_admin` whose subject id is below `2 ^ 32`,
a path id that is the decimal representation of the caller's own subject id
is let through (`ctx.Next()` on the unchanged context). -/
theorem OwnershipMiddleware_own_id_allowed (next : Context → Context) (ctx : Context)
    (authID : Nat) (userRole : String)
    (hid : ctx.Get "user_id" = some (Value.uint authID))
    (hrole : ctx.Get "role" = some (Value.str userRole))
    (hadmin : userRole ≠ RoleAdmin) (hsuper : userRole ≠ RoleSuperAdmin)
    (hsmall : authID < 2 ^ 32)
    (hpath : ctx.Param "id" = decimal authID) :
    OwnershipMiddleware next ctx = next ctx ∧ CallsNext OwnershipMiddleware ctx := by
  have hparse : ParseUint (ctx.Param "id") = Except.ok authID := by
    rw [hpath]
    exact ParseUint_decimal authID hsmall
  have key : ∀ nx, OwnershipMiddleware nx ctx = nx ctx := by
    intro nx
    have heq : ¬ (authID ≠ toUint authID) := by
      rw [toUint_of_ParseUint _ _ hparse]
      simp
    simp only [OwnershipMiddleware, hid, hrole, hparse]
    rw [if_neg (by simp [hadmin, hsuper]), if_neg heq]
  exact ⟨key next, ctx, key⟩

theorem OwnershipMiddleware_own_id_allowed_witness :
    OwnershipMiddleware markReached (authenticatedContext 4294967295 "patient" "4294967295")
        = markReached (authenticatedContext 4294967295 "patient" "4294967295")
      ∧ CallsNext OwnershipMiddleware (authenticatedContext 4294967295 "patient" "4294967295") :=
  OwnershipMiddleware_own_id_allowed markReached
    (authenticatedContext 4294967295 "patient" "4294967295") 4294967295 "patient"
    (by decide) (by decide) (by decide) (by decide) (by decide) (by decide)

/-- C4, refuted as stated: an authenticated `admin` whose path id `abc` is not
parseable is not answered with `400 Bad Request`; `OwnershipMiddleware` writes
nothing, does not abort and runs the rest of the chain. -/
theorem OwnershipMiddleware_unparseable_counterexample :
    ParseUint ((authenticatedContext 1 "admin" "abc").Param "id")
        = Except.error (syntaxError "ParseUint" "abc")
      ∧ OwnershipMiddleware markReached (authenticatedContext 1 "admin" "abc")
        = markReached (authenticatedContext 1 "admin" "abc")
      ∧ (OwnershipMiddleware markReached (authenticatedContext 1 "admin" "abc")).Writer = []
      ∧ (OwnershipMiddleware markReached (authenticatedContext 1 "admin" "abc")).aborted = false := by
  decide

/-- C4, amended: in `OwnershipMiddleware`, for an authenticated caller whose
role is neither `admin` nor `super_admin`, a path id that `ParseUint` rejects
is answered with `400 Bad Request` and abort, and a path id that parses to a
value other than the caller's subject id is answered with `403 Forbidden` and
abort. -/
theorem OwnershipMiddleware_badRequest_or_forbidden (next : Context → Context) (ctx : Context)
    (authID : Nat) (userRole : String)
    (hid : ctx.Get "user_id" = some (Value.uint authID))
    (hrole : ctx.Get "role" = some (Value.str userRole))
    (hadmin : userRole ≠ RoleAdmin) (hsuper : userRole ≠ RoleSuperAdmin) :
    (∀ err, ParseUint (ctx.Param "id") = Except.error err →
        OwnershipMiddleware next ctx
          = (ErrorResponse ctx StatusBadRequest "Invalid user ID"
              (ErrorDetail.numError err)).Abort)
      ∧ (∀ targetUserID, ParseUint (ctx.Param "id") = Except.ok targetUserID →
        targetUserID ≠ authID →
        OwnershipMiddleware next ctx
          = (ErrorResponse ctx StatusForbidden
              "Access denied: You can only access your own data" ErrorDetail.nil).Abort) := by
  constructor
  · intro err hparse
    simp only [OwnershipMiddleware, hid, hrole, hparse]
    rw [if_neg (by simp [hadmin, hsuper])]
  · intro targetUserID hparse hne
    exact OwnershipMiddleware_mismatch ctx authID targetUserID userRole
      hid hrole hadmin hsuper hparse hne next

theorem OwnershipMiddleware_badRequest_or_forbidden_witness :
    OwnershipMiddleware markReached (authenticatedContext 1 "patient" "abc")
        = (ErrorResponse (authenticatedContext 1 "patient" "abc") 400 "Invalid user ID"
            (ErrorDetail.numError (syntaxError "ParseUint" "abc"))).Abort
      ∧ OwnershipMiddleware markReached (authenticatedContext 1 "doctor" "2")
        = (ErrorResponse (authenticatedContext 1 "doctor" "2") 403
            "Access denied: You can only access your own data" ErrorDetail.nil).Abort :=
  ⟨(OwnershipMiddleware_badRequest_or_forbidden markReached
      (authenticatedContext 1 "patient" "abc") 1 "patient"
      (by decide) (by decide) (by decide) (by decide)).1 _ (by decide),
   (OwnershipMiddleware_badRequest_or_forbidden markReached
      (authenticatedContext 1 "doctor" "2") 1 "doctor"
      (by decide) (by decide) (by decide) (by decide)).2 2 (by decide) (by decide)⟩

/-! ## Self-only evaluator -/

/-- C5: `SelfOnlyMiddleware` has no role bypass.  For an authenticated caller
with subject id `authID`, whatever the context holds under the key `role`
(which the middleware never reads, so `admin` and `super_admin` included), the rest of the chain runs exactly when the path id parses to `authID`; a path
id that parses to another value is answered with `403 Forbidden` and abort. -/
theorem SelfOnlyMiddleware_no_role_bypass (next : Context → Context) (ctx : Context)
    (authID : Nat)
    (hid : ctx.Get "user_id" = some (Value.uint authID)) :
    (CallsNext SelfOnlyMiddleware ctx ↔ ParseUint (ctx.Param "id") = Except.ok authID)
      ∧ (ParseUint (ctx.Param "id") = Except.ok authID →
          SelfOnlyMiddleware next ctx = next ctx)
      ∧ (∀ targetUserID, ParseUint (ctx.Param "id") = Except.ok targetUserID →
          targetUserID ≠ authID →
          SelfOnlyMiddleware next ctx
            = (ErrorResponse ctx StatusForbidden
                "Access denied: You can only access your own data" ErrorDetail.nil).Abort) := by
  have hallow : ParseUint (ctx.Param "id") = Except.ok authID →
      ∀ nx, SelfOnlyMiddleware nx ctx = nx ctx := by
    intro hparse nx
    have heq : ¬ (authID ≠ toUint authID) := by
      rw [toUint_of_ParseUint _ _ hparse]
      simp
    simp only [SelfOnlyMiddleware, hid, hparse]
    rw [if_neg heq]
  have hdeny : ∀ targetUserID, ParseUint (ctx.Param "id") = Except.ok targetUserID →
      targetUserID ≠ authID →
      ∀ nx, SelfOnlyMiddleware nx ctx
        = (ErrorResponse ctx StatusForbidden
            "Access denied: You can only access your own data" ErrorDetail.nil).Abort := by
    intro targetUserID hparse hne nx
    have hne2 : authID ≠ toUint targetUserID := by
      rw [toUint_of_ParseUint _ _ hparse]
      exact fun h => hne h.symm
    simp only [SelfOnlyMiddleware, hid, hparse]
    rw [if_pos hne2]
  refine ⟨⟨?_, fun hparse => ⟨ctx, hallow hparse⟩⟩, fun hparse => hallow hparse next,
    fun t hparse hne => hdeny t hparse hne next⟩
  intro hcalls
  cases hp : ParseUint (ctx.Param "id") with
  | error err =>
    have hbad : ∀ nx, SelfOnlyMiddleware nx ctx
        = (ErrorResponse ctx StatusBadRequest "Invalid User ID"
            (ErrorDetail.numError err)).Abort := by
      intro nx
      simp only [SelfOnlyMiddleware, hid, hp]
    exact absurd hcalls (not_callsNext_of_const _ _ _ hbad)
  | ok targetUserID =>
    by_cases hne : targetUserID = authID
    · rw [hne]
    · exact absurd hcalls (not_callsNext_of_const _ _ _ (hdeny targetUserID hp hne))

theorem SelfOnlyMiddleware_no_role_bypass_witness :
    (CallsNext SelfOnlyMiddleware (authenticatedContext 1 "super_admin" "2")
        ↔ ParseUint ((authenticatedContext 1 "super_admin" "2").Param "id") = Except.ok 1)
      ∧ SelfOnlyMiddleware markReached (authenticatedContext 1 "super_admin" "2")
        = (ErrorResponse (authenticatedContext 1 "super_admin" "2") 403
            "Access denied: You can only access your own data" ErrorDetail.nil).Abort :=
  ⟨(SelfOnlyMiddleware_no_role_bypass markReached (authenticatedContext 1 "super_admin" "2") 1
      (by decide)).1,
   (SelfOnlyMiddleware_no_role_bypass markReached (authenticatedContext 1 "super_admin" "2") 1
      (by decide)).2.2 2 (by decide) (by decide)⟩

/-! ## Optional-ownership evaluator -/

theorem any_role_iff (allowedRoles : List String) (userRole : String) :
    (allowedRoles.any (fun allowedRole => userRole = allowedRole)) = true
      ↔ userRole ∈ allowedRoles := by
  simp [List.any_eq_true]

theorem ParseUint_empty : ParseUint "" = Except.error (syntaxError "ParseUint" "") := rfl

/-- A caller whose role is listed passes `OptionalOwnershipMiddleware`. -/
theorem OptionalOwnershipMiddleware_role (allowedRoles : List String) (ctx : Context)
    (authUserID : Value) (userRole : String)
    (hid : ctx.Get "user_id" = some authUserID)
    (hrole : ctx.Get "role" = some (Value.str userRole))
    (hin : userRole ∈ allowedRoles) :
    ∀ nx, OptionalOwnershipMiddleware allowedRoles nx ctx = nx ctx := by
  intro nx
  simp only [OptionalOwnershipMiddleware, hid, hrole]
  rw [if_pos ((any_role_iff _ _).2 hin)]

/-- A caller who addresses the own id passes `OptionalOwnershipMiddleware`. -/
theorem OptionalOwnershipMiddleware_own (allowedRoles : List String) (ctx : Context)
    (authID : Nat) (userRole : String)
    (hid : ctx.Get "user_id" = some (Value.uint authID))
    (hrole : ctx.Get "role" = some (Value.str userRole))
    (hnot : userRole ∉ allowedRoles)
    (hparse : ParseUint (ctx.Param "id") = Except.ok authID) :
    ∀ nx, OptionalOwnershipMiddleware allowedRoles nx ctx = nx ctx := by
  intro nx
  have hne : ctx.Param "id" ≠ "" := by
    intro h
    rw [h, ParseUint_empty] at hparse
    exact absurd hparse (by simp)
  simp only [OptionalOwnershipMiddleware, hid, hrole, hparse]
  rw [if_neg (fun h => hnot ((any_role_iff _ _).1 h)), if_pos hne,
    if_pos (toUint_of_ParseUint _ _ hparse).symm]

/-- The `403` exit of `OptionalOwnershipMiddleware`: role not listed, and the
path id empty or parsed to another subject. -/
theorem OptionalOwnershipMiddleware_forbidden (allowedRoles : List String) (ctx : Context)
    (authID : Nat) (userRole : String)
    (hid : ctx.Get "user_id" = some (Value.uint authID))
    (hrole : ctx.Get "role" = some (Value.str userRole))
    (hnot : userRole ∉ allowedRoles)
    (hpath : ctx.Param "id" = ""
      ∨ ∃ targetUserID, ParseUint (ctx.Param "id") = Except.ok targetUserID
          ∧ targetUserID ≠ authID) :
    ∀ nx, OptionalOwnershipMiddleware allowedRoles nx ctx
      = (ErrorResponse ctx StatusForbidden "Access denied: insufficient permissions"
          ErrorDetail.nil).Abort := by
  intro nx
  simp only [OptionalOwnershipMiddleware, hid, hrole]
  rw [if_neg (fun h => hnot ((any_role_iff _ _).1 h))]
  rcases hpath with hempty | ⟨t, hparse, hne⟩
  · rw [if_neg (by simp [hempty])]
  · have hne0 : ctx.Param "id" ≠ "" := by
      intro h
      rw [h, ParseUint_empty] at hparse
      exact absurd hparse (by simp)
    have hne2 : ¬ (authID = toUint t) := by
      rw [toUint_of_ParseUint _ _ hparse]
      exact fun h => hne h.symm
    rw [if_pos hne0]
    simp only [hparse]
    rw [if_neg hne2]

/-- The `400` exit of `OptionalOwnershipMiddleware`: role not listed, and the
path id rejected by `ParseUint`. -/
theorem OptionalOwnershipMiddleware_badRequest (allowedRoles : List String) (ctx : Context)
    (authUserID : Value) (userRole : String) (err : NumError)
    (hid : ctx.Get "user_id" = some authUserID)
    (hrole : ctx.Get "role" = some (Value.str userRole))
    (hnot : userRole ∉ allowedRoles)
    (hne : ctx.Param "id" ≠ "")
    (hparse : ParseUint (ctx.Param "id") = Except.error err) :
    ∀ nx, OptionalOwnershipMiddleware allowedRoles nx ctx
      = (ErrorResponse ctx StatusBadRequest "Invalied user ID"
          (ErrorDetail.numError err)).Abort := by
  intro nx
  simp only [OptionalOwnershipMiddleware, hid, hrole]
  rw [if_neg (fun h => hnot ((any_role_iff _ _).1 h)), if_pos hne]
  simp only [hparse]

/-- C6, refuted as stated: under `OptionalOwnershipMiddleware("admin")` the
caller with subject id `4294967296` (a value of Go's 64-bit `uint`) and role
`patient` who addresses the decimal text of that id, the caller's own, is
answered with `400 Bad Request`, and the rest of the chain is not run. -/
theorem OptionalOwnershipMiddleware_large_id_counterexample :
    (authenticatedContext 4294967296 "patient" "4294967296").Get "user_id"
        = some (Value.uint 4294967296)
      ∧ (authenticatedContext 4294967296 "patient" "4294967296").Param "id"
        = decimal 4294967296
      ∧ OptionalOwnershipMiddleware ["admin"] markReached
          (authenticatedContext 4294967296 "patient" "4294967296")
        = (ErrorResponse (authenticatedContext 4294967296 "patient" "4294967296") 400
            "Invalied user ID"
            (ErrorDetail.numError (rangeError "ParseUint" "4294967296"))).Abort
      ∧ OptionalOwnershipMiddleware ["admin"] markReached
          (authenticatedContext 4294967296 "patient" "4294967296")
        ≠ markReached (authenticatedContext 4294967296 "patient" "4294967296")
      ∧ ¬ CallsNext (OptionalOwnershipMiddleware ["admin"])
          (authenticatedContext 4294967296 "patient" "4294967296") := by
  refine ⟨by decide, by decide, by decide, by decide, ?_⟩
  exact not_callsNext_of_const _ _ _
    (OptionalOwnershipMiddleware_badRequest ["admin"]
      (authenticatedContext 4294967296 "patient" "4294967296") (Value.uint 4294967296)
      "patient" (rangeError "ParseUint" "4294967296") (by decide) (by decide) (by decide)
      (by decide) (by decide))

/-- C6, amended: for an authenticated caller,
`OptionalOwnershipMiddleware(allowedRoles)` runs the rest of the chain if and
only if the caller's role is an element of `allowedRoles` or `ParseUint`
accepts the path id (a base-10 unsigned integer that fits 32 bits) with the
caller's own subject id as its value; when it does, the context is passed on
unchanged. -/
theorem OptionalOwnershipMiddleware_passes_iff (allowedRoles : List String)
    (next : Context → Context) (ctx : Context) (authID : Nat) (userRole : String)
    (hid : ctx.Get "user_id" = some (Value.uint authID))
    (hrole : ctx.Get "role" = some (Value.str userRole)) :
    (CallsNext (OptionalOwnershipMiddleware allowedRoles) ctx
        ↔ (userRole ∈ allowedRoles ∨ ParseUint (ctx.Param "id") = Except.ok authID))
      ∧ ((userRole ∈ allowedRoles ∨ ParseUint (ctx.Param "id") = Except.ok authID) →
          OptionalOwnershipMiddleware allowedRoles next ctx = next ctx) := by
  have hpass : (userRole ∈ allowedRoles ∨ ParseUint (ctx.Param "id") = Except.ok authID) →
      ∀ nx, OptionalOwnershipMiddleware allowedRoles nx ctx = nx ctx := by
    intro h
    by_cases hin : userRole ∈ allowedRoles
    · exact OptionalOwnershipMiddleware_role allowedRoles ctx _ userRole hid hrole hin
    · rcases h with h | h
      · exact absurd h hin
      · exact OptionalOwnershipMiddleware_own allowedRoles ctx authID userRole hid hrole hin h
  refine ⟨⟨?_, fun h => ⟨ctx, hpass h⟩⟩, fun h => hpass h next⟩
  intro hcalls
  by_cases hin : userRole ∈ allowedRoles
  · exact Or.inl hin
  · right
    cases hp : ParseUint (ctx.Param "id") with
    | error err =>
      exfalso
      by_cases hempty : ctx.Param "id" = ""
      · exact not_callsNext_of_const _ _ _ (OptionalOwnershipMiddleware_forbidden allowedRoles
          ctx authID userRole hid hrole hin (Or.inl hempty)) hcalls
      · exact not_callsNext_of_const _ _ _ (OptionalOwnershipMiddleware_badRequest allowedRoles
          ctx _ userRole err hid hrole hin hempty hp) hcalls
    | ok targetUserID =>
      by_cases hne : targetUserID = authID
      · rw [hne]
      · exact absurd hcalls (not_callsNext_of_const _ _ _
          (OptionalOwnershipMiddleware_forbidden allowedRoles ctx authID userRole hid hrole hin
            (Or.inr ⟨targetUserID, hp, hne⟩)))

theorem OptionalOwnershipMiddleware_passes_iff_witness :
    (CallsNext (OptionalOwnershipMiddleware ["doctor"]) (authenticatedContext 7 "patient" "7")
        ↔ ("patient" ∈ ["doctor"]
            ∨ ParseUint ((authenticatedContext 7 "patient" "7").Param "id") = Except.ok 7))
      ∧ OptionalOwnershipMiddleware ["doctor"] markReached (authenticatedContext 7 "patient" "7")
        = markReached (authenticatedContext 7 "patient" "7") :=
  ⟨(OptionalOwnershipMiddleware_passes_iff ["doctor"] markReached
      (authenticatedContext 7 "patient" "7") 7 "patient" (by decide) (by decide)).1,
   (OptionalOwnershipMiddleware_passes_iff ["doctor"] markReached
      (authenticatedContext 7 "patient" "7") 7 "patient" (by decide) (by decide)).2
      (Or.inr (by decide))⟩

/-- C7, refuted as stated: a `patient` with subject id `1` who addresses the
path id `abc` under `OptionalOwnershipMiddleware("admin")` does not pass, and
the answer is `400 Bad Request`, not `403 Forbidden`. -/
theorem OptionalOwnershipMiddleware_forbidden_counterexample :
    "patient" ∉ ["admin"]
      ∧ ParseUint ((authenticatedContext 1 "patient" "abc").Param "id") ≠ Except.ok 1
      ∧ OptionalOwnershipMiddleware ["admin"] markReached (authenticatedContext 1 "patient" "abc")
        = (ErrorResponse (authenticatedContext 1 "patient" "abc") 400 "Invalied user ID"
            (ErrorDetail.numError (syntaxError "ParseUint" "abc"))).Abort
      ∧ (OptionalOwnershipMiddleware ["admin"] markReached
          (authenticatedContext 1 "patient" "abc")).Writer.map Prod.fst = [400] := by
  decide

/-- C7, amended: for an authenticated caller of
`OptionalOwnershipMiddleware(allowedRoles)` whose role is not in `allowedRoles`
and whose path id does not parse to the caller's own id, the answer is
`403 Forbidden` (and abort) when the path id is empty or parses, and
`400 Bad Request` (and abort) when the path id is non-empty and `ParseUint`
rejects it. -/
theorem OptionalOwnershipMiddleware_denied (allowedRoles : List String)
    (next : Context → Context) (ctx : Context) (authID : Nat) (userRole : String)
    (hid : ctx.Get "user_id" = some (Value.uint authID))
    (hrole : ctx.Get "role" = some (Value.str userRole))
    (hnot : userRole ∉ allowedRoles)
    (hnown : ParseUint (ctx.Param "id") ≠ Except.ok authID) :
    ((ctx.Param "id" = "" ∨ ∃ targetUserID, ParseUint (ctx.Param "id") = Except.ok targetUserID) →
        OptionalOwnershipMiddleware allowedRoles next ctx
          = (ErrorResponse ctx StatusForbidden "Access denied: insufficient permissions"
              ErrorDetail.nil).Abort)
      ∧ (∀ err, ctx.Param "id" ≠ "" → ParseUint (ctx.Param "id") = Except.error err →
        OptionalOwnershipMiddleware allowedRoles next ctx
          = (ErrorResponse ctx StatusBadRequest "Invalied user ID"
              (ErrorDetail.numError err)).Abort) := by
  constructor
  · intro h
    apply OptionalOwnershipMiddleware_forbidden allowedRoles ctx authID userRole hid hrole hnot
    rcases h with h | ⟨t, ht⟩
    · exact Or.inl h
    · refine Or.inr ⟨t, ht, ?_⟩
      intro heq
      rw [heq] at ht
      exact hnown ht
  · intro err hne hparse
    exact OptionalOwnershipMiddleware_badRequest allowedRoles ctx _ userRole err hid hrole hnot
      hne hparse next

theorem OptionalOwnershipMiddleware_denied_witness :
    OptionalOwnershipMiddleware ["admin"] markReached (authenticatedContext 1 "patient" "2")
        = (ErrorResponse (authenticatedContext 1 "patient" "2") 403
            "Access denied: insufficient permissions" ErrorDetail.nil).Abort
      ∧ OptionalOwnershipMiddleware ["admin"] markReached (authenticatedContext 1 "patient" "x")
        = (ErrorResponse (authenticatedContext 1 "patient" "x") 400 "Invalied user ID"
            (ErrorDetail.numError (syntaxError "ParseUint" "x"))).Abort :=
  ⟨(OptionalOwnershipMiddleware_denied ["admin"] markReached
      (authenticatedContext 1 "patient" "2") 1 "patient"
      (by decide) (by decide) (by decide) (by decide)).1 (Or.inr ⟨2, by decide⟩),
   (OptionalOwnershipMiddleware_denied ["admin"] markReached
      (authenticatedContext 1 "patient" "x") 1 "patient"
      (by decide) (by decide) (by decide) (by decide)).2 _ (by decide) (by decide)⟩

/-! ## Role evaluator -/

/-- The allow branch of `RoleMiddleware`, for every rest of the chain. -/
theorem RoleMiddleware_allow (roles : List String) (ctx : Context) (userRole : String)
    (hrole : ctx.Get "role" = some (Value.str userRole)) (hin : userRole ∈ roles) :
    ∀ nx, RoleMiddleware roles nx ctx = nx ctx := by
  intro nx
  simp only [RoleMiddleware, hrole]
  rw [if_neg (by simp [(any_role_iff roles userRole).2 hin])]

/-- The deny branch of `RoleMiddleware`, for every rest of the chain. -/
theorem RoleMiddleware_deny (roles : List String) (ctx : Context) (userRole : String)
    (hrole : ctx.Get "role" = some (Value.str userRole)) (hnot : userRole ∉ roles) :
    ∀ nx, RoleMiddleware roles nx ctx
      = (ErrorResponse ctx StatusForbidden "Access denied: insufficent permissions"
          ErrorDetail.nil).Abort := by
  intro nx
  have hfalse : (roles.any (fun allowedRole => userRole = allowedRole)) = false := by
    cases hb : roles.any (fun allowedRole => userRole = allowedRole) with
    | false => rfl
    | true => exact absurd ((any_role_iff roles userRole).1 hb) hnot
  simp only [RoleMiddleware, hrole]
  rw [if_pos (by simp [hfalse])]

/-- C8: for a request whose context carries the role `userRole`,
`RoleMiddleware(allowedRoles)` runs the rest of the chain if and only if
`userRole` is an element of `allowedRoles`, passing the context on unchanged;
otherwise it answers `403 Forbidden` and aborts.  With an empty `allowedRoles`
every role is denied. -/
theorem RoleMiddleware_allows_iff (allowedRoles : List String) (next : Context → Context)
    (ctx : Context) (userRole : String)
    (hrole : ctx.Get "role" = some (Value.str userRole)) :
    (CallsNext (RoleMiddleware allowedRoles) ctx ↔ userRole ∈ allowedRoles)
      ∧ (userRole ∈ allowedRoles → RoleMiddleware allowedRoles next ctx = next ctx)
      ∧ (userRole ∉ allowedRoles →
          RoleMiddleware allowedRoles next ctx
            = (ErrorResponse ctx StatusForbidden "Access denied: insufficent permissions"
                ErrorDetail.nil).Abort)
      ∧ RoleMiddleware [] next ctx
          = (ErrorResponse ctx StatusForbidden "Access denied: insufficent permissions"
              ErrorDetail.nil).Abort := by
  have hallow := fun roles => RoleMiddleware_allow roles ctx userRole hrole
  have hdeny := fun roles => RoleMiddleware_deny roles ctx userRole hrole
  refine ⟨⟨?_, fun hin => ⟨ctx, hallow _ hin⟩⟩, fun hin => hallow _ hin next,
    fun hnot => hdeny _ hnot next, hdeny [] (by simp) next⟩
  intro hcalls
  by_contra hnot
  exact not_callsNext_of_const _ _ _ (hdeny _ hnot) hcalls

theorem RoleMiddleware_allows_iff_witness :
    (CallsNext (RoleMiddleware ["admin", "super_admin"]) (authenticatedContext 1 "patient" "2")
        ↔ "patient" ∈ ["admin", "super_admin"])
      ∧ RoleMiddleware ["admin", "super_admin"] markReached (authenticatedContext 1 "patient" "2")
          = (ErrorResponse (authenticatedContext 1 "patient" "2") 403
              "Access denied: insufficent permissions" ErrorDetail.nil).Abort :=
  ⟨(RoleMiddleware_allows_iff ["admin", "super_admin"] markReached
      (authenticatedContext 1 "patient" "2") "patient" (by decide)).1,
   (RoleMiddleware_allows_iff ["admin", "super_admin"] markReached
      (authenticatedContext 1 "patient" "2") "patient" (by decide)).2.2.1 (by decide)⟩

/-! ## Authentication evaluator -/

theorem cutAtSpace_some : ∀ (cs a b : List Char),
    cutAtSpace cs = some (a, b) → cs = a ++ ' ' :: b := by
  intro cs
  induction cs with
  | nil => intro a b h; simp [cutAtSpace] at h
  | cons c cs ih =>
    intro a b h
    simp only [cutAtSpace] at h
    split at h
    · rename_i hc
      simp only [Option.some.injEq, Prod.mk.injEq] at h
      rw [← h.1, ← h.2, hc]
      rfl
    · split at h
      · exact absurd h (by simp)
      · rename_i a0 b0 hrec
        simp only [Option.some.injEq, Prod.mk.injEq] at h
        rw [← h.1, ← h.2, ih a0 b0 hrec]
        rfl

/-- A header `"Bearer " ++ token` splits into the scheme and the token. -/
theorem SplitN_bearer (token : String) : SplitN ("Bearer " ++ token) = ["Bearer", token] := by
  have hdata : ("Bearer " ++ token).data
      = 'B' :: 'e' :: 'a' :: 'r' :: 'e' :: 'r' :: ' ' :: token.data := by
    rw [String.data_append]
    rfl
  have hcut : cutAtSpace ("Bearer " ++ token).data
      = some (['B', 'e', 'a', 'r', 'e', 'r'], token.data) := by
    rw [hdata]
    simp [cutAtSpace]
  simp only [SplitN, hcut]

/-- Two parts come from a header of the form scheme, space, token. -/
theorem SplitN_pair (s scheme token : String) (h : SplitN s = [scheme, token]) :
    s = scheme ++ " " ++ token := by
  unfold SplitN at h
  split at h
  · simp at h
  · rename_i a b hcut
    simp only [List.cons.injEq, and_true] at h
    have hs := cutAtSpace_some _ _ _ hcut
    rw [← h.1, ← h.2]
    apply String.ext
    simp only [String.data_append, hs]
    simp

theorem SplitN_length (s : String) : (SplitN s).length = 1 ∨ (SplitN s).length = 2 := by
  unfold SplitN
  split <;> simp

theorem Get_Set_self (ctx : Context) (key : String) (value : Value) :
    (ctx.Set key value).Get key = some value := by
  simp [Context.Set, Context.Get, List.lookup]

theorem lookup_filter_ne (l : List (String × Value)) (key other : String) (h : other ≠ key) :
    (l.filter (fun kv => kv.1 != key)).lookup other = l.lookup other := by
  induction l with
  | nil => rfl
  | cons kv rest ih =>
    obtain ⟨k, v⟩ := kv
    by_cases hk : k = key
    · subst hk
      have hb : (other == k) = false := by simpa using h
      simp only [List.filter, bne_self_eq_false, List.lookup, hb]
      exact ih
    · have hf : (k != key) = true := by simpa using hk
      simp only [List.filter, hf, List.lookup]
      cases (other == k) with
      | true => rfl
      | false => exact ih

theorem Get_Set_other (ctx : Context) (key other : String) (value : Value)
    (h : other ≠ key) : (ctx.Set key value).Get other = ctx.Get other := by
  have hb : (other == key) = false := by simpa using h
  simp only [Context.Set, Context.Get, List.lookup, hb]
  exact lookup_filter_ne _ _ _ h

/-- The context keys after the four `ctx.Set` calls of `AuthMiddleware`. -/
theorem setClaims_keys (ctx : Context) (claims : Claims) :
    (setClaims ctx claims).Get "user_id" = some (Value.uint claims.UserID)
      ∧ (setClaims ctx claims).Get "username" = some (Value.str claims.Username)
      ∧ (setClaims ctx claims).Get "email" = some (Value.str claims.Email)
      ∧ (setClaims ctx claims).Get "role" = some (Value.str claims.Role) := by
  unfold setClaims
  refine ⟨?_, ?_, ?_, ?_⟩
  · rw [Get_Set_other _ _ _ _ (by decide), Get_Set_other _ _ _ _ (by decide),
      Get_Set_other _ _ _ _ (by decide), Get_Set_self]
  · rw [Get_Set_other _ _ _ _ (by decide), Get_Set_other _ _ _ _ (by decide), Get_Set_self]
  · rw [Get_Set_other _ _ _ _ (by decide), Get_Set_self]
  · rw [Get_Set_self]

/-- The success path of `AuthMiddleware`. -/
theorem AuthMiddleware_ok (ValidateToken : TokenValidator) (cfg : Config) (ctx : Context)
    (token : String) (claims : Claims)
    (hheader : ctx.GetHeader "Authorization" = "Bearer " ++ token)
    (hvalid : ValidateToken token cfg.JWT.Secret = Except.ok claims) :
    ∀ nx, AuthMiddleware ValidateToken cfg nx ctx = nx (setClaims ctx claims) := by
  intro nx
  have hne : ctx.GetHeader "Authorization" ≠ "" := by
    rw [hheader]
    intro h
    have hlen := congrArg String.length h
    rw [String.length_append] at hlen
    have h7 : "Bearer ".length = 7 := by decide
    have h0 : "".length = 0 := by decide
    omega
  simp only [AuthMiddleware]
  rw [if_neg hne, hheader, SplitN_bearer]
  simp only [hvalid]
  rw [if_neg (by simp)]

/-- The failure paths of `AuthMiddleware`: one `401` response, abort, context
bag unchanged. -/
theorem AuthMiddleware_fail (ValidateToken : TokenValidator) (cfg : Config) (ctx : Context)
    (hno : ¬ ∃ token claims, ctx.GetHeader "Authorization" = "Bearer " ++ token
      ∧ ValidateToken token cfg.JWT.Secret = Except.ok claims) :
    ∃ message detail, ∀ nx, AuthMiddleware ValidateToken cfg nx ctx
      = (ErrorResponse ctx StatusUnauthorized message detail).Abort := by
  by_cases hempty : ctx.GetHeader "Authorization" = ""
  · refine ⟨"Authorization header is required", ErrorDetail.nil, fun nx => ?_⟩
    simp only [AuthMiddleware]
    rw [if_pos hempty]
  · cases hsplit : SplitN (ctx.GetHeader "Authorization") with
    | nil =>
      refine ⟨"Invalid authorization header format", ErrorDetail.nil, fun nx => ?_⟩
      simp only [AuthMiddleware]
      rw [if_neg hempty]
      simp only [hsplit]
    | cons scheme rest =>
      cases rest with
      | nil =>
        refine ⟨"Invalid authorization header format", ErrorDetail.nil, fun nx => ?_⟩
        simp only [AuthMiddleware]
        rw [if_neg hempty]
        simp only [hsplit]
      | cons token rest2 =>
        cases rest2 with
        | cons x xs =>
          have := SplitN_length (ctx.GetHeader "Authorization")
          rw [hsplit] at this
          simp at this
        | nil =>
          by_cases hscheme : scheme = "Bearer"
          · have hform : ctx.GetHeader "Authorization" = "Bearer " ++ token := by
              rw [SplitN_pair _ _ _ hsplit, hscheme]
              rfl
            cases hv : ValidateToken token cfg.JWT.Secret with
            | ok claims => exact absurd ⟨token, claims, hform, hv⟩ hno
            | error err =>
              refine ⟨"Invalid or expired token", ErrorDetail.text err, fun nx => ?_⟩
              simp only [AuthMiddleware]
              rw [if_neg hempty]
              simp only [hsplit, hv]
              rw [if_neg (by simp [hscheme])]
          · refine ⟨"Invalid authorization header format", ErrorDetail.nil, fun nx => ?_⟩
            simp only [AuthMiddleware]
            rw [if_neg hempty]
            simp only [hsplit]
            rw [if_pos hscheme]

/-- C9: `AuthMiddleware` runs the rest of the chain exactly when the
`Authorization` header is `"Bearer " ++ token` and `ValidateToken(token,
cfg.JWT.Secret)` succeeds; the rest of the chain then sees the context with
`user_id`, `username`, `email` and `role` set to the claims.  In every other
case it writes one `401 Unauthorized` response, aborts, leaves the context bag
as it was and does not run the rest of the chain. -/
theorem AuthMiddleware_spec (ValidateToken : TokenValidator) (cfg : Config)
    (next : Context → Context) (ctx : Context) :
    (CallsNext (AuthMiddleware ValidateToken cfg) ctx
        ↔ ∃ token claims, ctx.GetHeader "Authorization" = "Bearer " ++ token
            ∧ ValidateToken token cfg.JWT.Secret = Except.ok claims)
      ∧ (∀ token claims, ctx.GetHeader "Authorization" = "Bearer " ++ token →
          ValidateToken token cfg.JWT.Secret = Except.ok claims →
          AuthMiddleware ValidateToken cfg next ctx = next (setClaims ctx claims)
            ∧ (setClaims ctx claims).Get "user_id" = some (Value.uint claims.UserID)
            ∧ (setClaims ctx claims).Get "username" = some (Value.str claims.Username)
            ∧ (setClaims ctx claims).Get "email" = some (Value.str claims.Email)
            ∧ (setClaims ctx claims).Get "role" = some (Value.str claims.Role))
      ∧ ((¬ ∃ token claims, ctx.GetHeader "Authorization" = "Bearer " ++ token
            ∧ ValidateToken token cfg.JWT.Secret = Except.ok claims) →
          ∃ message detail,
            AuthMiddleware ValidateToken cfg next ctx
              = (ErrorResponse ctx StatusUnauthorized message detail).Abort
            ∧ (AuthMiddleware ValidateToken cfg next ctx).Keys = ctx.Keys
            ∧ (AuthMiddleware ValidateToken cfg next ctx).aborted = true) := by
  refine ⟨⟨?_, ?_⟩, ?_, ?_⟩
  · intro hcalls
    by_contra hno
    obtain ⟨message, detail, hfail⟩ := AuthMiddleware_fail ValidateToken cfg ctx hno
    exact not_callsNext_of_const _ _ _ hfail hcalls
  · rintro ⟨token, claims, hheader, hvalid⟩
    exact ⟨_, AuthMiddleware_ok ValidateToken cfg ctx token claims hheader hvalid⟩
  · intro token claims hheader hvalid
    exact ⟨AuthMiddleware_ok ValidateToken cfg ctx token claims hheader hvalid next,
      setClaims_keys ctx claims⟩
  · intro hno
    obtain ⟨message, detail, hfail⟩ := AuthMiddleware_fail ValidateToken cfg ctx hno
    refine ⟨message, detail, hfail next, ?_, ?_⟩
    · rw [hfail next]
      rfl
    · rw [hfail next]
      rfl

theorem AuthMiddleware_spec_witness :
    AuthMiddleware testValidator testConfig markReached (requestContext "Bearer patient-token" "")
        = markReached (setClaims (requestContext "Bearer patient-token" "")
            { UserID := 1, Username := "testuser", Email := "test@example.com",
              Role := "patient" })
      ∧ (setClaims (requestContext "Bearer patient-token" "")
            { UserID := 1, Username := "testuser", Email := "test@example.com",
              Role := "patient" }).Get "role" = some (Value.str "patient") :=
  ⟨((AuthMiddleware_spec testValidator testConfig markReached
      (requestContext "Bearer patient-token" "")).2.1 "patient-token"
      { UserID := 1, Username := "testuser", Email := "test@example.com", Role := "patient" }
      (by decide) (by decide)).1,
   ((AuthMiddleware_spec testValidator testConfig markReached
      (requestContext "Bearer patient-token" "")).2.1 "patient-token"
      { UserID := 1, Username := "testuser", Email := "test@example.com", Role := "patient" }
      (by decide) (by decide)).2.2.2.2⟩

/-! ## Route table -/

/-- A chain of `AuthMiddleware`, `RoleMiddleware(roles)` and a route handler,
on a validly authenticated request: the handler runs on the context carrying
the claims when the role is listed, and the answer is `403` otherwise. -/
theorem serveChain_auth_role (ValidateToken : TokenValidator) (cfg : Config)
    (roles : List String) (handler : HandlerFunc) (ctx : Context)
    (token : String) (claims : Claims)
    (hheader : ctx.GetHeader "Authorization" = "Bearer " ++ token)
    (hvalid : ValidateToken token cfg.JWT.Secret = Except.ok claims) :
    (claims.Role ∈ roles →
        serveChain [AuthMiddleware ValidateToken cfg, RoleMiddleware roles, handler] ctx
          = handler (serveChain []) (setClaims ctx claims))
      ∧ (claims.Role ∉ roles →
        serveChain [AuthMiddleware ValidateToken cfg, RoleMiddleware roles, handler] ctx
          = (ErrorResponse (setClaims ctx claims) StatusForbidden
              "Access denied: insufficent permissions" ErrorDetail.nil).Abort) := by
  have hauth : serveChain [AuthMiddleware ValidateToken cfg, RoleMiddleware roles, handler] ctx
      = RoleMiddleware roles (serveChain [handler]) (setClaims ctx claims) := by
    simp only [serveChain]
    exact AuthMiddleware_ok ValidateToken cfg ctx token claims hheader hvalid _
  have hrole := (setClaims_keys ctx claims).2.2.2
  constructor
  · intro hin
    rw [hauth, RoleMiddleware_allow roles _ claims.Role hrole hin]
    rfl
  · intro hnot
    rw [hauth, RoleMiddleware_deny roles _ claims.Role hrole hnot]

theorem chain3 (pre : List HandlerFunc) (a b c : HandlerFunc) :
    pre ++ [a, b, c] = ((pre ++ [a]) ++ [b]) ++ [c] := by
  simp

/-- C10: on the routes registered by `setupAPIRouter` under `/api/v1`, for
every validly authenticated request: each administrative `/users` route has
the chain `AuthMiddleware`, `RoleMiddleware(admin, super_admin)`, handler; its
handler runs if the token's role is `admin` or `super_admin` and otherwise the
answer is `403 Forbidden` with abort, the handler (hence every service
operation) not being run.  `DELETE /users/:id/hard-delete` has the chain
`AuthMiddleware`, `RoleMiddleware(super_admin)`, `HardDeleteUser`; its handler
runs if the role is `super_admin` and every other role, `admin` included, gets
`403 Forbidden` with abort. -/
theorem setupAPIRouter_role_policy (ValidateToken : TokenValidator) (cfg : RouteConfig)
    (pre : List HandlerFunc) (ctx : Context) (token : String) (claims : Claims)
    (hheader : ctx.GetHeader "Authorization" = "Bearer " ++ token)
    (hvalid : ValidateToken token cfg.Config.JWT.Secret = Except.ok claims) :
    (∀ method path handler, (method, path, handler) ∈ adminUserRoutes cfg.UserHandler →
        findRoute (setupAPIRouter ValidateToken { basePath := "/api/v1", Handlers := pre } cfg)
            method path
          = some (pre ++ [AuthMiddleware ValidateToken cfg.Config,
              RoleMiddleware [RoleAdmin, RoleSuperAdmin], handler])
        ∧ ((claims.Role = RoleAdmin ∨ claims.Role = RoleSuperAdmin) →
            serveChain [AuthMiddleware ValidateToken cfg.Config,
                RoleMiddleware [RoleAdmin, RoleSuperAdmin], handler] ctx
              = handler (serveChain []) (setClaims ctx claims))
        ∧ (¬ (claims.Role = RoleAdmin ∨ claims.Role = RoleSuperAdmin) →
            serveChain [AuthMiddleware ValidateToken cfg.Config,
                RoleMiddleware [RoleAdmin, RoleSuperAdmin], handler] ctx
              = (ErrorResponse (setClaims ctx claims) StatusForbidden
                  "Access denied: insufficent permissions" ErrorDetail.nil).Abort))
      ∧ findRoute (setupAPIRouter ValidateToken { basePath := "/api/v1", Handlers := pre } cfg)
            "DELETE" "/api/v1/users/:id/hard-delete"
          = some (pre ++ [AuthMiddleware ValidateToken cfg.Config,
              RoleMiddleware [RoleSuperAdmin], cfg.UserHandler.HardDeleteUser])
      ∧ (claims.Role = RoleSuperAdmin →
          serveChain [AuthMiddleware ValidateToken cfg.Config,
              RoleMiddleware [RoleSuperAdmin], cfg.UserHandler.HardDeleteUser] ctx
            = cfg.UserHandler.HardDeleteUser (serveChain []) (setClaims ctx claims))
      ∧ (claims.Role ≠ RoleSuperAdmin →
          serveChain [AuthMiddleware ValidateToken cfg.Config,
              RoleMiddleware [RoleSuperAdmin], cfg.UserHandler.HardDeleteUser] ctx
            = (ErrorResponse (setClaims ctx claims) StatusForbidden
                "Access denied: insufficent permissions" ErrorDetail.nil).Abort) := by
  refine ⟨?_, ?_, ?_, ?_⟩
  rotate_left
  · rw [chain3]
    rfl
  · intro h
    exact (serveChain_auth_role ValidateToken cfg.Config [RoleSuperAdmin]
      cfg.UserHandler.HardDeleteUser ctx token claims hheader hvalid).1 (by simpa using h)
  · intro h
    exact (serveChain_auth_role ValidateToken cfg.Config [RoleSuperAdmin]
      cfg.UserHandler.HardDeleteUser ctx token claims hheader hvalid).2 (by simpa using h)
  · intro method path handler hmem
    have hchain := serveChain_auth_role ValidateToken cfg.Config [RoleAdmin, RoleSuperAdmin]
      handler ctx token claims hheader hvalid
    refine ⟨?_, fun h => hchain.1 (by simpa using h), fun h => hchain.2 (by simpa using h)⟩
    simp only [adminUserRoutes, List.mem_cons, Prod.mk.injEq, List.mem_singleton,
      List.not_mem_nil, or_false] at hmem
    rcases hmem with h | h | h | h | h | h | h | h | h | h <;>
      (obtain ⟨hm, hp, hh⟩ := h; subst hm; subst hp; subst hh; rw [chain3]; rfl)

theorem setupAPIRouter_role_policy_witness :
    (serveChain [AuthMiddleware testValidator testConfig, RoleMiddleware [RoleSuperAdmin],
          tracingHandler] (requestContext "Bearer admin-token" "2")
        = (ErrorResponse (setClaims (requestContext "Bearer admin-token" "2")
              { UserID := 2, Username := "admin", Email := "admin@example.com",
                Role := "admin" })
            StatusForbidden "Access denied: insufficent permissions" ErrorDetail.nil).Abort)
      ∧ (serveChain [AuthMiddleware testValidator testConfig, RoleMiddleware [RoleSuperAdmin],
          tracingHandler] (requestContext "Bearer admin-token" "2")).Writer.map Prod.fst = [403]
      ∧ (serveChain [AuthMiddleware testValidator testConfig, RoleMiddleware [RoleSuperAdmin],
          tracingHandler] (requestContext "Bearer admin-token" "2")).Get "reached" = none :=
  ⟨(setupAPIRouter_role_policy testValidator testRouteConfig []
      (requestContext "Bearer admin-token" "2") "admin-token"
      { UserID := 2, Username := "admin", Email := "admin@example.com", Role := "admin" }
      (by decide) (by decide)).2.2.2 (by decide), by decide, by decide⟩

/-! ## Failure semantics of the pipeline -/

theorem chain2 (pre : List HandlerFunc) (a b : HandlerFunc) :
    pre ++ [a, b] = (pre ++ [a]) ++ [b] := by
  simp

/-- The chain of every route registered by `setupAPIRouter`: the inherited
middleware, then `AuthMiddleware`, then no further evaluator or one
`RoleMiddleware`, then the route handler. -/
theorem setupAPIRouter_shape (ValidateToken : TokenValidator) (cfg : RouteConfig)
    (rg : RouterGroup) (r : RouteInfo) (hr : r ∈ setupAPIRouter ValidateToken rg cfg) :
    ∃ evaluators routeHandler,
      r.Handlers = rg.Handlers
          ++ AuthMiddleware ValidateToken cfg.Config :: (evaluators ++ [routeHandler])
        ∧ (evaluators = [] ∨ ∃ roles, evaluators = [RoleMiddleware roles]) := by
  simp only [setupAPIRouter, List.mem_cons, List.mem_singleton, List.not_mem_nil,
    or_false] at hr
  rcases hr with h | h | h | h | h | h | h | h | h | h | h | h | h | h | h | h <;>
    subst h <;>
    first
      | exact ⟨[], _, (chain2 _ _ _).symm, Or.inl rfl⟩
      | exact ⟨[RoleMiddleware _], _, (chain3 _ _ _ _).symm, Or.inr ⟨_, rfl⟩⟩

/-- A chain that starts with `AuthMiddleware` answers `401` and stops when
authentication fails, whatever follows in the chain. -/
theorem serveChain_auth_fail (ValidateToken : TokenValidator) (cfg : Config)
    (rest : List HandlerFunc) (ctx : Context)
    (hno : ¬ ∃ token claims, ctx.GetHeader "Authorization" = "Bearer " ++ token
      ∧ ValidateToken token cfg.JWT.Secret = Except.ok claims) :
    ∃ message detail, serveChain (AuthMiddleware ValidateToken cfg :: rest) ctx
      = (ErrorResponse ctx StatusUnauthorized message detail).Abort := by
  obtain ⟨message, detail, hfail⟩ := AuthMiddleware_fail ValidateToken cfg ctx hno
  exact ⟨message, detail, hfail _⟩

/-- C11: on every route that `setupAPIRouter` registers (all under `/users`),
`AuthMiddleware` is the first evaluator of the chain, followed by at most one
`RoleMiddleware` and then the route handler.  A request that fails
authentication is answered `401 Unauthorized` with abort and an unchanged
context bag, whatever its path parameters and whatever follows in the chain;
a request that passes authentication but whose role is not accepted by the
role evaluator is answered `403 Forbidden` with abort.  In both cases the
result does not depend on the route handler, which is not run. -/
theorem setupAPIRouter_first_failure (ValidateToken : TokenValidator) (cfg : RouteConfig)
    (pre : List HandlerFunc) (ctx : Context) (r : RouteInfo)
    (hr : r ∈ setupAPIRouter ValidateToken { basePath := "/api/v1", Handlers := pre } cfg) :
    ∃ evaluators routeHandler,
      r.Handlers = pre ++ AuthMiddleware ValidateToken cfg.Config
          :: (evaluators ++ [routeHandler])
        ∧ (evaluators = [] ∨ ∃ roles, evaluators = [RoleMiddleware roles])
        ∧ ((¬ ∃ token claims, ctx.GetHeader "Authorization" = "Bearer " ++ token
              ∧ ValidateToken token cfg.Config.JWT.Secret = Except.ok claims) →
            ∃ message detail,
              serveChain (AuthMiddleware ValidateToken cfg.Config
                  :: (evaluators ++ [routeHandler])) ctx
                = (ErrorResponse ctx StatusUnauthorized message detail).Abort)
        ∧ (∀ token claims roles, ctx.GetHeader "Authorization" = "Bearer " ++ token →
            ValidateToken token cfg.Config.JWT.Secret = Except.ok claims →
            evaluators = [RoleMiddleware roles] → claims.Role ∉ roles →
            serveChain (AuthMiddleware ValidateToken cfg.Config
                :: (evaluators ++ [routeHandler])) ctx
              = (ErrorResponse (setClaims ctx claims) StatusForbidden
                  "Access denied: insufficent permissions" ErrorDetail.nil).Abort) := by
  obtain ⟨evaluators, routeHandler, hshape, hev⟩ :=
    setupAPIRouter_shape ValidateToken cfg { basePath := "/api/v1", Handlers := pre } r hr
  refine ⟨evaluators, routeHandler, hshape, hev, ?_, ?_⟩
  · intro hno
    exact serveChain_auth_fail ValidateToken cfg.Config _ ctx hno
  · intro token claims roles hheader hvalid hroles hnot
    subst hroles
    exact (serveChain_auth_role ValidateToken cfg.Config roles routeHandler ctx token claims
      hheader hvalid).2 hnot

theorem setupAPIRouter_first_failure_witness :
    ∃ evaluators routeHandler,
      [AuthMiddleware testValidator testConfig, tracingHandler]
          = [] ++ AuthMiddleware testValidator testConfig :: (evaluators ++ [routeHandler])
        ∧ (evaluators = [] ∨ ∃ roles, evaluators = [RoleMiddleware roles])
        ∧ ((¬ ∃ token claims,
              (requestContext "InvalidToken" "2").GetHeader "Authorization" = "Bearer " ++ token
              ∧ testValidator token testConfig.JWT.Secret = Except.ok claims) →
            ∃ message detail,
              serveChain (AuthMiddleware testValidator testConfig
                  :: (evaluators ++ [routeHandler])) (requestContext "InvalidToken" "2")
                = (ErrorResponse (requestContext "InvalidToken" "2") StatusUnauthorized
                    message detail).Abort)
        ∧ (∀ token claims roles,
            (requestContext "InvalidToken" "2").GetHeader "Authorization" = "Bearer " ++ token →
            testValidator token testConfig.JWT.Secret = Except.ok claims →
            evaluators = [RoleMiddleware roles] → claims.Role ∉ roles →
            serveChain (AuthMiddleware testValidator testConfig
                :: (evaluators ++ [routeHandler])) (requestContext "InvalidToken" "2")
              = (ErrorResponse (setClaims (requestContext "InvalidToken" "2") claims)
                  StatusForbidden "Access denied: insufficent permissions"
                  ErrorDetail.nil).Abort) :=
  setupAPIRouter_first_failure testValidator testRouteConfig []
    (requestContext "InvalidToken" "2")
    { Method := "GET", Path := "/api/v1/users/me",
      Handlers := [AuthMiddleware testValidator testConfig, tracingHandler] }
    (List.Mem.head _)

/-! ## Self-service handlers -/

theorem getUserIDFromContext_uint (ctx : Context) (userID : Nat)
    (hid : ctx.Get "user_id" = some (Value.uint userID)) :
    handler.getUserIDFromContext ctx = some (Except.ok userID) := by
  simp only [handler.getUserIDFromContext, hid]

/-- A failed re-proof in `DeleteMyAccount`: `401`, and the only call made. -/
theorem DeleteMyAccount_reproof_fails {σ : Type} (service : UserService σ) (bind : Binding)
    (ctx : Context) (st st' : σ) (log : List ServiceCall) (userID : Nat)
    (req : DeleteAccountRequest) (err : String)
    (hid : ctx.Get "user_id" = some (Value.uint userID))
    (hbind : bind.bindDeleteAccountRequest ctx.Body = Except.ok req)
    (hverify : service.VerifyPasswordForDeletion userID req.Password st
      = (Except.error err, st')) :
    handler.DeleteMyAccount (traced service) bind ctx (st, log)
      = (ErrorResponse ctx StatusUnauthorized "Invalid password" (ErrorDetail.text err),
          (st', log ++ [ServiceCall.VerifyPasswordForDeletion userID req.Password])) := by
  simp only [handler.DeleteMyAccount, getUserIDFromContext_uint ctx userID hid, hbind, traced,
    logged, hverify]

/-- A failed re-proof in `DeactivateMyAccount`: `401`, and the only call made. -/
theorem DeactivateMyAccount_reproof_fails {σ : Type} (service : UserService σ) (bind : Binding)
    (ctx : Context) (st st' : σ) (log : List ServiceCall) (userID : Nat)
    (req : DeactivateAccountRequest) (err : String)
    (hid : ctx.Get "user_id" = some (Value.uint userID))
    (hbind : bind.bindDeactivateAccountRequest ctx.Body = Except.ok req)
    (hverify : service.VerifyPasswordForDeletion userID req.Password st
      = (Except.error err, st')) :
    handler.DeactivateMyAccount (traced service) bind ctx (st, log)
      = (ErrorResponse ctx StatusUnauthorized "Invalid password" (ErrorDetail.text err),
          (st', log ++ [ServiceCall.VerifyPasswordForDeletion userID req.Password])) := by
  simp only [handler.DeactivateMyAccount, getUserIDFromContext_uint ctx userID hid, hbind,
    traced, logged, hverify]

/-- On the table, `VerifyPasswordForDeletion` is a read: it fails with the
error of `FindByID` when the account is not found, with `invalid password`
when the password does not verify, and leaves the table as it was. -/
theorem VerifyPasswordForDeletion_db (cfg : Config) (utils : Utils) (ceilDiv : Int → Int → Int)
    (list deleteList : PaginationQuery → DB → Result DB (List User × Int))
    (id : Nat) (password : String) (db : DB) :
    (dbService cfg utils ceilDiv list deleteList).VerifyPasswordForDeletion id password db
      = (match userRepository.First db (fun u => u.ID == id) with
          | Except.error err => Except.error err
          | Except.ok user =>
            if utils.CheckPassword user.Password password then Except.ok ()
            else Except.error "invalid password", db) := by
  simp only [userService.VerifyPasswordForDeletion, dbService, NewUserRepository,
    userRepository.FindByID, orReturn]
  cases userRepository.First db (fun u => u.ID == id) with
  | error err => rfl
  | ok user =>
    cases hc : utils.CheckPassword user.Password password <;> simp [hc]

/-- C12: in `DeleteMyAccount` and `DeactivateMyAccount`, for an authenticated
caller `userID` whose request binds to a password for which
`VerifyPasswordForDeletion` fails, the handler answers `401 Unauthorized`
(`Invalid password`) and the only call it makes into the service is that
`VerifyPasswordForDeletion`: neither `SoftDeleteUser` nor `DeactivateUser` is
called.  In the service over the table, `VerifyPasswordForDeletion` fails when
the account is not found or the password does not verify, and it never changes
the table, so the account state is not mutated. -/
theorem self_service_reproof {σ : Type} (service : UserService σ) (bind : Binding)
    (ctx : Context) (st st' : σ) (log : List ServiceCall) (userID : Nat)
    (password err : String)
    (hid : ctx.Get "user_id" = some (Value.uint userID))
    (hverify : service.VerifyPasswordForDeletion userID password st = (Except.error err, st')) :
    (∀ req, bind.bindDeleteAccountRequest ctx.Body = Except.ok req → req.Password = password →
        handler.DeleteMyAccount (traced service) bind ctx (st, log)
          = (ErrorResponse ctx StatusUnauthorized "Invalid password" (ErrorDetail.text err),
              (st', log ++ [ServiceCall.VerifyPasswordForDeletion userID password])))
      ∧ (∀ req, bind.bindDeactivateAccountRequest ctx.Body = Except.ok req →
        req.Password = password →
        handler.DeactivateMyAccount (traced service) bind ctx (st, log)
          = (ErrorResponse ctx StatusUnauthorized "Invalid password" (ErrorDetail.text err),
              (st', log ++ [ServiceCall.VerifyPasswordForDeletion userID password])))
      ∧ (∀ cfg utils ceilDiv list deleteList id pw db,
        (dbService cfg utils ceilDiv list deleteList).VerifyPasswordForDeletion id pw db
          = (match userRepository.First db (fun u => u.ID == id) with
              | Except.error e => Except.error e
              | Except.ok user =>
                if utils.CheckPassword user.Password pw then Except.ok ()
                else Except.error "invalid password", db)) := by
  refine ⟨?_, ?_, ?_⟩
  · intro req hbind hpw
    subst hpw
    exact DeleteMyAccount_reproof_fails service bind ctx st st' log userID req err hid hbind
      hverify
  · intro req hbind hpw
    subst hpw
    exact DeactivateMyAccount_reproof_fails service bind ctx st st' log userID req err hid hbind
      hverify
  · intro cfg utils ceilDiv list deleteList id pw db
    exact VerifyPasswordForDeletion_db cfg utils ceilDiv list deleteList id pw db

theorem self_service_reproof_witness :
    handler.DeleteMyAccount (traced (NewUserService testService)) testBinding
        (authenticatedRequest 1 "patient" "wrongpassword") (testDB, [])
      = (ErrorResponse (authenticatedRequest 1 "patient" "wrongpassword") 401
            "Invalid password" (ErrorDetail.text "invalid password"),
          (testDB, [ServiceCall.VerifyPasswordForDeletion 1 "wrongpassword"])) :=
  (self_service_reproof (NewUserService testService) testBinding
    (authenticatedRequest 1 "patient" "wrongpassword") testDB testDB [] 1 "wrongpassword"
    "invalid password" (by decide) (by decide)).1
    { Password := "wrongpassword", Reason := "" } (by decide) (by decide)

/-- The one call of `GetMyProfile`. -/
theorem GetMyProfile_calls {σ : Type} (service : UserService σ)
    (ctx : Context) (st : σ) (log : List ServiceCall) (userID : Nat)
    (hid : ctx.Get "user_id" = some (Value.uint userID)) :
    (handler.GetMyProfile (traced service) ctx (st, log)).2.2
      = log ++ [ServiceCall.GetUserByID userID] := by
  rcases hres : service.GetUserByID userID st with ⟨r, st1⟩
  cases r <;>
    simp [handler.GetMyProfile, getUserIDFromContext_uint ctx userID hid, traced, logged, hres]

theorem UpdateMyProfile_calls {σ : Type} (service : UserService σ) (bind : Binding)
    (ctx : Context) (st : σ) (userID : Nat)
    (hid : ctx.Get "user_id" = some (Value.uint userID)) :
    ∀ c ∈ (handler.UpdateMyProfile (traced service) bind ctx (st, [])).2.2,
      c.subject = some userID := by
  simp only [handler.UpdateMyProfile, getUserIDFromContext_uint ctx userID hid]
  cases hb : bind.bindUpdateUserRequest ctx.Body with
  | error e => simp
  | ok req =>
    by_cases hr : req.Role ≠ none
    · simp [hr]
    · by_cases ha : req.IsActive ≠ none
      · simp [hr, ha]
      · rcases hu : service.UpdateUser userID req st with ⟨r, st1⟩
        cases r <;> simp [hr, ha, traced, logged, hu, ServiceCall.subject]

theorem ChangeMyPassword_calls {σ : Type} (service : UserService σ) (bind : Binding)
    (ctx : Context) (st : σ) (userID : Nat)
    (hid : ctx.Get "user_id" = some (Value.uint userID)) :
    ∀ c ∈ (handler.ChangeMyPassword (traced service) bind ctx (st, [])).2.2,
      c.subject = some userID := by
  simp only [handler.ChangeMyPassword, getUserIDFromContext_uint ctx userID hid]
  cases hb : bind.bindChangePasswordRequest ctx.Body with
  | error e => simp
  | ok req =>
    rcases hu : service.ChangePassword userID req st with ⟨r, st1⟩
    cases r <;> simp [traced, logged, hu, ServiceCall.subject]

theorem DeleteMyAccount_calls {σ : Type} (service : UserService σ) (bind : Binding)
    (ctx : Context) (st : σ) (userID : Nat)
    (hid : ctx.Get "user_id" = some (Value.uint userID)) :
    ∀ c ∈ (handler.DeleteMyAccount (traced service) bind ctx (st, [])).2.2,
      c.subject = some userID := by
  simp only [handler.DeleteMyAccount, getUserIDFromContext_uint ctx userID hid]
  cases hb : bind.bindDeleteAccountRequest ctx.Body with
  | error e => simp
  | ok req =>
    rcases hv : service.VerifyPasswordForDeletion userID req.Password st with ⟨r, st1⟩
    cases r with
    | error e => simp [traced, logged, hv, ServiceCall.subject]
    | ok u =>
      rcases hd : service.SoftDeleteUser userID st1 with ⟨r2, st2⟩
      cases r2 <;> simp [traced, logged, hv, hd, ServiceCall.subject]

theorem DeactivateMyAccount_calls {σ : Type} (service : UserService σ) (bind : Binding)
    (ctx : Context) (st : σ) (userID : Nat)
    (hid : ctx.Get "user_id" = some (Value.uint userID)) :
    ∀ c ∈ (handler.DeactivateMyAccount (traced service) bind ctx (st, [])).2.2,
      c.subject = some userID := by
  simp only [handler.DeactivateMyAccount, getUserIDFromContext_uint ctx userID hid]
  cases hb : bind.bindDeactivateAccountRequest ctx.Body with
  | error e => simp
  | ok req =>
    rcases hv : service.VerifyPasswordForDeletion userID req.Password st with ⟨r, st1⟩
    cases r with
    | error e => simp [traced, logged, hv, ServiceCall.subject]
    | ok u =>
      rcases hd : service.DeactivateUser userID st1 with ⟨r2, st2⟩
      cases r2 <;> simp [traced, logged, hv, hd, ServiceCall.subject]

/-- The one call of `UpdateMyProfile` for a body that binds to a request
without `role` and `is_active`. -/
theorem UpdateMyProfile_log {σ : Type} (service : UserService σ) (bind : Binding)
    (ctx : Context) (st : σ) (userID : Nat) (req : UpdateUserRequest)
    (hid : ctx.Get "user_id" = some (Value.uint userID))
    (hb : bind.bindUpdateUserRequest ctx.Body = Except.ok req)
    (hr : req.Role = none) (ha : req.IsActive = none) :
    (handler.UpdateMyProfile (traced service) bind ctx (st, [])).2.2
      = [ServiceCall.UpdateUser userID req] := by
  rcases hu : service.UpdateUser userID req st with ⟨r, st1⟩
  cases r <;>
    simp [handler.UpdateMyProfile, getUserIDFromContext_uint ctx userID hid, hb, hr, ha,
      traced, logged, hu]

/-- The one call of `ChangeMyPassword` for a body that binds. -/
theorem ChangeMyPassword_log {σ : Type} (service : UserService σ) (bind : Binding)
    (ctx : Context) (st : σ) (userID : Nat) (req : ChangePasswordRequest)
    (hid : ctx.Get "user_id" = some (Value.uint userID))
    (hb : bind.bindChangePasswordRequest ctx.Body = Except.ok req) :
    (handler.ChangeMyPassword (traced service) bind ctx (st, [])).2.2
      = [ServiceCall.ChangePassword userID req] := by
  rcases hu : service.ChangePassword userID req st with ⟨r, st1⟩
  cases r <;>
    simp [handler.ChangeMyPassword, getUserIDFromContext_uint ctx userID hid, hb,
      traced, logged, hu]

/-- The calls of `DeleteMyAccount` for a body that binds: the verification of
the password, followed by the soft delete when the verification succeeds. -/
theorem DeleteMyAccount_log {σ : Type} (service : UserService σ) (bind : Binding)
    (ctx : Context) (st : σ) (userID : Nat) (req : DeleteAccountRequest)
    (hid : ctx.Get "user_id" = some (Value.uint userID))
    (hb : bind.bindDeleteAccountRequest ctx.Body = Except.ok req) :
    (handler.DeleteMyAccount (traced service) bind ctx (st, [])).2.2
      = ServiceCall.VerifyPasswordForDeletion userID req.Password ::
          (match (service.VerifyPasswordForDeletion userID req.Password st).1 with
            | Except.ok _ => [ServiceCall.SoftDeleteUser userID]
            | Except.error _ => []) := by
  rcases hv : service.VerifyPasswordForDeletion userID req.Password st with ⟨r, st1⟩
  cases r with
  | error e =>
    simp [handler.DeleteMyAccount, getUserIDFromContext_uint ctx userID hid, hb, traced,
      logged, hv]
  | ok u =>
    rcases hd : service.SoftDeleteUser userID st1 with ⟨r2, st2⟩
    cases r2 <;>
      simp [handler.DeleteMyAccount, getUserIDFromContext_uint ctx userID hid, hb, traced,
        logged, hv, hd]

/-- The calls of `DeactivateMyAccount` for a body that binds: the verification
of the password, followed by the deactivation when the verification succeeds. -/
theorem DeactivateMyAccount_log {σ : Type} (service : UserService σ) (bind : Binding)
    (ctx : Context) (st : σ) (userID : Nat) (req : DeactivateAccountRequest)
    (hid : ctx.Get "user_id" = some (Value.uint userID))
    (hb : bind.bindDeactivateAccountRequest ctx.Body = Except.ok req) :
    (handler.DeactivateMyAccount (traced service) bind ctx (st, [])).2.2
      = ServiceCall.VerifyPasswordForDeletion userID req.Password ::
          (match (service.VerifyPasswordForDeletion userID req.Password st).1 with
            | Except.ok _ => [ServiceCall.DeactivateUser userID]
            | Except.error _ => []) := by
  rcases hv : service.VerifyPasswordForDeletion userID req.Password st with ⟨r, st1⟩
  cases r with
  | error e =>
    simp [handler.DeactivateMyAccount, getUserIDFromContext_uint ctx userID hid, hb, traced,
      logged, hv]
  | ok u =>
    rcases hd : service.DeactivateUser userID st1 with ⟨r2, st2⟩
    cases r2 <;>
      simp [handler.DeactivateMyAccount, getUserIDFromContext_uint ctx userID hid, hb, traced,
        logged, hv, hd]

/-- C13: for a validly authenticated request, `AuthMiddleware` hands the
`/users/me` handlers the context carrying the claims, from which
`getUserIDFromContext` reads the subject id of the token.  Whatever the role,
the request body, the path parameters, the binding and the service are, each
handler passes exactly that subject id to the service: `GetMyProfile` makes
the one call `GetUserByID(subject id)`; for a body that binds,
`UpdateMyProfile` makes the one call `UpdateUser(subject id, request)` (when
the request has neither `role` nor `is_active`), `ChangeMyPassword` the one
call `ChangePassword(subject id, request)`, and `DeleteMyAccount` and
`DeactivateMyAccount` call `VerifyPasswordForDeletion(subject id, password)`
followed, when the password verifies, by `SoftDeleteUser(subject id)` and
`DeactivateUser(subject id)`; and for every body, binding or not, no call of
the five handlers addresses another id. -/
theorem me_handlers_address_token_subject {σ : Type} (ValidateToken : TokenValidator)
    (cfg : Config) (service : UserService σ) (bind : Binding) (ctx : Context) (st : σ)
    (token : String) (claims : Claims)
    (hheader : ctx.GetHeader "Authorization" = "Bearer " ++ token)
    (hvalid : ValidateToken token cfg.JWT.Secret = Except.ok claims) :
    (∀ next, AuthMiddleware ValidateToken cfg next ctx = next (setClaims ctx claims))
      ∧ handler.getUserIDFromContext (setClaims ctx claims) = some (Except.ok claims.UserID)
      ∧ (handler.GetMyProfile (traced service) (setClaims ctx claims) (st, [])).2.2
          = [ServiceCall.GetUserByID claims.UserID]
      ∧ (∀ req, bind.bindUpdateUserRequest ctx.Body = Except.ok req →
          req.Role = none → req.IsActive = none →
          (handler.UpdateMyProfile (traced service) bind (setClaims ctx claims) (st, [])).2.2
            = [ServiceCall.UpdateUser claims.UserID req])
      ∧ (∀ req, bind.bindChangePasswordRequest ctx.Body = Except.ok req →
          (handler.ChangeMyPassword (traced service) bind (setClaims ctx claims) (st, [])).2.2
            = [ServiceCall.ChangePassword claims.UserID req])
      ∧ (∀ req, bind.bindDeleteAccountRequest ctx.Body = Except.ok req →
          (handler.DeleteMyAccount (traced service) bind (setClaims ctx claims) (st, [])).2.2
            = ServiceCall.VerifyPasswordForDeletion claims.UserID req.Password ::
                (match (service.VerifyPasswordForDeletion claims.UserID req.Password st).1 with
                  | Except.ok _ => [ServiceCall.SoftDeleteUser claims.UserID]
                  | Except.error _ => []))
      ∧ (∀ req, bind.bindDeactivateAccountRequest ctx.Body = Except.ok req →
          (handler.DeactivateMyAccount (traced service) bind (setClaims ctx claims)
              (st, [])).2.2
            = ServiceCall.VerifyPasswordForDeletion claims.UserID req.Password ::
                (match (service.VerifyPasswordForDeletion claims.UserID req.Password st).1 with
                  | Except.ok _ => [ServiceCall.DeactivateUser claims.UserID]
                  | Except.error _ => []))
      ∧ (∀ c ∈ (handler.UpdateMyProfile (traced service) bind (setClaims ctx claims)
            (st, [])).2.2, c.subject = some claims.UserID)
      ∧ (∀ c ∈ (handler.ChangeMyPassword (traced service) bind (setClaims ctx claims)
            (st, [])).2.2, c.subject = some claims.UserID)
      ∧ (∀ c ∈ (handler.DeleteMyAccount (traced service) bind (setClaims ctx claims)
            (st, [])).2.2, c.subject = some claims.UserID)
      ∧ (∀ c ∈ (handler.DeactivateMyAccount (traced service) bind (setClaims ctx claims)
            (st, [])).2.2, c.subject = some claims.UserID)
      ∧ (∀ pre method path routeHandler,
          (method, path, routeHandler) ∈ meUserRoutes (NewUserHandler service bind st) →
          findRoute (setupAPIRouter ValidateToken { basePath := "/api/v1", Handlers := pre }
              { Config := cfg, UserHandler := NewUserHandler service bind st }) method path
            = some (pre ++ [AuthMiddleware ValidateToken cfg, routeHandler])) := by
  have hid := (setClaims_keys ctx claims).1
  refine ⟨AuthMiddleware_ok ValidateToken cfg ctx token claims hheader hvalid,
    getUserIDFromContext_uint _ _ hid, ?_,
    fun req hb hr ha => UpdateMyProfile_log service bind _ st _ req hid hb hr ha,
    fun req hb => ChangeMyPassword_log service bind _ st _ req hid hb,
    fun req hb => DeleteMyAccount_log service bind _ st _ req hid hb,
    fun req hb => DeactivateMyAccount_log service bind _ st _ req hid hb,
    UpdateMyProfile_calls service bind _ st _ hid,
    ChangeMyPassword_calls service bind _ st _ hid,
    DeleteMyAccount_calls service bind _ st _ hid,
    DeactivateMyAccount_calls service bind _ st _ hid, ?_⟩
  · have h := GetMyProfile_calls service (setClaims ctx claims) st [] claims.UserID hid
    simpa using h
  · intro pre method path routeHandler hmem
    simp only [meUserRoutes, List.mem_cons, Prod.mk.injEq, List.mem_singleton,
      List.not_mem_nil, or_false] at hmem
    rcases hmem with h | h | h | h | h <;>
      (obtain ⟨hm, hp, hh⟩ := h; subst hm; subst hp; subst hh; rw [chain2]; rfl)

theorem me_handlers_address_token_subject_witness :
    (handler.DeleteMyAccount (traced (NewUserService testService)) testBinding
        (setClaims (bearerRequest "Bearer patient-token" "2" "alicepass")
          { UserID := 1, Username := "testuser", Email := "test@example.com",
            Role := "patient" }) (testDB, [])).2.2
      = [ServiceCall.VerifyPasswordForDeletion 1 "alicepass", ServiceCall.SoftDeleteUser 1] :=
  (me_handlers_address_token_subject testValidator testConfig (NewUserService testService)
      testBinding (bearerRequest "Bearer patient-token" "2" "alicepass") testDB "patient-token"
      { UserID := 1, Username := "testuser", Email := "test@example.com", Role := "patient" }
      (by decide) (by decide)).2.2.2.2.2.1 { Password := "alicepass", Reason := "" } (by decide)


/-! ## Login -/

/-- Login on an inactive record, for every token issuer. -/
theorem Login_of_inactive {σ : Type} (s : userService σ) (req : LoginRequest) (st st' : σ)
    (user : User)
    (hfind : s.repo.FindByUsernameOrEmail req.UsernameOrEmail st = (Except.ok user, st'))
    (hinactive : user.IsActive = false) :
    s.Login req st = (Except.error "user account is inactive", st') := by
  simp only [userService.Login, hfind, hinactive]
  rfl

/-- Login with an identifier the directory does not find. -/
theorem Login_of_unknown {σ : Type} (s : userService σ) (req : LoginRequest) (st st' : σ)
    (err : String)
    (hfind : s.repo.FindByUsernameOrEmail req.UsernameOrEmail st = (Except.error err, st')) :
    s.Login req st = (Except.error "invalid credentials", st') := by
  simp only [userService.Login, hfind]

/-- Login on an active record with a password that does not verify. -/
theorem Login_of_wrong_password {σ : Type} (s : userService σ) (req : LoginRequest)
    (st st' : σ) (user : User)
    (hfind : s.repo.FindByUsernameOrEmail req.UsernameOrEmail st = (Except.ok user, st'))
    (hactive : user.IsActive = true)
    (hwrong : s.utils.CheckPassword user.Password req.Password = false) :
    s.Login req st = (Except.error "invalid credentials", st') := by
  simp only [userService.Login, hfind, hactive, hwrong]
  rfl

/-- C14: `Login` on an account whose active flag is false returns the error
`user account is inactive` for every password (the password is not looked at),
and the result is the same whatever `GenerateToken` is: no token is issued. -/
theorem Login_inactive_never_token {σ : Type} (s : userService σ) (req : LoginRequest)
    (st st' : σ) (user : User)
    (hfind : s.repo.FindByUsernameOrEmail req.UsernameOrEmail st = (Except.ok user, st'))
    (hinactive : user.IsActive = false) :
    s.Login req st = (Except.error "user account is inactive", st')
      ∧ (∀ password, s.Login { req with Password := password } st
          = (Except.error "user account is inactive", st'))
      ∧ (∀ checkPassword generateToken,
          ({ s with utils := { s.utils with CheckPassword := checkPassword,
                                             GenerateToken := generateToken } }
            : userService σ).Login req st
            = (Except.error "user account is inactive", st')) := by
  refine ⟨Login_of_inactive s req st st' user hfind hinactive, ?_, ?_⟩
  · intro password
    exact Login_of_inactive s { req with Password := password } st st' user hfind hinactive
  · intro checkPassword generateToken
    exact Login_of_inactive _ req st st' user hfind hinactive

theorem Login_inactive_never_token_witness :
    testService.Login { UsernameOrEmail := "bob", Password := "bobpass12" } testDB
      = (Except.error "user account is inactive", testDB) :=
  (Login_inactive_never_token testService { UsernameOrEmail := "bob", Password := "bobpass12" }
    testDB testDB
    { ID := 2, Username := "bob", Email := "bob@x.com", Phone := "0822222222",
      Password := "hash:bobpass12", Role := "doctor", IsActive := false,
      CreatedAt := 20, UpdatedAt := 20, DeletedAt := none }
    (by decide) (by decide)).1

/-- C15: when the accounts involved are active, a `Login` with an identifier
the directory does not find and a `Login` with a known identifier but a
password that does not verify return the same error, `invalid credentials`. -/
theorem Login_unknown_or_wrong_password {σ : Type} (s : userService σ)
    (unknown known : LoginRequest) (st st1 st2 : σ) (err : String) (user : User)
    (hunknown : s.repo.FindByUsernameOrEmail unknown.UsernameOrEmail st
      = (Except.error err, st1))
    (hknown : s.repo.FindByUsernameOrEmail known.UsernameOrEmail st = (Except.ok user, st2))
    (hactive : user.IsActive = true)
    (hwrong : s.utils.CheckPassword user.Password known.Password = false) :
    (s.Login unknown st).1 = Except.error "invalid credentials"
      ∧ (s.Login known st).1 = Except.error "invalid credentials"
      ∧ (s.Login unknown st).1 = (s.Login known st).1 := by
  rw [Login_of_unknown s unknown st st1 err hunknown,
    Login_of_wrong_password s known st st2 user hknown hactive hwrong]
  exact ⟨rfl, rfl, rfl⟩

theorem Login_unknown_or_wrong_password_witness :
    (testService.Login { UsernameOrEmail := "nobody", Password := "alicepass" } testDB).1
        = Except.error "invalid credentials"
      ∧ (testService.Login { UsernameOrEmail := "alice", Password := "wrongpass" } testDB).1
        = Except.error "invalid credentials"
      ∧ (testService.Login { UsernameOrEmail := "nobody", Password := "alicepass" } testDB).1
        = (testService.Login { UsernameOrEmail := "alice", Password := "wrongpass" } testDB).1 :=
  Login_unknown_or_wrong_password testService
    { UsernameOrEmail := "nobody", Password := "alicepass" }
    { UsernameOrEmail := "alice", Password := "wrongpass" } testDB testDB testDB
    "user not found"
    { ID := 1, Username := "alice", Email := "alice@x.com", Phone := "0811111111",
      Password := "hash:alicepass", Role := "patient", IsActive := true,
      CreatedAt := 10, UpdatedAt := 10, DeletedAt := none }
    (by decide) (by decide) (by decide) (by decide)

/-- C16, refuted as stated: on the table `testDB` a `Login` with the unknown
identifier `nobody` fails with `invalid credentials`, while a `Login` on the
inactive account `bob` fails with the different message
`user account is inactive`, with a wrong password as well. -/
theorem Login_messages_counterexample :
    (testService.Login { UsernameOrEmail := "nobody", Password := "wrongpass" } testDB).1
        = Except.error "invalid credentials"
      ∧ (testService.Login { UsernameOrEmail := "bob", Password := "wrongpass" } testDB).1
        = Except.error "user account is inactive"
      ∧ (testService.Login { UsernameOrEmail := "nobody", Password := "wrongpass" } testDB).1
        ≠ (testService.Login { UsernameOrEmail := "bob", Password := "wrongpass" } testDB).1 := by
  decide

/-- C16, amended: two `Login` requests that fail for an unknown identifier or
for a wrong password on an active account return the same error message,
`invalid credentials`, and the `Login` handler answers both with the same
`401` body; a `Login` on an inactive account returns the other message
`user account is inactive`. -/
theorem Login_credential_failures_same_message {σ : Type} (s : userService σ)
    (req1 req2 : LoginRequest) (st : σ)
    (h1 : (∃ err st', s.repo.FindByUsernameOrEmail req1.UsernameOrEmail st
            = (Except.error err, st'))
        ∨ (∃ user st', s.repo.FindByUsernameOrEmail req1.UsernameOrEmail st
            = (Except.ok user, st') ∧ user.IsActive = true
            ∧ s.utils.CheckPassword user.Password req1.Password = false))
    (h2 : (∃ err st', s.repo.FindByUsernameOrEmail req2.UsernameOrEmail st
            = (Except.error err, st'))
        ∨ (∃ user st', s.repo.FindByUsernameOrEmail req2.UsernameOrEmail st
            = (Except.ok user, st') ∧ user.IsActive = true
            ∧ s.utils.CheckPassword user.Password req2.Password = false)) :
    (s.Login req1 st).1 = Except.error "invalid credentials"
      ∧ (s.Login req2 st).1 = Except.error "invalid credentials"
      ∧ (∀ (bind : Binding) (ctx : Context),
          bind.bindLoginRequest ctx.Body = Except.ok req1 →
          (handler.Login (NewUserService s) bind ctx st).1
            = ErrorResponse ctx StatusUnauthorized "Login failed"
                (ErrorDetail.text "invalid credentials"))
      ∧ (∀ (bind : Binding) (ctx : Context),
          bind.bindLoginRequest ctx.Body = Except.ok req2 →
          (handler.Login (NewUserService s) bind ctx st).1
            = ErrorResponse ctx StatusUnauthorized "Login failed"
                (ErrorDetail.text "invalid credentials"))
      ∧ (∀ (req : LoginRequest) (user : User) (st' : σ),
          s.repo.FindByUsernameOrEmail req.UsernameOrEmail st = (Except.ok user, st') →
          user.IsActive = false →
          (s.Login req st).1 = Except.error "user account is inactive") := by
  have key : ∀ req : LoginRequest,
      ((∃ err st', s.repo.FindByUsernameOrEmail req.UsernameOrEmail st
            = (Except.error err, st'))
        ∨ (∃ user st', s.repo.FindByUsernameOrEmail req.UsernameOrEmail st
            = (Except.ok user, st') ∧ user.IsActive = true
            ∧ s.utils.CheckPassword user.Password req.Password = false)) →
      ∃ st', s.Login req st = (Except.error "invalid credentials", st') := by
    intro req h
    rcases h with ⟨err, st', hf⟩ | ⟨user, st', hf, ha, hw⟩
    · exact ⟨st', Login_of_unknown s req st st' err hf⟩
    · exact ⟨st', Login_of_wrong_password s req st st' user hf ha hw⟩
  obtain ⟨st1, hl1⟩ := key req1 h1
  obtain ⟨st2, hl2⟩ := key req2 h2
  refine ⟨by rw [hl1], by rw [hl2], ?_, ?_, ?_⟩
  · intro bind ctx hb
    simp only [handler.Login, hb, NewUserService, hl1]
  · intro bind ctx hb
    simp only [handler.Login, hb, NewUserService, hl2]
  · intro req user st' hf hi
    rw [Login_of_inactive s req st st' user hf hi]

theorem Login_credential_failures_same_message_witness :
    (testService.Login { UsernameOrEmail := "nobody", Password := "alicepass" } testDB).1
        = Except.error "invalid credentials"
      ∧ (testService.Login { UsernameOrEmail := "alice", Password := "wrongpass" } testDB).1
        = Except.error "invalid credentials" :=
  ⟨(Login_credential_failures_same_message testService
      { UsernameOrEmail := "nobody", Password := "alicepass" }
      { UsernameOrEmail := "alice", Password := "wrongpass" } testDB
      (Or.inl ⟨"user not found", testDB, by decide⟩)
      (Or.inr ⟨{ ID := 1, Username := "alice", Email := "alice@x.com", Phone := "0811111111",
                 Password := "hash:alicepass", Role := "patient", IsActive := true,
                 CreatedAt := 10, UpdatedAt := 10, DeletedAt := none },
               testDB, by decide, by decide, by decide⟩)).1,
   (Login_credential_failures_same_message testService
      { UsernameOrEmail := "nobody", Password := "alicepass" }
      { UsernameOrEmail := "alice", Password := "wrongpass" } testDB
      (Or.inl ⟨"user not found", testDB, by decide⟩)
      (Or.inr ⟨{ ID := 1, Username := "alice", Email := "alice@x.com", Phone := "0811111111",
                 Password := "hash:alicepass", Role := "patient", IsActive := true,
                 CreatedAt := 10, UpdatedAt := 10, DeletedAt := none },
               testDB, by decide, by decide, by decide⟩)).2.1⟩

/-! ## The table: facts about the repository -/

theorem orReturn_ok {σ α β : Type} (x : α) (st : σ) (k : α → σ → Result σ β) :
    orReturn (Except.ok x, st) k = k x st := rfl

theorem orReturn_error {σ α β : Type} (err : String) (st : σ) (k : α → σ → Result σ β) :
    orReturn ((Except.error err : Except String α), st) k = (Except.error err, st) := rfl

theorem Count_pos_iff (db : DB) (cond : User → Bool) :
    userRepository.Count db cond > 0 ↔ ∃ u ∈ db.users, u.DeletedAt = none ∧ cond u = true := by
  simp [userRepository.Count, List.countP_pos_iff, userRepository.live,
    Option.isNone_iff_eq_none]

theorem IsUsernameExists_db (username : String) (excludeID : List Nat) (db : DB) :
    userRepository.IsUsernameExists username excludeID db
      = (Except.ok (decide (∃ u ∈ db.users, u.DeletedAt = none ∧ u.Username = username
          ∧ userRepository.notExcluded excludeID u = true)), db) := by
  simp only [userRepository.IsUsernameExists, Count_pos_iff]
  simp

theorem IsEmailExists_db (email : String) (excludeID : List Nat) (db : DB) :
    userRepository.IsEmailExists email excludeID db
      = (Except.ok (decide (∃ u ∈ db.users, u.DeletedAt = none ∧ u.Email = email
          ∧ userRepository.notExcluded excludeID u = true)), db) := by
  simp only [userRepository.IsEmailExists, Count_pos_iff]
  simp

theorem IsPhoneExists_db (phone : String) (excludeID : List Nat) (db : DB) :
    userRepository.IsPhoneExists phone excludeID db
      = (Except.ok (decide (∃ u ∈ db.users, u.DeletedAt = none ∧ u.Phone = phone
          ∧ userRepository.notExcluded excludeID u = true)), db) := by
  simp only [userRepository.IsPhoneExists, Count_pos_iff]
  simp

/-- `Register` on the table, check by check. -/
theorem Register_db (cfg : Config) (utils : Utils) (ceilDiv : Int → Int → Int)
    (list deleteList : PaginationQuery → DB → Result DB (List User × Int))
    (req : RegisterRequest) (db : DB) :
    (dbService cfg utils ceilDiv list deleteList).Register req db
      = if heldByLive db User.Username req.Username then
          (Except.error "username already exists", db)
        else if heldByLive db User.Email req.Email then
          (Except.error "email already exists", db)
        else if heldByLive db User.Phone req.Phone then
          (Except.error "phone already exists", db)
        else
          match utils.HashPassword req.Password with
          | Except.error err => (Except.error err, db)
          | Except.ok hashedPassword =>
            if ValidateRole (if req.Role = "" then RolePatient else req.Role) = false then
              (Except.error "invalid role", db)
            else
              orReturn (userRepository.Create
                (newUserRecord req.Username req.Email req.Phone hashedPassword req.Role) db)
                fun user st => (Except.ok (userService.toUserResponse user), st) := by
  simp only [userService.Register, dbService, NewUserRepository, IsUsernameExists_db,
    IsEmailExists_db, IsPhoneExists_db, orReturn, userRepository.notExcluded, and_true,
    decide_eq_true_eq, newUserRecord, heldByLive]
  split
  · rfl
  · split
    · rfl
    · split
      · rfl
      · cases utils.HashPassword req.Password with
        | error err => rfl
        | ok hashed =>
          simp only []
          cases ValidateRole (if req.Role = "" then RolePatient else req.Role) <;> simp

/-- `CreateUser` on the table, check by check. -/
theorem CreateUser_db (cfg : Config) (utils : Utils) (ceilDiv : Int → Int → Int)
    (list deleteList : PaginationQuery → DB → Result DB (List User × Int))
    (req : CreateUserRequest) (db : DB) :
    (dbService cfg utils ceilDiv list deleteList).CreateUser req db
      = if heldByLive db User.Username req.Username then
          (Except.error "username already exists", db)
        else if heldByLive db User.Email req.Email then
          (Except.error "email already exists", db)
        else if heldByLive db User.Phone req.Phone then
          (Except.error "phone already exists", db)
        else
          match utils.HashPassword req.Password with
          | Except.error err => (Except.error err, db)
          | Except.ok hashedPassword =>
            if ValidateRole (if req.Role = "" then RolePatient else req.Role) = false then
              (Except.error "invalid role", db)
            else
              orReturn (userRepository.Create
                (newUserRecord req.Username req.Email req.Phone hashedPassword req.Role) db)
                fun user st => (Except.ok (userService.toUserResponse user), st) := by
  simp only [userService.CreateUser, dbService, NewUserRepository, IsUsernameExists_db,
    IsEmailExists_db, IsPhoneExists_db, orReturn, userRepository.notExcluded, and_true,
    decide_eq_true_eq, newUserRecord, heldByLive]
  split
  · rfl
  · split
    · rfl
    · split
      · rfl
      · cases utils.HashPassword req.Password with
        | error err => rfl
        | ok hashed =>
          simp only []
          cases ValidateRole (if req.Role = "" then RolePatient else req.Role) <;> simp

/-- The error texts of a value longer than its column. -/
theorem columnSizeError_cases (u : User) (err : String)
    (h : userRepository.columnSizeError u = some err) :
    err = "ERROR: value too long for type character varying(50) (SQLSTATE 22001)"
      ∨ err = "ERROR: value too long for type character varying(100) (SQLSTATE 22001)"
      ∨ err = "ERROR: value too long for type character varying(15) (SQLSTATE 22001)"
      ∨ err = "ERROR: value too long for type character varying(255) (SQLSTATE 22001)"
      ∨ err = "ERROR: value too long for type character varying(20) (SQLSTATE 22001)" := by
  unfold userRepository.columnSizeError at h
  split_ifs at h <;> simp only [Option.some.injEq, reduceCtorEq] at h <;> simp [← h]

/-- No column is too narrow exactly when every value is within the width of
its column. -/
theorem columnSizeError_none (u : User) :
    userRepository.columnSizeError u = none
      ↔ u.Username.length ≤ 50 ∧ u.Email.length ≤ 100 ∧ u.Phone.length ≤ 15
          ∧ u.Password.length ≤ 255 ∧ u.Role.length ≤ 20 := by
  unfold userRepository.columnSizeError
  constructor
  · intro h
    split_ifs at h
    omega
  · rintro ⟨h1, h2, h3, h4, h5⟩
    rw [if_neg (by omega), if_neg (by omega), if_neg (by omega), if_neg (by omega),
      if_neg (by omega)]

/-- A successful `Create` appends one row: the record after the hook, with
the id filled in and the active flag set. -/
theorem Create_ok (user row : User) (db db' : DB)
    (h : userRepository.Create user db = (Except.ok row, db')) :
    row = { user.BeforeCreate db.now with
            ID := if user.ID = 0 then db.nextID else user.ID, IsActive := true }
      ∧ db'.users = db.users ++ [row] := by
  unfold userRepository.Create at h
  dsimp only at h
  split at h
  · simp at h
  · split_ifs at h with h1 h2 h3
    · simp at h
    · simp only [Prod.mk.injEq, Except.ok.injEq] at h
      obtain ⟨hrow, hdb⟩ := h
      subst hdb
      subst hrow
      simp [h1]
    · simp at h
    · simp only [Prod.mk.injEq, Except.ok.injEq] at h
      obtain ⟨hrow, hdb⟩ := h
      subst hdb
      subst hrow
      simp [h1]

/-- A failed `Create` leaves the table as it was. -/
theorem Create_error (user : User) (db db' : DB) (err : String)
    (h : userRepository.Create user db = (Except.error err, db')) : db' = db := by
  unfold userRepository.Create at h
  dsimp only at h
  split at h
  · simp only [Prod.mk.injEq] at h
    exact h.2.symm
  · split_ifs at h with h1 h2 h3
    · simp only [Prod.mk.injEq] at h
      exact h.2.symm
    · simp at h
    · simp only [Prod.mk.injEq] at h
      exact h.2.symm
    · simp at h

/-- `Create` of a record with a value longer than its column fails with the
error of that column and leaves the table as it was. -/
theorem Create_too_long (user : User) (db : DB) (err : String)
    (h : userRepository.columnSizeError
        { user.BeforeCreate db.now with
          ID := if user.ID = 0 then db.nextID else user.ID, IsActive := true } = some err) :
    userRepository.Create user db = (Except.error err, db) := by
  unfold userRepository.Create
  dsimp only at h ⊢
  rw [h]

/-- A failed `Create` reports a duplicate key or a value longer than its
column. -/
theorem Create_error_text (user : User) (db db' : DB) (err : String)
    (h : userRepository.Create user db = (Except.error err, db')) :
    err = userRepository.duplicateKey ∨ ∃ u, userRepository.columnSizeError u = some err := by
  unfold userRepository.Create at h
  dsimp only at h
  split at h
  · rename_i e he
    simp only [Prod.mk.injEq, Except.error.injEq] at h
    exact Or.inr ⟨_, he.trans (by rw [h.1])⟩
  · split_ifs at h with h1 h2 h3
    · simp only [Prod.mk.injEq, Except.error.injEq] at h
      exact Or.inl h.1.symm
    · simp at h
    · simp only [Prod.mk.injEq, Except.error.injEq] at h
      exact Or.inl h.1.symm
    · simp at h

/-- The hook `BeforeCreate` only fills an empty role and zero time stamps. -/
theorem BeforeCreate_columns (u : User) (now : Nat) :
    (u.BeforeCreate now).Username = u.Username ∧ (u.BeforeCreate now).Email = u.Email
      ∧ (u.BeforeCreate now).Phone = u.Phone ∧ (u.BeforeCreate now).Password = u.Password
      ∧ (u.BeforeCreate now).DeletedAt = u.DeletedAt
      ∧ (u.BeforeCreate now).Role = (if u.Role = "" then RolePatient else u.Role) := by
  unfold User.BeforeCreate
  dsimp only
  split_ifs <;> simp_all

/-- The columns of the row that `Create` stores for the record built by
`Register` and `CreateUser`. -/
theorem Create_newUserRecord (username email phone hashedPassword role : String) (row : User)
    (db db' : DB)
    (h : userRepository.Create (newUserRecord username email phone hashedPassword role) db
      = (Except.ok row, db')) :
    db'.users = db.users ++ [row] ∧ row.IsActive = true
      ∧ row.Role = (if role = "" then RolePatient else role)
      ∧ row.Username = username ∧ row.Email = email ∧ row.Phone = phone
      ∧ row.Password = hashedPassword ∧ row.DeletedAt = none := by
  obtain ⟨hrow, husers⟩ := Create_ok _ _ _ _ h
  obtain ⟨h1, h2, h3, h4, h5, h6⟩ :=
    BeforeCreate_columns (newUserRecord username email phone hashedPassword role) db.now
  refine ⟨husers, ?_⟩
  rw [hrow]
  dsimp only
  rw [h1, h2, h3, h4, h5, h6]
  refine ⟨rfl, ?_, rfl, rfl, rfl, rfl, rfl⟩
  by_cases hr : role = ""
  · simp [newUserRecord, hr, RolePatient]
  · simp [newUserRecord, hr]

/-- The common flow of `Register` and `CreateUser` on the table: when it
succeeds it stored one new row. -/
theorem creation_flow_ok (utils : Utils) (username email phone password role : String)
    (db db' : DB) (resp : UserResponse)
    (h : (if heldByLive db User.Username username then
          (Except.error "username already exists", db)
        else if heldByLive db User.Email email then
          (Except.error "email already exists", db)
        else if heldByLive db User.Phone phone then
          (Except.error "phone already exists", db)
        else
          match utils.HashPassword password with
          | Except.error err => (Except.error err, db)
          | Except.ok hashedPassword =>
            if ValidateRole (if role = "" then RolePatient else role) = false then
              (Except.error "invalid role", db)
            else
              orReturn (userRepository.Create
                (newUserRecord username email phone hashedPassword role) db)
                fun user st => (Except.ok (userService.toUserResponse user), st))
      = (Except.ok resp, db')) :
    ∃ row, db'.users = db.users ++ [row] ∧ row.IsActive = true
      ∧ row.Role = (if role = "" then RolePatient else role)
      ∧ row.Username = username ∧ row.Email = email ∧ row.Phone = phone
      ∧ row.DeletedAt = none ∧ resp = userService.toUserResponse row := by
  by_cases h1 : heldByLive db User.Username username
  · rw [if_pos h1] at h
    simp at h
  rw [if_neg h1] at h
  by_cases h2 : heldByLive db User.Email email
  · rw [if_pos h2] at h
    simp at h
  rw [if_neg h2] at h
  by_cases h3 : heldByLive db User.Phone phone
  · rw [if_pos h3] at h
    simp at h
  rw [if_neg h3] at h
  cases hh : utils.HashPassword password with
  | error err =>
    rw [hh] at h
    simp at h
  | ok hashed =>
    rw [hh] at h
    dsimp only at h
    by_cases h4 : ValidateRole (if role = "" then RolePatient else role) = false
    · rw [if_pos h4] at h
      simp at h
    · rw [if_neg h4] at h
      rcases hc : userRepository.Create (newUserRecord username email phone hashed role) db
        with ⟨r, db1⟩
      rw [hc] at h
      cases r with
      | error err => simp [orReturn] at h
      | ok row =>
        simp only [orReturn, Prod.mk.injEq, Except.ok.injEq] at h
        obtain ⟨hresp, hdb⟩ := h
        subst hdb
        obtain ⟨c1, c2, c3, c4, c5, c6, _, c8⟩ := Create_newUserRecord _ _ _ _ _ _ _ _ hc
        exact ⟨row, c1, c2, c3, c4, c5, c6, c8, hresp.symm⟩

/-- A successful `Register` on the table stored one new row. -/
theorem Register_db_ok (cfg : Config) (utils : Utils) (ceilDiv : Int → Int → Int)
    (list deleteList : PaginationQuery → DB → Result DB (List User × Int))
    (req : RegisterRequest) (db db' : DB) (resp : UserResponse)
    (h : (dbService cfg utils ceilDiv list deleteList).Register req db = (Except.ok resp, db')) :
    ∃ row, db'.users = db.users ++ [row] ∧ row.IsActive = true
      ∧ row.Role = (if req.Role = "" then RolePatient else req.Role)
      ∧ row.Username = req.Username ∧ row.Email = req.Email ∧ row.Phone = req.Phone
      ∧ row.DeletedAt = none ∧ resp = userService.toUserResponse row := by
  rw [Register_db] at h
  exact creation_flow_ok utils _ _ _ _ _ db db' resp h

/-- A successful `CreateUser` on the table stored one new row. -/
theorem CreateUser_db_ok (cfg : Config) (utils : Utils) (ceilDiv : Int → Int → Int)
    (list deleteList : PaginationQuery → DB → Result DB (List User × Int))
    (req : CreateUserRequest) (db db' : DB) (resp : UserResponse)
    (h : (dbService cfg utils ceilDiv list deleteList).CreateUser req db
      = (Except.ok resp, db')) :
    ∃ row, db'.users = db.users ++ [row] ∧ row.IsActive = true
      ∧ row.Role = (if req.Role = "" then RolePatient else req.Role)
      ∧ row.Username = req.Username ∧ row.Email = req.Email ∧ row.Phone = req.Phone
      ∧ row.DeletedAt = none ∧ resp = userService.toUserResponse row := by
  rw [CreateUser_db] at h
  exact creation_flow_ok utils _ _ _ _ _ db db' resp h

/-! ## Creation defaults and conflicts -/

/-- C17: for every `Register` and every `CreateUser` request that passes the
three uniqueness checks, the hashing and the role check, the service calls the
directory's `Create` on the record `newUserRecord`: username, email and phone
copied from the request, the hashed password, `IsActive = true` (for
`CreateUser` whatever `req.IsActive` holds) and the role `patient` when the
request's role is empty, the requested role otherwise.  On the table, a
successful call stores exactly one new row with these columns. -/
theorem creation_defaults {σ : Type} (s : userService σ) :
    (∀ (req : RegisterRequest) (st st1 st2 st3 : σ) (hashedPassword : String),
        s.repo.IsUsernameExists req.Username [] st = (Except.ok false, st1) →
        s.repo.IsEmailExists req.Email [] st1 = (Except.ok false, st2) →
        s.repo.IsPhoneExists req.Phone [] st2 = (Except.ok false, st3) →
        s.utils.HashPassword req.Password = Except.ok hashedPassword →
        ValidateRole (if req.Role = "" then RolePatient else req.Role) = true →
        s.Register req st
          = orReturn (s.repo.Create
              { ID := 0, Username := req.Username, Email := req.Email, Phone := req.Phone,
                Password := hashedPassword,
                Role := if req.Role = "" then RolePatient else req.Role,
                IsActive := true, CreatedAt := 0, UpdatedAt := 0, DeletedAt := none } st3)
              (fun user st => (Except.ok (userService.toUserResponse user), st)))
      ∧ (∀ (req : CreateUserRequest) (st st1 st2 st3 : σ) (hashedPassword : String),
        s.repo.IsUsernameExists req.Username [] st = (Except.ok false, st1) →
        s.repo.IsEmailExists req.Email [] st1 = (Except.ok false, st2) →
        s.repo.IsPhoneExists req.Phone [] st2 = (Except.ok false, st3) →
        s.utils.HashPassword req.Password = Except.ok hashedPassword →
        ValidateRole (if req.Role = "" then RolePatient else req.Role) = true →
        s.CreateUser req st
          = orReturn (s.repo.Create
              { ID := 0, Username := req.Username, Email := req.Email, Phone := req.Phone,
                Password := hashedPassword,
                Role := if req.Role = "" then RolePatient else req.Role,
                IsActive := true, CreatedAt := 0, UpdatedAt := 0, DeletedAt := none } st3)
              (fun user st => (Except.ok (userService.toUserResponse user), st)))
      ∧ (∀ cfg utils ceilDiv list deleteList (req : RegisterRequest) (db db' : DB) resp,
        (dbService cfg utils ceilDiv list deleteList).Register req db = (Except.ok resp, db') →
        ∃ row, db'.users = db.users ++ [row] ∧ row.IsActive = true
          ∧ row.Role = (if req.Role = "" then RolePatient else req.Role)
          ∧ row.Username = req.Username ∧ row.Email = req.Email ∧ row.Phone = req.Phone
          ∧ row.DeletedAt = none ∧ resp = userService.toUserResponse row)
      ∧ (∀ cfg utils ceilDiv list deleteList (req : CreateUserRequest) (db db' : DB) resp,
        (dbService cfg utils ceilDiv list deleteList).CreateUser req db = (Except.ok resp, db') →
        ∃ row, db'.users = db.users ++ [row] ∧ row.IsActive = true
          ∧ row.Role = (if req.Role = "" then RolePatient else req.Role)
          ∧ row.Username = req.Username ∧ row.Email = req.Email ∧ row.Phone = req.Phone
          ∧ row.DeletedAt = none ∧ resp = userService.toUserResponse row) := by
  refine ⟨?_, ?_, ?_, ?_⟩
  · intro req st st1 st2 st3 hashed hu he hp hh hr
    simp only [userService.Register, hu, he, hp, hh, hr, orReturn_ok]
    simp
  · intro req st st1 st2 st3 hashed hu he hp hh hr
    simp only [userService.CreateUser, hu, he, hp, hh, hr, orReturn_ok]
    simp
  · intro cfg utils ceilDiv list deleteList req db db' resp h
    exact Register_db_ok cfg utils ceilDiv list deleteList req db db' resp h
  · intro cfg utils ceilDiv list deleteList req db db' resp h
    exact CreateUser_db_ok cfg utils ceilDiv list deleteList req db db' resp h

theorem creation_defaults_witness :
    testService.CreateUser
        { Username := "dave", Email := "dave@x.com", Phone := "0844444444",
          Password := "davepass1", Role := "", IsActive := some false } testDB
      = orReturn (testService.repo.Create
          { ID := 0, Username := "dave", Email := "dave@x.com", Phone := "0844444444",
            Password := "hash:davepass1", Role := "patient",
            IsActive := true, CreatedAt := 0, UpdatedAt := 0, DeletedAt := none } testDB)
          (fun user st => (Except.ok (userService.toUserResponse user), st)) :=
  (creation_defaults testService).2.1
    { Username := "dave", Email := "dave@x.com", Phone := "0844444444",
      Password := "davepass1", Role := "", IsActive := some false }
    testDB testDB testDB testDB "hash:davepass1"
    (by decide) (by decide) (by decide) (by decide) (by decide)

/-- C18: on the table, a `Register` or `CreateUser` request whose username is
held by a live record fails with `username already exists`; otherwise one whose
email is held by a live record fails with `email already exists`; otherwise
one whose phone is held by a live record fails with `phone already exists`.
In each case the table is left as it was (`Create` is not reached).  In
particular, after a successful registration a second registration with the
same email fails, with the username or the email conflict. -/
theorem registration_conflict (cfg : Config) (utils : Utils) (ceilDiv : Int → Int → Int)
    (list deleteList : PaginationQuery → DB → Result DB (List User × Int)) (db : DB) :
    (∀ req : RegisterRequest,
        (heldByLive db User.Username req.Username →
          (dbService cfg utils ceilDiv list deleteList).Register req db
            = (Except.error "username already exists", db))
        ∧ (¬ heldByLive db User.Username req.Username → heldByLive db User.Email req.Email →
          (dbService cfg utils ceilDiv list deleteList).Register req db
            = (Except.error "email already exists", db))
        ∧ (¬ heldByLive db User.Username req.Username → ¬ heldByLive db User.Email req.Email →
          heldByLive db User.Phone req.Phone →
          (dbService cfg utils ceilDiv list deleteList).Register req db
            = (Except.error "phone already exists", db)))
      ∧ (∀ req : CreateUserRequest,
        (heldByLive db User.Username req.Username →
          (dbService cfg utils ceilDiv list deleteList).CreateUser req db
            = (Except.error "username already exists", db))
        ∧ (¬ heldByLive db User.Username req.Username → heldByLive db User.Email req.Email →
          (dbService cfg utils ceilDiv list deleteList).CreateUser req db
            = (Except.error "email already exists", db))
        ∧ (¬ heldByLive db User.Username req.Username → ¬ heldByLive db User.Email req.Email →
          heldByLive db User.Phone req.Phone →
          (dbService cfg utils ceilDiv list deleteList).CreateUser req db
            = (Except.error "phone already exists", db)))
      ∧ (∀ (first second : RegisterRequest) (resp : UserResponse) (db1 : DB),
        (dbService cfg utils ceilDiv list deleteList).Register first db = (Except.ok resp, db1) →
        second.Email = first.Email →
        (dbService cfg utils ceilDiv list deleteList).Register second db1
            = (Except.error "username already exists", db1)
          ∨ (dbService cfg utils ceilDiv list deleteList).Register second db1
            = (Except.error "email already exists", db1)) := by
  refine ⟨?_, ?_, ?_⟩
  · intro req
    refine ⟨fun h1 => ?_, fun h1 h2 => ?_, fun h1 h2 h3 => ?_⟩
    · rw [Register_db, if_pos h1]
    · rw [Register_db, if_neg h1, if_pos h2]
    · rw [Register_db, if_neg h1, if_neg h2, if_pos h3]
  · intro req
    refine ⟨fun h1 => ?_, fun h1 h2 => ?_, fun h1 h2 h3 => ?_⟩
    · rw [CreateUser_db, if_pos h1]
    · rw [CreateUser_db, if_neg h1, if_pos h2]
    · rw [CreateUser_db, if_neg h1, if_neg h2, if_pos h3]
  · intro first second resp db1 hfirst hemail
    obtain ⟨row, husers, _, _, _, hrowEmail, _, hlive, _⟩ :=
      Register_db_ok cfg utils ceilDiv list deleteList first db db1 resp hfirst
    have hheld : heldByLive db1 User.Email second.Email := by
      refine ⟨row, ?_, hlive, ?_⟩
      · rw [husers]
        simp
      · rw [hrowEmail, hemail]
    by_cases hu : heldByLive db1 User.Username second.Username
    · left
      rw [Register_db, if_pos hu]
    · right
      rw [Register_db, if_neg hu, if_pos hheld]

theorem registration_conflict_witness :
    (testService.Register
        { Username := "alice", Email := "alice@x.com", Phone := "0855555555",
          Password := "alicepass", Role := "" } testDB
      = (Except.error "username already exists", testDB))
    ∧ (testService.Register
        { Username := "alice2", Email := "alice@x.com", Phone := "0855555555",
          Password := "alicepass", Role := "" } testDB
      = (Except.error "email already exists", testDB)) :=
  ⟨((registration_conflict testConfig testUtils
      (fun total pageSize => (total + pageSize - 1) / pageSize) testList testList testDB).1
      { Username := "alice", Email := "alice@x.com", Phone := "0855555555",
        Password := "alicepass", Role := "" }).1 (by decide),
   ((registration_conflict testConfig testUtils
      (fun total pageSize => (total + pageSize - 1) / pageSize) testList testList testDB).1
      { Username := "alice2", Email := "alice@x.com", Phone := "0855555555",
        Password := "alicepass", Role := "" }).2.1 (by decide) (by decide)⟩

/-! ## `UpdateUser` on the table -/

theorem notExcluded_singleton (id : Nat) (u : User) :
    (userRepository.notExcluded [id] u = true) ↔ u.ID ≠ id := by
  simp [userRepository.notExcluded]

theorem not_conflicts_none (db : DB) (id : Nat) (field : User → String) (user : User) :
    ¬ conflicts db id field none user := by
  rintro ⟨v, hv, _⟩
  cases hv

theorem not_conflicts_same (db : DB) (id : Nat) (field : User → String) (user : User) :
    ¬ conflicts db id field (some (field user)) user := by
  rintro ⟨w, hw, hne, _⟩
  cases hw
  exact hne rfl

/-- The username block of `UpdateUser` on the table. -/
theorem setUsername_db (cfg : Config) (utils : Utils) (ceilDiv : Int → Int → Int)
    (list deleteList : PaginationQuery → DB → Result DB (List User × Int))
    (id : Nat) (username : Option String) (user : User) (db : DB) :
    (dbService cfg utils ceilDiv list deleteList).setUsername id username user db
      = if conflicts db id User.Username username user then
          (Except.error "username already exists", db)
        else (Except.ok { user with Username := username.getD user.Username }, db) := by
  cases username with
  | none =>
    rw [if_neg (not_conflicts_none db id User.Username user)]
    rfl
  | some v =>
    by_cases hsame : v = user.Username
    · subst hsame
      rw [if_neg (not_conflicts_same db id User.Username user)]
      simp [userService.setUsername]
    · simp only [userService.setUsername, dbService, NewUserRepository, IsUsernameExists_db,
        orReturn, notExcluded_singleton, decide_eq_true_eq, ne_eq, hsame, not_false_eq_true,
        if_true]
      have hiff : conflicts db id User.Username (some v) user
          ↔ ∃ u ∈ db.users, u.DeletedAt = none ∧ u.Username = v ∧ ¬ u.ID = id := by
        constructor
        · rintro ⟨w, hw, _, hheld⟩
          cases hw
          exact hheld
        · intro h
          exact ⟨v, rfl, hsame, h⟩
      by_cases hc : conflicts db id User.Username (some v) user
      · rw [if_pos hc, if_pos (hiff.1 hc)]
      · rw [if_neg hc, if_neg (fun h => hc (hiff.2 h))]
        rfl

/-- The email block of `UpdateUser` on the table. -/
theorem setEmail_db (cfg : Config) (utils : Utils) (ceilDiv : Int → Int → Int)
    (list deleteList : PaginationQuery → DB → Result DB (List User × Int))
    (id : Nat) (email : Option String) (user : User) (db : DB) :
    (dbService cfg utils ceilDiv list deleteList).setEmail id email user db
      = if conflicts db id User.Email email user then
          (Except.error "email already exists", db)
        else (Except.ok { user with Email := email.getD user.Email }, db) := by
  cases email with
  | none =>
    rw [if_neg (not_conflicts_none db id User.Email user)]
    rfl
  | some v =>
    by_cases hsame : v = user.Email
    · subst hsame
      rw [if_neg (not_conflicts_same db id User.Email user)]
      simp [userService.setEmail]
    · simp only [userService.setEmail, dbService, NewUserRepository, IsEmailExists_db,
        orReturn, notExcluded_singleton, decide_eq_true_eq, ne_eq, hsame, not_false_eq_true,
        if_true]
      have hiff : conflicts db id User.Email (some v) user
          ↔ ∃ u ∈ db.users, u.DeletedAt = none ∧ u.Email = v ∧ ¬ u.ID = id := by
        constructor
        · rintro ⟨w, hw, _, hheld⟩
          cases hw
          exact hheld
        · intro h
          exact ⟨v, rfl, hsame, h⟩
      by_cases hc : conflicts db id User.Email (some v) user
      · rw [if_pos hc, if_pos (hiff.1 hc)]
      · rw [if_neg hc, if_neg (fun h => hc (hiff.2 h))]
        rfl

/-- The phone block of `UpdateUser` on the table. -/
theorem setPhone_db (cfg : Config) (utils : Utils) (ceilDiv : Int → Int → Int)
    (list deleteList : PaginationQuery → DB → Result DB (List User × Int))
    (id : Nat) (phone : Option String) (user : User) (db : DB) :
    (dbService cfg utils ceilDiv list deleteList).setPhone id phone user db
      = if conflicts db id User.Phone phone user then
          (Except.error "phone already exists", db)
        else (Except.ok { user with Phone := phone.getD user.Phone }, db) := by
  cases phone with
  | none =>
    rw [if_neg (not_conflicts_none db id User.Phone user)]
    rfl
  | some v =>
    by_cases hsame : v = user.Phone
    · subst hsame
      rw [if_neg (not_conflicts_same db id User.Phone user)]
      simp [userService.setPhone]
    · simp only [userService.setPhone, dbService, NewUserRepository, IsPhoneExists_db,
        orReturn, notExcluded_singleton, decide_eq_true_eq, ne_eq, hsame, not_false_eq_true,
        if_true]
      have hiff : conflicts db id User.Phone (some v) user
          ↔ ∃ u ∈ db.users, u.DeletedAt = none ∧ u.Phone = v ∧ ¬ u.ID = id := by
        constructor
        · rintro ⟨w, hw, _, hheld⟩
          cases hw
          exact hheld
        · intro h
          exact ⟨v, rfl, hsame, h⟩
      by_cases hc : conflicts db id User.Phone (some v) user
      · rw [if_pos hc, if_pos (hiff.1 hc)]
      · rw [if_neg hc, if_neg (fun h => hc (hiff.2 h))]
        rfl

/-- `UpdateUser` on the table for an id that `FindByID` finds: the three
uniqueness blocks in order, then the rest of the function on the record with
the requested username, email and phone. -/
theorem UpdateUser_db (cfg : Config) (utils : Utils) (ceilDiv : Int → Int → Int)
    (list deleteList : PaginationQuery → DB → Result DB (List User × Int))
    (id : Nat) (req : UpdateUserRequest) (db : DB) (user : User)
    (hfind : userRepository.First db (fun u => u.ID == id) = Except.ok user) :
    (dbService cfg utils ceilDiv list deleteList).UpdateUser id req db
      = if conflicts db id User.Username req.Username user then
          (Except.error "username already exists", db)
        else if conflicts db id User.Email req.Email user then
          (Except.error "email already exists", db)
        else if conflicts db id User.Phone req.Phone user then
          (Except.error "phone already exists", db)
        else
          (dbService cfg utils ceilDiv list deleteList).finishUpdate req
            { user with Username := req.Username.getD user.Username,
                        Email := req.Email.getD user.Email,
                        Phone := req.Phone.getD user.Phone } db := by
  have hf : (dbService cfg utils ceilDiv list deleteList).repo.FindByID id db
      = (Except.ok user, db) := by
    simp only [dbService, NewUserRepository, userRepository.FindByID, hfind]
  simp only [userService.UpdateUser, hf, orReturn_ok, setUsername_db]
  by_cases h1 : conflicts db id User.Username req.Username user
  · rw [if_pos h1, if_pos h1]
    rfl
  · rw [if_neg h1, if_neg h1, orReturn_ok, setEmail_db]
    have e2 : conflicts db id User.Email req.Email
        { user with Username := req.Username.getD user.Username }
        ↔ conflicts db id User.Email req.Email user := Iff.rfl
    by_cases h2 : conflicts db id User.Email req.Email user
    · rw [if_pos (e2.2 h2), if_pos h2]
      rfl
    · rw [if_neg (fun h => h2 (e2.1 h)), if_neg h2, orReturn_ok, setPhone_db]
      have e3 : conflicts db id User.Phone req.Phone
          { user with Username := req.Username.getD user.Username,
                      Email := req.Email.getD user.Email }
          ↔ conflicts db id User.Phone req.Phone user := Iff.rfl
      by_cases h3 : conflicts db id User.Phone req.Phone user
      · rw [if_pos (e3.2 h3), if_pos h3]
        rfl
      · rw [if_neg (fun h => h3 (e3.1 h)), if_neg h3, orReturn_ok]

/-- `UpdateUser` on the table for an id that `FindByID` does not find. -/
theorem UpdateUser_db_not_found (cfg : Config) (utils : Utils) (ceilDiv : Int → Int → Int)
    (list deleteList : PaginationQuery → DB → Result DB (List User × Int))
    (id : Nat) (req : UpdateUserRequest) (db : DB) (err : String)
    (hfind : userRepository.First db (fun u => u.ID == id) = Except.error err) :
    (dbService cfg utils ceilDiv list deleteList).UpdateUser id req db
      = (Except.error err, db) := by
  have hf : (dbService cfg utils ceilDiv list deleteList).repo.FindByID id db
      = (Except.error err, db) := by
    simp only [dbService, NewUserRepository, userRepository.FindByID, hfind]
  simp only [userService.UpdateUser, hf, orReturn_error]

/-- The errors of the table (a duplicate key, a value longer than its column)
are none of the messages of the service. -/
theorem storeError_ne (err : String)
    (h : err = userRepository.duplicateKey ∨ ∃ u, userRepository.columnSizeError u = some err) :
    err ≠ "user not found" ∧ err ≠ "username already exists" ∧ err ≠ "email already exists"
      ∧ err ≠ "phone already exists" ∧ err ≠ "invalid role" := by
  rcases h with h | ⟨u, hu⟩
  · subst h
    decide
  · rcases columnSizeError_cases u err hu with h | h | h | h | h <;> (subst h; decide)

/-- A failed `Update` on the table reports a duplicate key or a value longer
than its column, and leaves the table as it was. -/
theorem Update_error (user : User) (db db' : DB) (err : String)
    (h : userRepository.Update user db = (Except.error err, db')) :
    (err = userRepository.duplicateKey ∨ ∃ u, userRepository.columnSizeError u = some err)
      ∧ db' = db := by
  unfold userRepository.Update at h
  by_cases h0 : user.ID = 0
  · rw [if_pos h0] at h
    exact ⟨Create_error_text user db db' err h, Create_error user db db' err h⟩
  · rw [if_neg h0] at h
    dsimp only at h
    split_ifs at h <;> split at h <;> first
      | (simp at h; done)
      | (simp only [Prod.mk.injEq, Except.error.injEq] at h
         exact ⟨Or.inl h.1.symm, h.2.symm⟩)
      | (rename_i e he
         simp only [Prod.mk.injEq, Except.error.injEq] at h
         exact ⟨Or.inr ⟨_, he.trans (by rw [h.1])⟩, h.2.symm⟩)

/-- The password block of `UpdateUser` keeps the state; its only error is
the error of `HashPassword`. -/
theorem setPassword_cases {σ : Type} (s : userService σ) (password : Option String)
    (user : User) (st : σ) :
    (∃ user', s.setPassword password user st = (Except.ok user', st))
      ∨ (∃ p err, password = some p ∧ s.utils.HashPassword p = Except.error err
          ∧ s.setPassword password user st = (Except.error err, st)) := by
  cases password with
  | none => exact Or.inl ⟨user, rfl⟩
  | some p =>
    cases hh : s.utils.HashPassword p with
    | error err =>
      right
      refine ⟨p, err, rfl, hh, ?_⟩
      simp only [userService.setPassword, hh]
    | ok hashed =>
      left
      refine ⟨{ user with Password := hashed }, ?_⟩
      simp only [userService.setPassword, hh]

/-- The role block of `UpdateUser` keeps the state; its only error is
`invalid role`, for a role that `ValidateRole` rejects. -/
theorem setRole_cases {σ : Type} (role : Option String) (user : User) (st : σ) :
    (∃ user', userService.setRole role user st = (Except.ok user', st)
        ∧ ∀ r, role = some r → ValidateRole r = true)
      ∨ (∃ r, role = some r ∧ ValidateRole r = false
          ∧ userService.setRole role user st = (Except.error "invalid role", st)) := by
  cases role with
  | none => exact Or.inl ⟨user, rfl, fun r hr => by cases hr⟩
  | some r =>
    cases hv : ValidateRole r with
    | false =>
      right
      refine ⟨r, rfl, hv, ?_⟩
      simp [userService.setRole, hv]
    | true =>
      left
      refine ⟨{ user with Role := r }, ?_, ?_⟩
      · simp [userService.setRole, hv]
      · intro r' hr'
        cases hr'
        exact hv

/-- The errors of the rest of `UpdateUser` on the table: a hashing error, an
invalid role, or an error of `Update` (a duplicate key, a value longer than
its column); the table is left as it was. -/
theorem finishUpdate_db_error (cfg : Config) (utils : Utils) (ceilDiv : Int → Int → Int)
    (list deleteList : PaginationQuery → DB → Result DB (List User × Int))
    (req : UpdateUserRequest) (user : User) (db db' : DB) (err : String)
    (h : (dbService cfg utils ceilDiv list deleteList).finishUpdate req user db
      = (Except.error err, db')) :
    ((∃ password, req.Password = some password ∧ utils.HashPassword password = Except.error err)
        ∨ (∃ role, req.Role = some role ∧ ValidateRole role = false ∧ err = "invalid role")
        ∨ (err = userRepository.duplicateKey
            ∨ ∃ u, userRepository.columnSizeError u = some err))
      ∧ db' = db := by
  unfold userService.finishUpdate at h
  rcases setPassword_cases (dbService cfg utils ceilDiv list deleteList) req.Password user db
    with ⟨u1, h1⟩ | ⟨p, e, hp, hh, h1⟩
  · rw [h1, orReturn_ok] at h
    rcases setRole_cases req.Role u1 db with ⟨u2, h2, _⟩ | ⟨r, hr, hv, h2⟩
    · rw [h2, orReturn_ok] at h
      have hrepo : (dbService cfg utils ceilDiv list deleteList).repo.Update
          = userRepository.Update := rfl
      rw [hrepo] at h
      dsimp only at h
      rcases hu : userRepository.Update (userService.setIsActive req.IsActive u2) db
        with ⟨res, db1⟩
      rw [hu] at h
      cases res with
      | ok row => simp [orReturn] at h
      | error e =>
        simp only [orReturn_error, Prod.mk.injEq, Except.error.injEq] at h
        obtain ⟨he, hd⟩ := Update_error _ _ _ _ hu
        exact ⟨Or.inr (Or.inr (by rw [← h.1]; exact he)), by rw [← h.2, hd]⟩
    · rw [h2, orReturn_error] at h
      simp only [Prod.mk.injEq, Except.error.injEq] at h
      exact ⟨Or.inr (Or.inl ⟨r, hr, hv, h.1.symm⟩), h.2.symm⟩
  · rw [h1, orReturn_error] at h
    simp only [Prod.mk.injEq, Except.error.injEq] at h
    refine ⟨Or.inl ⟨p, hp, ?_⟩, h.2.symm⟩
    rw [← h.1]
    exact hh

/-- The rest of `UpdateUser` on the table with a role that `ValidateRole`
rejects: it fails, with `invalid role` unless the hashing failed first, and
the table is left as it was. -/
theorem finishUpdate_db_invalid_role (cfg : Config) (utils : Utils)
    (ceilDiv : Int → Int → Int)
    (list deleteList : PaginationQuery → DB → Result DB (List User × Int))
    (req : UpdateUserRequest) (user : User) (db : DB) (role : String)
    (hrole : req.Role = some role) (hinvalid : ValidateRole role = false) :
    ∃ err, (dbService cfg utils ceilDiv list deleteList).finishUpdate req user db
        = (Except.error err, db)
      ∧ ((∀ password, req.Password = some password →
            ∃ hashed, utils.HashPassword password = Except.ok hashed) →
          err = "invalid role") := by
  unfold userService.finishUpdate
  rcases setPassword_cases (dbService cfg utils ceilDiv list deleteList) req.Password user db
    with ⟨u1, h1⟩ | ⟨p, e, hp, hh, h1⟩
  · rw [h1, orReturn_ok]
    rcases setRole_cases req.Role u1 db with ⟨u2, _, hvalid⟩ | ⟨r, _, _, h2⟩
    · have := hvalid role hrole
      rw [hinvalid] at this
      exact absurd this (by decide)
    · rw [h2, orReturn_error]
      exact ⟨"invalid role", rfl, fun _ => rfl⟩
  · rw [h1, orReturn_error]
    refine ⟨e, rfl, fun hok => ?_⟩
    obtain ⟨hashed, hhashed⟩ := hok p hp
    have hh' : utils.HashPassword p = Except.error e := hh
    rw [hhashed] at hh'
    exact absurd hh' (by simp)

/-! ## The closed set of roles -/

theorem ValidateRole_iff (r : String) :
    ValidateRole r = true
      ↔ (r = "patient" ∨ r = "doctor" ∨ r = "receptionist" ∨ r = "admin" ∨ r = "super_admin") := by
  simp only [ValidateRole, GetAvailableRoles, RolePatient, RoleDoctor, RoleReceptionist,
    RoleAdmin, RoleSuperAdmin, List.any_cons, List.any_nil, Bool.or_false, Bool.or_eq_true,
    decide_eq_true_eq]
  constructor
  · rintro (h | h | h | h | h) <;> simp [← h]
  · rintro (h | h | h | h | h) <;> simp [h]

/-- The common flow of `Register` and `CreateUser` on the table with a
non-empty role that `ValidateRole` rejects: it fails and leaves the table as
it was; the error is `invalid role` when the three uniqueness checks and the
hashing pass. -/
theorem creation_flow_invalid_role (utils : Utils) (username email phone password role : String)
    (db : DB) (hne : role ≠ "") (hinvalid : ValidateRole role = false) :
    ∃ err,
      (if heldByLive db User.Username username then
          (Except.error "username already exists", db)
        else if heldByLive db User.Email email then
          (Except.error "email already exists", db)
        else if heldByLive db User.Phone phone then
          (Except.error "phone already exists", db)
        else
          match utils.HashPassword password with
          | Except.error err => (Except.error err, db)
          | Except.ok hashedPassword =>
            if ValidateRole (if role = "" then RolePatient else role) = false then
              (Except.error "invalid role", db)
            else
              orReturn (userRepository.Create
                (newUserRecord username email phone hashedPassword role) db)
                fun user st => (Except.ok (userService.toUserResponse user), st))
        = ((Except.error err : Except String UserResponse), db)
      ∧ (¬ heldByLive db User.Username username → ¬ heldByLive db User.Email email →
          ¬ heldByLive db User.Phone phone →
          (∃ hashed, utils.HashPassword password = Except.ok hashed) → err = "invalid role") := by
  by_cases h1 : heldByLive db User.Username username
  · exact ⟨_, by rw [if_pos h1], fun h => absurd h1 h⟩
  by_cases h2 : heldByLive db User.Email email
  · exact ⟨_, by rw [if_neg h1, if_pos h2], fun _ h => absurd h2 h⟩
  by_cases h3 : heldByLive db User.Phone phone
  · exact ⟨_, by rw [if_neg h1, if_neg h2, if_pos h3], fun _ _ h => absurd h3 h⟩
  rw [if_neg h1, if_neg h2, if_neg h3]
  cases hh : utils.HashPassword password with
  | error e =>
    refine ⟨e, rfl, fun _ _ _ hok => ?_⟩
    obtain ⟨hashed, hhashed⟩ := hok
    simp at hhashed
  | ok hashed =>
    refine ⟨"invalid role", ?_, fun _ _ _ _ => rfl⟩
    dsimp only
    rw [if_neg hne, if_pos hinvalid]

/-- `ListUsers` and `DeleteListUsers` leave the role filter of the query as it is. -/
theorem normalizeQuery_Role {σ : Type} (s : userService σ) (sortBy : String)
    (query : PaginationQuery) : (s.normalizeQuery sortBy query).Role = query.Role := by
  unfold userService.normalizeQuery
  dsimp only
  split_ifs <;> rfl

/-- C19, refuted as stated: on the table `testDB`, `Register` with the
non-empty role `hacker`, which `ValidateRole` rejects, and the username of the
live record `alice` fails with `username already exists`, not with
`invalid role`. -/
theorem invalid_role_counterexample :
    ValidateRole "hacker" = false
      ∧ testService.Register
          { Username := "alice", Email := "mallory@x.com", Phone := "0866666666",
            Password := "mallorypw", Role := "hacker" } testDB
        = (Except.error "username already exists", testDB)
      ∧ (testService.Register
          { Username := "alice", Email := "mallory@x.com", Phone := "0866666666",
            Password := "mallorypw", Role := "hacker" } testDB).1
        ≠ Except.error "invalid role" := by
  decide

/-- C19, amended: `ValidateRole(r)` is true exactly when `r` is one of
`patient`, `doctor`, `receptionist`, `admin`, `super_admin`.  On the table,
`Register`, `CreateUser` and `UpdateUser` given any other role (non-empty for
`Register` and `CreateUser`) always fail and leave the table as it was; the
error is `invalid role` when the checks that precede the role check pass (the
record is found, no uniqueness conflict, the hashing succeeds) and the error
of the first failing check otherwise.  `ListUsers` and `DeleteListUsers` reject
any other non-empty role filter with `invalid role filter`, without calling
the directory. -/
theorem role_closed_set (cfg : Config) (utils : Utils) (ceilDiv : Int → Int → Int)
    (list deleteList : PaginationQuery → DB → Result DB (List User × Int)) (db : DB) :
    (∀ r, ValidateRole r = true
        ↔ (r = "patient" ∨ r = "doctor" ∨ r = "receptionist" ∨ r = "admin"
            ∨ r = "super_admin"))
      ∧ (∀ req : RegisterRequest, req.Role ≠ "" → ValidateRole req.Role = false →
        ∃ err, (dbService cfg utils ceilDiv list deleteList).Register req db
            = (Except.error err, db)
          ∧ (¬ heldByLive db User.Username req.Username →
              ¬ heldByLive db User.Email req.Email → ¬ heldByLive db User.Phone req.Phone →
              (∃ hashed, utils.HashPassword req.Password = Except.ok hashed) →
              err = "invalid role"))
      ∧ (∀ req : CreateUserRequest, req.Role ≠ "" → ValidateRole req.Role = false →
        ∃ err, (dbService cfg utils ceilDiv list deleteList).CreateUser req db
            = (Except.error err, db)
          ∧ (¬ heldByLive db User.Username req.Username →
              ¬ heldByLive db User.Email req.Email → ¬ heldByLive db User.Phone req.Phone →
              (∃ hashed, utils.HashPassword req.Password = Except.ok hashed) →
              err = "invalid role"))
      ∧ (∀ (id : Nat) (req : UpdateUserRequest) (role : String),
        req.Role = some role → ValidateRole role = false →
        ∃ err, (dbService cfg utils ceilDiv list deleteList).UpdateUser id req db
            = (Except.error err, db)
          ∧ (∀ user, userRepository.First db (fun u => u.ID == id) = Except.ok user →
              ¬ conflicts db id User.Username req.Username user →
              ¬ conflicts db id User.Email req.Email user →
              ¬ conflicts db id User.Phone req.Phone user →
              (∀ password, req.Password = some password →
                ∃ hashed, utils.HashPassword password = Except.ok hashed) →
              err = "invalid role"))
      ∧ (∀ (σ : Type) (s : userService σ) (query : PaginationQuery) (st : σ),
        query.Role ≠ "" → ValidateRole query.Role = false →
        s.ListUsers query st = (Except.error "invalid role filter", st)
          ∧ s.DeleteListUsers query st = (Except.error "invalid role filter", st)) := by
  refine ⟨ValidateRole_iff, ?_, ?_, ?_, ?_⟩
  · intro req hne hinvalid
    rw [Register_db]
    exact creation_flow_invalid_role utils _ _ _ _ _ db hne hinvalid
  · intro req hne hinvalid
    rw [CreateUser_db]
    exact creation_flow_invalid_role utils _ _ _ _ _ db hne hinvalid
  · intro id req role hrole hinvalid
    cases hfind : userRepository.First db (fun u => u.ID == id) with
    | error e =>
      refine ⟨e, UpdateUser_db_not_found cfg utils ceilDiv list deleteList id req db e hfind,
        fun user hu => ?_⟩
      simp at hu
    | ok user =>
      rw [UpdateUser_db cfg utils ceilDiv list deleteList id req db user hfind]
      by_cases h1 : conflicts db id User.Username req.Username user
      · refine ⟨_, by rw [if_pos h1], fun u hu hn => ?_⟩
        simp only [Except.ok.injEq] at hu
        subst hu
        exact absurd h1 hn
      by_cases h2 : conflicts db id User.Email req.Email user
      · refine ⟨_, by rw [if_neg h1, if_pos h2], fun u hu _ hn => ?_⟩
        simp only [Except.ok.injEq] at hu
        subst hu
        exact absurd h2 hn
      by_cases h3 : conflicts db id User.Phone req.Phone user
      · refine ⟨_, by rw [if_neg h1, if_neg h2, if_pos h3], fun u hu _ _ hn => ?_⟩
        simp only [Except.ok.injEq] at hu
        subst hu
        exact absurd h3 hn
      rw [if_neg h1, if_neg h2, if_neg h3]
      obtain ⟨err, herr, hmsg⟩ := finishUpdate_db_invalid_role cfg utils ceilDiv list deleteList
        req { user with Username := req.Username.getD user.Username,
                        Email := req.Email.getD user.Email,
                        Phone := req.Phone.getD user.Phone } db role hrole hinvalid
      exact ⟨err, herr, fun _ _ _ _ _ hok => hmsg hok⟩
  · intro σ s query st hne hinvalid
    have hcond : ∀ sortBy, ((s.normalizeQuery sortBy query).Role ≠ ""
        ∧ (!ValidateRole (s.normalizeQuery sortBy query).Role) = true) := by
      intro sortBy
      rw [normalizeQuery_Role]
      exact ⟨hne, by simp [hinvalid]⟩
    constructor
    · simp only [userService.ListUsers]
      rw [if_pos (hcond _)]
    · simp only [userService.DeleteListUsers]
      rw [if_pos (hcond _)]

theorem role_closed_set_witness :
    ∃ err, testService.Register
        { Username := "mallory", Email := "mallory@x.com", Phone := "0866666666",
          Password := "mallorypw", Role := "hacker" } testDB = (Except.error err, testDB)
      ∧ (¬ heldByLive testDB User.Username "mallory" →
          ¬ heldByLive testDB User.Email "mallory@x.com" →
          ¬ heldByLive testDB User.Phone "0866666666" →
          (∃ hashed, testUtils.HashPassword "mallorypw" = Except.ok hashed) →
          err = "invalid role") :=
  (role_closed_set testConfig testUtils (fun total pageSize => (total + pageSize - 1) / pageSize)
    testList testList testDB).2.1
    { Username := "mallory", Email := "mallory@x.com", Phone := "0866666666",
      Password := "mallorypw", Role := "hacker" } (by decide) (by decide)

/-! ## Uniqueness on update -/

/-- The rest of `UpdateUser` on the table never reports a uniqueness conflict,
provided `HashPassword` does not use those messages for its own errors. -/
theorem finishUpdate_db_not_conflict (cfg : Config) (utils : Utils)
    (ceilDiv : Int → Int → Int)
    (list deleteList : PaginationQuery → DB → Result DB (List User × Int))
    (req : UpdateUserRequest) (user : User) (db : DB)
    (hhash : ∀ password err, utils.HashPassword password = Except.error err →
      err ≠ "username already exists" ∧ err ≠ "email already exists"
        ∧ err ≠ "phone already exists") :
    ((dbService cfg utils ceilDiv list deleteList).finishUpdate req user db).1
        ≠ Except.error "username already exists"
      ∧ ((dbService cfg utils ceilDiv list deleteList).finishUpdate req user db).1
        ≠ Except.error "email already exists"
      ∧ ((dbService cfg utils ceilDiv list deleteList).finishUpdate req user db).1
        ≠ Except.error "phone already exists" := by
  have key : ∀ msg, (msg = "username already exists" ∨ msg = "email already exists"
      ∨ msg = "phone already exists") →
      ((dbService cfg utils ceilDiv list deleteList).finishUpdate req user db).1
        ≠ Except.error msg := by
    intro msg hmsg hres
    rcases hfin : (dbService cfg utils ceilDiv list deleteList).finishUpdate req user db
      with ⟨r, db'⟩
    rw [hfin] at hres
    simp only at hres
    subst hres
    obtain ⟨hkind, _⟩ := finishUpdate_db_error cfg utils ceilDiv list deleteList req user db
      db' msg hfin
    rcases hkind with ⟨p, _, hp⟩ | ⟨r, _, _, hr⟩ | hd
    · obtain ⟨n1, n2, n3⟩ := hhash p msg hp
      rcases hmsg with h | h | h
      · exact n1 h
      · exact n2 h
      · exact n3 h
    · subst hr
      rcases hmsg with h | h | h <;> exact absurd h (by decide)
    · obtain ⟨_, n1, n2, n3, _⟩ := storeError_ne msg hd
      rcases hmsg with h | h | h
      · exact n1 h
      · exact n2 h
      · exact n3 h
  exact ⟨key _ (Or.inl rfl), key _ (Or.inr (Or.inl rfl)), key _ (Or.inr (Or.inr rfl))⟩

/-- C20, refuted as stated: on the table `testDB`, the request that sets the
username and the email of `alice` (id 1) to those of the live record `bob`
(id 2) satisfies the condition given for the email, yet `UpdateUser` fails
with `username already exists`, not with `email already exists`. -/
theorem UpdateUser_email_conflict_counterexample :
    conflicts testDB 1 User.Email (some "bob@x.com")
        { ID := 1, Username := "alice", Email := "alice@x.com", Phone := "0811111111",
          Password := "hash:alicepass", Role := "patient", IsActive := true,
          CreatedAt := 10, UpdatedAt := 10, DeletedAt := none }
      ∧ (userRepository.FindByID 1 testDB).1
        = Except.ok
            { ID := 1, Username := "alice", Email := "alice@x.com", Phone := "0811111111",
              Password := "hash:alicepass", Role := "patient", IsActive := true,
              CreatedAt := 10, UpdatedAt := 10, DeletedAt := none }
      ∧ (testService.UpdateUser 1
          { Username := some "bob", Email := some "bob@x.com", Phone := none,
            Password := none, Role := none, IsActive := none } testDB).1
        = Except.error "username already exists"
      ∧ (testService.UpdateUser 1
          { Username := some "bob", Email := some "bob@x.com", Phone := none,
            Password := none, Role := none, IsActive := none } testDB).1
        ≠ Except.error "email already exists" := by
  decide

/-- C20, amended: on the table, for an id that `FindByID` finds with record
`user`, and a `HashPassword` whose errors are not the conflict messages:
`UpdateUser` fails with `username already exists` if and only if the request
sets the username to a value different from the record's current one and
another live record (`id' ≠ id`) holds that value; it fails with
`email already exists` if and only if the username check does not fail and the
same condition holds for the email; it fails with `phone already exists` if and
only if neither the username nor the email check fails and the condition holds
for the phone.  A request that leaves each of the three fields unset or
repeats the record's own current value is never rejected as a conflict. -/
theorem UpdateUser_uniqueness (cfg : Config) (utils : Utils) (ceilDiv : Int → Int → Int)
    (list deleteList : PaginationQuery → DB → Result DB (List User × Int))
    (id : Nat) (req : UpdateUserRequest) (db : DB) (user : User)
    (hfind : (userRepository.FindByID id db).1 = Except.ok user)
    (hhash : ∀ password err, utils.HashPassword password = Except.error err →
      err ≠ "username already exists" ∧ err ≠ "email already exists"
        ∧ err ≠ "phone already exists") :
    (((dbService cfg utils ceilDiv list deleteList).UpdateUser id req db).1
          = Except.error "username already exists"
        ↔ conflicts db id User.Username req.Username user)
      ∧ (((dbService cfg utils ceilDiv list deleteList).UpdateUser id req db).1
          = Except.error "email already exists"
        ↔ ¬ conflicts db id User.Username req.Username user
          ∧ conflicts db id User.Email req.Email user)
      ∧ (((dbService cfg utils ceilDiv list deleteList).UpdateUser id req db).1
          = Except.error "phone already exists"
        ↔ ¬ conflicts db id User.Username req.Username user
          ∧ ¬ conflicts db id User.Email req.Email user
          ∧ conflicts db id User.Phone req.Phone user)
      ∧ ((req.Username = none ∨ req.Username = some user.Username) →
          (req.Email = none ∨ req.Email = some user.Email) →
          (req.Phone = none ∨ req.Phone = some user.Phone) →
          ((dbService cfg utils ceilDiv list deleteList).UpdateUser id req db).1
              ≠ Except.error "username already exists"
            ∧ ((dbService cfg utils ceilDiv list deleteList).UpdateUser id req db).1
              ≠ Except.error "email already exists"
            ∧ ((dbService cfg utils ceilDiv list deleteList).UpdateUser id req db).1
              ≠ Except.error "phone already exists") := by
  have hfirst : userRepository.First db (fun u => u.ID == id) = Except.ok user := hfind
  have hfin := finishUpdate_db_not_conflict cfg utils ceilDiv list deleteList req
    { user with Username := req.Username.getD user.Username,
                Email := req.Email.getD user.Email,
                Phone := req.Phone.getD user.Phone } db hhash
  have hown : ∀ (field : User → String) (requested : Option String),
      (requested = none ∨ requested = some (field user)) →
      ¬ conflicts db id field requested user := by
    intro field requested h
    rcases h with h | h
    · rw [h]
      exact not_conflicts_none db id field user
    · rw [h]
      exact not_conflicts_same db id field user
  rw [UpdateUser_db cfg utils ceilDiv list deleteList id req db user hfirst]
  by_cases h1 : conflicts db id User.Username req.Username user
  · rw [if_pos h1]
    refine ⟨⟨fun _ => h1, fun _ => rfl⟩, ⟨fun h => ?_, fun h => absurd h1 h.1⟩,
      ⟨fun h => ?_, fun h => absurd h1 h.1⟩, fun hu _ _ => absurd h1 (hown _ _ hu)⟩
    · simp at h
    · simp at h
  rw [if_neg h1]
  by_cases h2 : conflicts db id User.Email req.Email user
  · rw [if_pos h2]
    refine ⟨⟨fun h => ?_, fun h => absurd h h1⟩, ⟨fun _ => ⟨h1, h2⟩, fun _ => rfl⟩,
      ⟨fun h => ?_, fun h => absurd h2 h.2.1⟩, fun _ he _ => absurd h2 (hown _ _ he)⟩
    · simp at h
    · simp at h
  rw [if_neg h2]
  by_cases h3 : conflicts db id User.Phone req.Phone user
  · rw [if_pos h3]
    refine ⟨⟨fun h => ?_, fun h => absurd h h1⟩, ⟨fun h => ?_, fun h => absurd h.2 h2⟩,
      ⟨fun _ => ⟨h1, h2, h3⟩, fun _ => rfl⟩, fun _ _ hp => absurd h3 (hown _ _ hp)⟩
    · simp at h
    · simp at h
  rw [if_neg h3]
  exact ⟨⟨fun h => absurd h hfin.1, fun h => absurd h h1⟩,
    ⟨fun h => absurd h hfin.2.1, fun h => absurd h.2 h2⟩,
    ⟨fun h => absurd h hfin.2.2, fun h => absurd h.2.2 h3⟩, fun _ _ _ => hfin⟩

theorem UpdateUser_uniqueness_witness :
    ((testService.UpdateUser 1
          { Username := some "alice", Email := some "bob@x.com", Phone := none,
            Password := none, Role := none, IsActive := none } testDB).1
        = Except.error "email already exists"
      ↔ ¬ conflicts testDB 1 User.Username (some "alice")
            { ID := 1, Username := "alice", Email := "alice@x.com", Phone := "0811111111",
              Password := "hash:alicepass", Role := "patient", IsActive := true,
              CreatedAt := 10, UpdatedAt := 10, DeletedAt := none }
        ∧ conflicts testDB 1 User.Email (some "bob@x.com")
            { ID := 1, Username := "alice", Email := "alice@x.com", Phone := "0811111111",
              Password := "hash:alicepass", Role := "patient", IsActive := true,
              CreatedAt := 10, UpdatedAt := 10, DeletedAt := none })
      ∧ (testService.UpdateUser 1
          { Username := some "alice", Email := some "bob@x.com", Phone := none,
            Password := none, Role := none, IsActive := none } testDB).1
        = Except.error "email already exists" :=
  ⟨(UpdateUser_uniqueness testConfig testUtils
      (fun total pageSize => (total + pageSize - 1) / pageSize) testList testList 1
      { Username := some "alice", Email := some "bob@x.com", Phone := none,
        Password := none, Role := none, IsActive := none } testDB
      { ID := 1, Username := "alice", Email := "alice@x.com", Phone := "0811111111",
        Password := "hash:alicepass", Role := "patient", IsActive := true,
        CreatedAt := 10, UpdatedAt := 10, DeletedAt := none }
      (by decide) (fun _ _ h => by simp [testUtils] at h)).2.1, by decide⟩

/-! ## Profile update -/

/-- C21, refuted as stated: the authenticated caller `1` whose profile-update
request is `{"role":"hacker"}`: the role is present, yet the binding of the
request fails on the tag `oneof`, and `UpdateMyProfile` answers
`400 Bad Request` (`Validation error`), not `403`, without a call into the
service. -/
theorem UpdateMyProfile_invalid_role_counterexample :
    testDecodeUpdate "\x7b\"role\":\"hacker\"\x7d"
        = Except.ok { Username := none, Email := none, Phone := none, Password := none,
                      Role := some "hacker", IsActive := none }
      ∧ handler.UpdateMyProfile (traced (NewUserService testService)) validatingBinding
          (authenticatedRequest 1 "patient" "\x7b\"role\":\"hacker\"\x7d") (testDB, [])
        = (ValidationErrorResponse
              (authenticatedRequest 1 "patient" "\x7b\"role\":\"hacker\"\x7d")
              (FieldError.Error "UpdateUserRequest" { Field := "Role", Tag := "oneof" }),
            (testDB, []))
      ∧ (handler.UpdateMyProfile (traced (NewUserService testService)) validatingBinding
          (authenticatedRequest 1 "patient" "\x7b\"role\":\"hacker\"\x7d")
          (testDB, [])).1.Writer.map Prod.fst = [400] := by
  decide

/-- C21, amended: for an authenticated caller `userID`: a profile-update
request that binds to `req` (it decodes and passes the validation of its tags)
in which `role` or `is_active` is present is answered by `UpdateMyProfile` with
`403 Forbidden`, without a call into the service (the state and the call log
are as before, so `UpdateUser` is not called); when both are absent, the one
call it makes is `UpdateUser(userID, req)`, on the caller's own id, and the
response is built from its result; and a request that does not bind is
answered with `400 Bad Request` (`Validation error`), without a call into the
service, whatever fields it carries. -/
theorem UpdateMyProfile_privileged_fields {σ : Type} (service : UserService σ) (bind : Binding)
    (ctx : Context) (st : σ) (log : List ServiceCall) (userID : Nat)
    (hid : ctx.Get "user_id" = some (Value.uint userID)) :
    (∀ req, bind.bindUpdateUserRequest ctx.Body = Except.ok req →
        (req.Role ≠ none ∨ req.IsActive ≠ none) →
        ∃ message, handler.UpdateMyProfile (traced service) bind ctx (st, log)
          = (ErrorResponse ctx StatusForbidden message ErrorDetail.nil, (st, log)))
      ∧ (∀ req, bind.bindUpdateUserRequest ctx.Body = Except.ok req →
          req.Role = none → req.IsActive = none →
          (handler.UpdateMyProfile (traced service) bind ctx (st, log)).2
              = ((service.UpdateUser userID req st).2, log ++ [ServiceCall.UpdateUser userID req])
            ∧ (handler.UpdateMyProfile (traced service) bind ctx (st, log)).1
              = (match (service.UpdateUser userID req st).1 with
                | Except.error err =>
                  ErrorResponse ctx StatusBadRequest "Failed to update profile"
                    (ErrorDetail.text err)
                | Except.ok user =>
                  SuccessResponse ctx StatusOK "Profile updated successfully"
                    (some (ResponseData.user user))))
      ∧ (∀ err, bind.bindUpdateUserRequest ctx.Body = Except.error err →
          handler.UpdateMyProfile (traced service) bind ctx (st, log)
            = (ValidationErrorResponse ctx err, (st, log))) := by
  refine ⟨?_, ?_, ?_⟩
  · intro req hbind h
    by_cases hr : req.Role ≠ none
    · exact ⟨"Cannot change role via profile update", by
        simp only [handler.UpdateMyProfile, getUserIDFromContext_uint ctx userID hid, hbind,
          if_pos hr]⟩
    · have ha : req.IsActive ≠ none := h.resolve_left hr
      exact ⟨"Cannot change account status via profile update", by
        simp only [handler.UpdateMyProfile, getUserIDFromContext_uint ctx userID hid, hbind,
          if_neg hr, if_pos ha]⟩
  · intro req hbind hr ha
    rcases hu : service.UpdateUser userID req st with ⟨r, st1⟩
    cases r <;>
      simp [handler.UpdateMyProfile, getUserIDFromContext_uint ctx userID hid, hbind, hr, ha,
        traced, logged, hu]
  · intro err hbind
    simp only [handler.UpdateMyProfile, getUserIDFromContext_uint ctx userID hid, hbind]

theorem UpdateMyProfile_privileged_fields_witness :
    ∃ message, handler.UpdateMyProfile (traced (NewUserService testService)) validatingBinding
        (authenticatedRequest 1 "patient" "\x7b\"role\":\"admin\"\x7d") (testDB, [])
      = (ErrorResponse (authenticatedRequest 1 "patient" "\x7b\"role\":\"admin\"\x7d") 403
            message ErrorDetail.nil,
          (testDB, [])) :=
  (UpdateMyProfile_privileged_fields (NewUserService testService) validatingBinding
    (authenticatedRequest 1 "patient" "\x7b\"role\":\"admin\"\x7d") testDB [] 1
    (by decide)).1
    { Username := none, Email := none, Phone := none, Password := none,
      Role := some "admin", IsActive := none } (by decide) (Or.inl (by decide))

/-! ## Malformed identifiers -/

theorem digitVal_lt_ten (c : Char) (d : Nat) (h : digitVal c = some d) (hd : d < 10) :
    48 ≤ c.toNat ∧ c.toNat ≤ 57 ∧ d = c.toNat - 48 := by
  unfold digitVal at h
  split_ifs at h with h1 h2 h3
  · simp only [Option.some.injEq] at h
    omega
  · simp only [Option.some.injEq] at h
    omega

theorem decimalValue_ge : ∀ (cs : List Char) (n : Nat), n ≤ decimalValue cs n := by
  intro cs
  induction cs with
  | nil => intro n; simp [decimalValue]
  | cons c cs ih =>
    intro n
    simp only [decimalValue]
    have := ih (n * 10 + (c.toNat - 48))
    omega

theorem parseUintLoop_ok (s0 : String) : ∀ (cs : List Char) (n t : Nat),
    n < 2 ^ 32 → parseUintLoop s0 10 (2 ^ 32 - 1) cs n = Except.ok t →
    (∀ c ∈ cs, 48 ≤ c.toNat ∧ c.toNat ≤ 57) ∧ t = decimalValue cs n := by
  intro cs
  induction cs with
  | nil =>
    intro n t _ h
    simp only [parseUintLoop, Except.ok.injEq] at h
    simp [decimalValue, h]
  | cons c cs ih =>
    intro n t hn h
    simp only [parseUintLoop] at h
    cases hd : digitVal c with
    | none => simp [hd] at h
    | some d =>
      simp only [hd] at h
      split_ifs at h with h1 h2 h3
      have hd10 : d < 10 := by omega
      obtain ⟨hc1, hc2, hdv⟩ := digitVal_lt_ten c d hd hd10
      have hstep : (n * 10 % 2 ^ 64 + d) % 2 ^ 64 = n * 10 + (c.toNat - 48) := by omega
      rw [hstep] at h h3
      have hlt : n * 10 + (c.toNat - 48) < 2 ^ 32 := by omega
      obtain ⟨hall, ht⟩ := ih _ t hlt h
      refine ⟨?_, ?_⟩
      · intro x hx
        rcases List.mem_cons.1 hx with hx | hx
        · subst hx; exact ⟨hc1, hc2⟩
        · exact hall x hx
      · simpa [decimalValue] using ht

theorem parseUintLoop_of_digits (s0 : String) : ∀ (cs : List Char) (n : Nat),
    (∀ c ∈ cs, 48 ≤ c.toNat ∧ c.toNat ≤ 57) → decimalValue cs n < 2 ^ 32 →
    parseUintLoop s0 10 (2 ^ 32 - 1) cs n = Except.ok (decimalValue cs n) := by
  intro cs
  induction cs with
  | nil => intro n _ _; simp [parseUintLoop, decimalValue]
  | cons c cs ih =>
    intro n hall hv
    have hc := hall c (List.mem_cons_self _ _)
    simp only [decimalValue] at hv ⊢
    have hge := decimalValue_ge cs (n * 10 + (c.toNat - 48))
    have hd : digitVal c = some (c.toNat - 48) := by
      unfold digitVal
      rw [if_neg (by omega), if_pos (by omega)]
    simp only [parseUintLoop, hd]
    have h1 : ¬ (c.toNat - 48 ≥ 10) := by omega
    have h2 : ¬ (n ≥ maxUint64 / 10 + 1) := by
      have : maxUint64 / 10 + 1 = 1844674407370955162 := by decide
      omega
    have hstep : (n * 10 % 2 ^ 64 + (c.toNat - 48)) % 2 ^ 64 = n * 10 + (c.toNat - 48) := by
      omega
    have h3 : ¬ (n * 10 + (c.toNat - 48) < n * 10 % 2 ^ 64
        ∨ n * 10 + (c.toNat - 48) > 2 ^ 32 - 1) := by omega
    simp only [h1, h2, if_false, hstep, h3]
    exact ih _ (fun x hx => hall x (List.mem_cons_of_mem _ hx)) hv

/-- `ParseUint(s, 10, 32)` succeeds exactly on the base-10 unsigned integers
that fit 32 bits, and returns the number denoted. -/
theorem ParseUint_ok_iff (s : String) (t : Nat) :
    ParseUint s = Except.ok t ↔ isUint32Text s ∧ t = decimalValue s.data 0 := by
  unfold ParseUint isUint32Text
  constructor
  · intro h
    split_ifs at h with h0
    obtain ⟨hall, ht⟩ := parseUintLoop_ok s s.data 0 t (by norm_num) h
    have := ParseUint_lt s t (by unfold ParseUint; rw [if_neg h0]; exact h)
    exact ⟨⟨h0, hall, by omega⟩, ht⟩
  · rintro ⟨⟨h0, hall, hv⟩, ht⟩
    rw [if_neg h0, ht]
    exact parseUintLoop_of_digits s s.data 0 hall hv

theorem ParseUint_error_of_not_uint32 (s : String) (h : ¬ isUint32Text s) :
    ∃ err, ParseUint s = Except.error err := by
  cases hp : ParseUint s with
  | error err => exact ⟨err, rfl⟩
  | ok t => exact absurd ((ParseUint_ok_iff s t).1 hp).1 h

/-- C25: when the path parameter `id` is not a base-10 unsigned integer that
fits 32 bits, `ParseUint` fails, and each of the eight handlers addressed by
id (`GetUserByID`, `UpdateUser`, `SoftDeleteUser`, `HardDeleteUser`,
`RestoreUser`, `ResetPassword`, `ActivateUser`, `DeactivateUser`) answers
`400 Bad Request` with the parse error and makes no call into the service: the
state and the call log are as before. -/
theorem malformed_id_bad_request {σ : Type} (service : UserService σ) (bind : Binding)
    (ctx : Context) (st : σ) (log : List ServiceCall)
    (hid : ¬ isUint32Text (ctx.Param "id")) :
    ∃ err, ParseUint (ctx.Param "id") = Except.error err
      ∧ handler.GetUserByID (traced service) ctx (st, log)
          = (ErrorResponse ctx StatusBadRequest "Invalid user ID" (ErrorDetail.numError err),
              (st, log))
      ∧ handler.UpdateUser (traced service) bind ctx (st, log)
          = (ErrorResponse ctx StatusBadRequest "Invalid user id" (ErrorDetail.numError err),
              (st, log))
      ∧ handler.SoftDeleteUser (traced service) ctx (st, log)
          = (ErrorResponse ctx StatusBadRequest "Invalid user ID" (ErrorDetail.numError err),
              (st, log))
      ∧ handler.HardDeleteUser (traced service) ctx (st, log)
          = (ErrorResponse ctx StatusBadRequest "Invalid user ID" (ErrorDetail.numError err),
              (st, log))
      ∧ handler.RestoreUser (traced service) ctx (st, log)
          = (ErrorResponse ctx StatusBadRequest "Invalid user ID" (ErrorDetail.numError err),
              (st, log))
      ∧ handler.ResetPassword (traced service) bind ctx (st, log)
          = (ErrorResponse ctx StatusBadRequest "Invalid user ID" (ErrorDetail.numError err),
              (st, log))
      ∧ handler.ActivateUser (traced service) ctx (st, log)
          = (ErrorResponse ctx StatusBadRequest "Invalid user ID" (ErrorDetail.numError err),
              (st, log))
      ∧ handler.DeactivateUser (traced service) ctx (st, log)
          = (ErrorResponse ctx StatusBadRequest "Invalid user ID" (ErrorDetail.numError err),
              (st, log)) := by
  obtain ⟨err, herr⟩ := ParseUint_error_of_not_uint32 _ hid
  refine ⟨err, herr, ?_, ?_, ?_, ?_, ?_, ?_, ?_, ?_⟩
  · simp only [handler.GetUserByID, herr]
  · simp only [handler.UpdateUser, herr]
  · simp only [handler.SoftDeleteUser, herr]
  · simp only [handler.HardDeleteUser, herr]
  · simp only [handler.RestoreUser, herr]
  · simp only [handler.ResetPassword, herr]
  · simp only [handler.ActivateUser, herr]
  · simp only [handler.DeactivateUser, herr]

theorem malformed_id_bad_request_witness :
    ∃ err, ParseUint ((authenticatedContext 2 "admin" "4294967296").Param "id")
        = Except.error err
      ∧ handler.GetUserByID (traced (NewUserService testService))
          (authenticatedContext 2 "admin" "4294967296") (testDB, [])
        = (ErrorResponse (authenticatedContext 2 "admin" "4294967296") 400 "Invalid user ID"
            (ErrorDetail.numError err), (testDB, [])) := by
  obtain ⟨err, h1, h2, _⟩ := malformed_id_bad_request (NewUserService testService) testBinding
    (authenticatedContext 2 "admin" "4294967296") testDB [] (by decide)
  exact ⟨err, h1, h2⟩

/-! ## Activation -/

/-- What `ActivateUser` does when the id parses and the service succeeds: it
returns the context as it received it, nothing being written. -/
theorem ActivateUser_success {σ : Type} (service : UserService σ) (ctx : Context) (st st' : σ)
    (id : Nat) (hparse : ParseUint (ctx.Param "id") = Except.ok id)
    (hok : service.ActivateUser (toUint id) st = (Except.ok (), st')) :
    handler.ActivateUser service ctx st = (ctx, st') := by
  simp only [handler.ActivateUser, hparse, hok]

/-- C26: the request `PATCH /api/v1/users/2/activate` of an admin on the table
`testDB`: the service activates account 2, and the handler `ActivateUser`
leaves the response writer empty, no success response being written, whereas
`DeactivateUser` on account 1 writes the success response with status `200`. -/
theorem ActivateUser_writes_no_response :
    (handler.ActivateUser (NewUserService testService) (authenticatedContext 1 "admin" "2")
        testDB).1.Writer = []
      ∧ ((NewUserService testService).ActivateUser 2 testDB).1 = Except.ok ()
      ∧ (handler.DeactivateUser (NewUserService testService) (authenticatedContext 1 "admin" "1")
          testDB).1.Writer
        = [(200, { Success := true, Message := "User deactivated successfully", Data := none,
                   Error := ErrorDetail.nil })] := by
  decide

/-! ## Writes happen last -/

theorem orReturn_assoc {σ α β γ : Type} (r : Result σ α) (k : α → σ → Result σ β)
    (k' : β → σ → Result σ γ) :
    orReturn (orReturn r k) k' = orReturn r (fun x st => orReturn (k x st) k') := by
  rcases r with ⟨_ | _, st⟩ <;> rfl

/-- `UpdateUser` is its preparing part followed by the one call of `Update`. -/
theorem UpdateUser_prepareUpdate {σ : Type} (s : userService σ) (id : Nat)
    (req : UpdateUserRequest) (st : σ) :
    s.UpdateUser id req st
      = orReturn (s.prepareUpdate id req st) fun user st =>
          orReturn (s.repo.Update user st) fun user st =>
          (Except.ok (userService.toUserResponse user), st) := by
  simp only [userService.UpdateUser, userService.finishUpdate, userService.prepareUpdate,
    orReturn_assoc, orReturn_ok]

/-- The preparing part of `UpdateUser` does not use `Update`. -/
theorem prepareUpdate_withUpdate {σ : Type} (s : userService σ) (upd : User → σ → Result σ User)
    (id : Nat) (req : UpdateUserRequest) (st : σ) :
    (s.withUpdate upd).prepareUpdate id req st = s.prepareUpdate id req st := rfl

/-- An error of the preparing part is the result of `UpdateUser`, whatever
`Update` is. -/
theorem UpdateUser_of_prepareUpdate_error {σ : Type} (s : userService σ) (id : Nat)
    (req : UpdateUserRequest) (st st' : σ) (err : String)
    (h : s.prepareUpdate id req st = (Except.error err, st'))
    (upd : User → σ → Result σ User) :
    (s.withUpdate upd).UpdateUser id req st = (Except.error err, st') := by
  rw [UpdateUser_prepareUpdate, prepareUpdate_withUpdate, h, orReturn_error]

/-- The preparing part of `UpdateUser` on the table: it leaves the table as it
was; its errors are `user not found`, the three conflicts, the error of
`HashPassword` and `invalid role`; and when it succeeds the requested password
was hashed. -/
theorem prepareUpdate_db (cfg : Config) (utils : Utils) (ceilDiv : Int → Int → Int)
    (list deleteList : PaginationQuery → DB → Result DB (List User × Int))
    (id : Nat) (req : UpdateUserRequest) (db : DB) :
    ((dbService cfg utils ceilDiv list deleteList).prepareUpdate id req db).2 = db
      ∧ (∀ user, ((dbService cfg utils ceilDiv list deleteList).prepareUpdate id req db).1
            = Except.ok user →
          ∀ p, req.Password = some p → ∃ hashed, utils.HashPassword p = Except.ok hashed)
      ∧ (∀ err, ((dbService cfg utils ceilDiv list deleteList).prepareUpdate id req db).1
            = Except.error err →
          err = "user not found" ∨ err = "username already exists"
            ∨ err = "email already exists" ∨ err = "phone already exists"
            ∨ err = "invalid role"
            ∨ ∃ p, req.Password = some p ∧ utils.HashPassword p = Except.error err) := by
  have hf : (dbService cfg utils ceilDiv list deleteList).repo.FindByID id db
      = (userRepository.First db (fun u => u.ID == id), db) := rfl
  unfold userService.prepareUpdate
  rw [hf]
  cases hfind : userRepository.First db (fun u => u.ID == id) with
  | error e =>
    rw [orReturn_error]
    refine ⟨rfl, fun user h => by simp at h, fun err h => ?_⟩
    simp only [Except.error.injEq] at h
    left
    rw [← h]
    unfold userRepository.First at hfind
    dsimp only at hfind
    split at hfind
    · simp only [Except.error.injEq] at hfind
      exact hfind.symm
    · simp at hfind
  | ok user =>
    rw [orReturn_ok, setUsername_db]
    by_cases h1 : conflicts db id User.Username req.Username user
    · rw [if_pos h1, orReturn_error]
      refine ⟨rfl, fun user h => by simp at h, fun err h => ?_⟩
      simp only [Except.error.injEq] at h
      exact Or.inr (Or.inl h.symm)
    · rw [if_neg h1, orReturn_ok, setEmail_db]
      split_ifs with h2
      · rw [orReturn_error]
        refine ⟨rfl, fun user h => by simp at h, fun err h => ?_⟩
        simp only [Except.error.injEq] at h
        exact Or.inr (Or.inr (Or.inl h.symm))
      · rw [orReturn_ok, setPhone_db]
        split_ifs with h3
        · rw [orReturn_error]
          refine ⟨rfl, fun user h => by simp at h, fun err h => ?_⟩
          simp only [Except.error.injEq] at h
          exact Or.inr (Or.inr (Or.inr (Or.inl h.symm)))
        · rw [orReturn_ok]
          rcases setPassword_cases (dbService cfg utils ceilDiv list deleteList) req.Password
            { user with Username := req.Username.getD user.Username,
                        Email := req.Email.getD user.Email,
                        Phone := req.Phone.getD user.Phone } db
            with ⟨u1, hp1⟩ | ⟨p, e, hp, hh, hp1⟩
          · rw [hp1, orReturn_ok]
            have hhash : ∀ p, req.Password = some p →
                ∃ hashed, utils.HashPassword p = Except.ok hashed := by
              intro p hp
              rw [hp] at hp1
              simp only [userService.setPassword] at hp1
              have hu : (dbService cfg utils ceilDiv list deleteList).utils = utils := rfl
              rw [hu] at hp1
              cases hh : utils.HashPassword p with
              | error e => rw [hh] at hp1; simp at hp1
              | ok hashed => exact ⟨hashed, rfl⟩
            rcases setRole_cases req.Role u1 db with ⟨u2, hr2, _⟩ | ⟨r, hr, hv, hr2⟩
            · rw [hr2, orReturn_ok]
              exact ⟨rfl, fun _ _ => hhash, fun err h => by simp at h⟩
            · rw [hr2, orReturn_error]
              refine ⟨rfl, fun user h => by simp at h, fun err h => ?_⟩
              simp only [Except.error.injEq] at h
              exact Or.inr (Or.inr (Or.inr (Or.inr (Or.inl h.symm))))
          · rw [hp1, orReturn_error]
            refine ⟨rfl, fun user h => by simp at h, fun err h => ?_⟩
            simp only [Except.error.injEq] at h
            refine Or.inr (Or.inr (Or.inr (Or.inr (Or.inr ⟨p, hp, ?_⟩))))
            rw [← h]
            exact hh

/-- C28: on the table, when `UpdateUser` returns one of the errors raised
before the write (`user not found`, `username already exists`,
`email already exists`, `phone already exists`, the error of `HashPassword`
on the requested password, `invalid role`), the result is that error with the
table as it was, whatever the method `Update` of the repository is replaced
by: `Update` is not called, also when earlier fields of the request had passed
their checks.  (An error returned by `Update` itself is an error of the table,
a duplicate key or a value longer than its column, and leaves the table as it
was too.) -/
theorem UpdateUser_atomic_on_failure (cfg : Config) (utils : Utils) (ceilDiv : Int → Int → Int)
    (list deleteList : PaginationQuery → DB → Result DB (List User × Int))
    (id : Nat) (req : UpdateUserRequest) (db : DB) (err : String)
    (h : ((dbService cfg utils ceilDiv list deleteList).UpdateUser id req db).1
      = Except.error err) :
    ((dbService cfg utils ceilDiv list deleteList).UpdateUser id req db).2 = db
      ∧ ((err = "user not found" ∨ err = "username already exists"
            ∨ err = "email already exists" ∨ err = "phone already exists"
            ∨ err = "invalid role"
            ∨ ∃ p, req.Password = some p ∧ utils.HashPassword p = Except.error err) →
          ∀ upd : User → DB → Result DB User,
            ((dbService cfg utils ceilDiv list deleteList).withUpdate upd).UpdateUser id req db
              = (Except.error err, db)) := by
  obtain ⟨hst, hhash, _⟩ := prepareUpdate_db cfg utils ceilDiv list deleteList id req db
  rcases hp : (dbService cfg utils ceilDiv list deleteList).prepareUpdate id req db
    with ⟨res, st'⟩
  rw [hp] at hst hhash
  dsimp only at hst hhash
  subst hst
  rw [UpdateUser_prepareUpdate, hp] at h ⊢
  cases res with
  | error e =>
    rw [orReturn_error] at h ⊢
    simp only [Except.error.injEq] at h
    subst h
    exact ⟨rfl, fun _ upd =>
      UpdateUser_of_prepareUpdate_error _ id req st' st' e hp upd⟩
  | ok user =>
    rw [orReturn_ok] at h ⊢
    have hrepo : (dbService cfg utils ceilDiv list deleteList).repo.Update
        = userRepository.Update := rfl
    rw [hrepo] at h ⊢
    rcases hu : userRepository.Update user st' with ⟨r, db1⟩
    rw [hu] at h
    cases r with
    | ok row => simp [orReturn] at h
    | error e =>
      rw [orReturn_error] at h ⊢
      simp only [Except.error.injEq] at h
      subst h
      obtain ⟨he, hd⟩ := Update_error _ _ _ _ hu
      obtain ⟨n1, n2, n3, n4, n5⟩ := storeError_ne e he
      refine ⟨hd, fun hkind => ?_⟩
      exfalso
      rcases hkind with hk | hk | hk | hk | hk | ⟨p, hp1, hp2⟩
      · exact n1 hk
      · exact n2 hk
      · exact n3 hk
      · exact n4 hk
      · exact n5 hk
      · obtain ⟨hashed, hh⟩ := hhash user rfl p hp1
        rw [hh] at hp2
        simp at hp2

theorem UpdateUser_atomic_on_failure_witness :
    (testService.withUpdate
        (fun user _ => (Except.ok user, { users := [], nextID := 0, now := 0 }))).UpdateUser 1
        { Username := some "alice2", Email := some "bob@x.com", Phone := none,
          Password := none, Role := none, IsActive := none } testDB
      = (Except.error "email already exists", testDB) :=
  (UpdateUser_atomic_on_failure testConfig testUtils
    (fun total pageSize => (total + pageSize - 1) / pageSize) testList testList 1
    { Username := some "alice2", Email := some "bob@x.com", Phone := none,
      Password := none, Role := none, IsActive := none } testDB "email already exists"
    (by decide)).2 (Or.inr (Or.inr (Or.inl rfl)))
    (fun user _ => (Except.ok user, { users := [], nextID := 0, now := 0 }))

/-! ## Password change -/

/-- `orReturn` keeps the state its first argument leaves when the continuation does. -/
theorem orReturn_unit_state {σ α : Type} (r : Result σ α) :
    (orReturn r fun _ st => (Except.ok (), st)).2 = r.2 := by
  rcases r with ⟨_ | _, st⟩ <;> rfl

/-- On the table, `ChangePassword` writes only after the old password has
verified and the new one has been hashed, and what it writes is the record
with that hash. -/
theorem ChangePassword_db_write (cfg : Config) (utils : Utils) (ceilDiv : Int → Int → Int)
    (list deleteList : PaginationQuery → DB → Result DB (List User × Int))
    (id : Nat) (req : ChangePasswordRequest) (db : DB)
    (hne : ((dbService cfg utils ceilDiv list deleteList).ChangePassword id req db).2 ≠ db) :
    ∃ user hashed, userRepository.First db (fun u => u.ID == id) = Except.ok user
      ∧ utils.CheckPassword user.Password req.OldPassword = true
      ∧ utils.HashPassword req.NewPassword = Except.ok hashed
      ∧ ((dbService cfg utils ceilDiv list deleteList).ChangePassword id req db).2
          = (userRepository.Update { user with Password := hashed } db).2 := by
  have hf : (dbService cfg utils ceilDiv list deleteList).repo.FindByID id db
      = (userRepository.First db (fun u => u.ID == id), db) := rfl
  have hu : (dbService cfg utils ceilDiv list deleteList).utils = utils := rfl
  have hrepo : (dbService cfg utils ceilDiv list deleteList).repo.Update
      = userRepository.Update := rfl
  unfold userService.ChangePassword at hne ⊢
  rw [hf, hu] at hne ⊢
  cases hfind : userRepository.First db (fun u => u.ID == id) with
  | error e =>
    rw [hfind, orReturn_error] at hne
    exact absurd rfl hne
  | ok user =>
    rw [hfind, orReturn_ok] at hne
    rw [orReturn_ok]
    cases hc : utils.CheckPassword user.Password req.OldPassword with
    | false =>
      rw [hc] at hne
      exact absurd rfl hne
    | true =>
      rw [hc] at hne
      cases hh : utils.HashPassword req.NewPassword with
      | error e =>
        rw [hh] at hne
        exact absurd rfl hne
      | ok hashed =>
        refine ⟨user, hashed, rfl, hc, rfl, ?_⟩
        simp only [Bool.not_true, Bool.false_eq_true, if_false, hrepo]
        exact orReturn_unit_state _

/-- C22: for an account that `FindByID` finds: when the supplied old password
does not verify against the stored hash, `ChangePassword` fails with
`old password is incorrect` (the invalid-credentials outcome of the
operation), whatever the method `Update` of the repository is replaced by, so
no `Update` is performed; when it verifies and the new password hashes to
`hashed`, `ChangePassword` is the call of `Update` on the record with
`Password := hashed`.  On the table, a run of `ChangePassword` that changes
the table is one in which the old password verified, and the change is that
`Update`. -/
theorem ChangePassword_old_password {σ : Type} (s : userService σ) (id : Nat)
    (req : ChangePasswordRequest) (st st' : σ) (user : User)
    (hfind : s.repo.FindByID id st = (Except.ok user, st')) :
    (s.utils.CheckPassword user.Password req.OldPassword = false →
        ∀ upd : User → σ → Result σ User,
          (s.withUpdate upd).ChangePassword id req st
            = (Except.error "old password is incorrect", st'))
      ∧ (s.utils.CheckPassword user.Password req.OldPassword = true →
          ∀ hashed, s.utils.HashPassword req.NewPassword = Except.ok hashed →
            s.ChangePassword id req st
              = orReturn (s.repo.Update { user with Password := hashed } st')
                  (fun _ st => (Except.ok (), st)))
      ∧ (∀ cfg utils ceilDiv list deleteList id req db,
          ((dbService cfg utils ceilDiv list deleteList).ChangePassword id req db).2 ≠ db →
          ∃ user hashed, userRepository.First db (fun u => u.ID == id) = Except.ok user
            ∧ utils.CheckPassword user.Password req.OldPassword = true
            ∧ utils.HashPassword req.NewPassword = Except.ok hashed
            ∧ ((dbService cfg utils ceilDiv list deleteList).ChangePassword id req db).2
                = (userRepository.Update { user with Password := hashed } db).2) := by
  refine ⟨?_, ?_, ChangePassword_db_write⟩
  · intro hc upd
    have hf : (s.withUpdate upd).repo.FindByID id st = (Except.ok user, st') := hfind
    have hu : (s.withUpdate upd).utils = s.utils := rfl
    simp only [userService.ChangePassword, hf, orReturn_ok, hu, hc, Bool.not_false, if_true]
  · intro hc hashed hh
    simp only [userService.ChangePassword, hfind, orReturn_ok, hc, hh, Bool.not_true,
      Bool.false_eq_true, if_false]

theorem ChangePassword_old_password_witness :
    (testService.withUpdate
        (fun user _ => (Except.ok user, { users := [], nextID := 0, now := 0 }))).ChangePassword 1
        { OldPassword := "wrongpass", NewPassword := "newpass123" } testDB
      = (Except.error "old password is incorrect", testDB) :=
  (ChangePassword_old_password testService 1
    { OldPassword := "wrongpass", NewPassword := "newpass123" } testDB testDB
    { ID := 1, Username := "alice", Email := "alice@x.com", Phone := "0811111111",
      Password := "hash:alicepass", Role := "patient", IsActive := true,
      CreatedAt := 10, UpdatedAt := 10, DeletedAt := none } (by decide)).1 (by decide)
    (fun user _ => (Except.ok user, { users := [], nextID := 0, now := 0 }))

/-! ## The row picked by `First` -/

/-- The fold of `First` returns a member of least id. -/
theorem First_fold_some : ∀ (l : List User) (acc : Option User) (m : User),
    l.foldl (fun (acc : Option User) u =>
        match acc with
        | none => some u
        | some b => if u.ID < b.ID then some u else some b) acc = some m →
    (m ∈ l ∨ acc = some m) ∧ (∀ v ∈ l, m.ID ≤ v.ID) ∧ (∀ b, acc = some b → m.ID ≤ b.ID) := by
  intro l
  induction l with
  | nil =>
    intro acc m h
    simp only [List.foldl_nil] at h
    subst h
    refine ⟨Or.inr rfl, ?_, ?_⟩
    · intro v hv
      cases hv
    · intro b hb
      simp only [Option.some.injEq] at hb
      rw [hb]
  | cons u l ih =>
    intro acc m h
    rw [List.foldl_cons] at h
    obtain ⟨h1, h2, h3⟩ := ih _ m h
    cases acc with
    | none =>
      have hm := h3 u rfl
      refine ⟨Or.inl ?_, ?_, fun b hb => by cases hb⟩
      · rcases h1 with h1 | h1
        · exact List.mem_cons_of_mem _ h1
        · simp only [Option.some.injEq] at h1
          rw [h1]
          exact List.mem_cons_self _ _
      · intro v hv
        rcases List.mem_cons.1 hv with hv | hv
        · rw [hv]; exact hm
        · exact h2 v hv
    | some b =>
      by_cases hlt : u.ID < b.ID
      · simp only [hlt, if_true] at h1 h3
        have hm := h3 u rfl
        refine ⟨Or.inl ?_, ?_, ?_⟩
        · rcases h1 with h1 | h1
          · exact List.mem_cons_of_mem _ h1
          · simp only [Option.some.injEq] at h1
            rw [h1]
            exact List.mem_cons_self _ _
        · intro v hv
          rcases List.mem_cons.1 hv with hv | hv
          · rw [hv]; exact hm
          · exact h2 v hv
        · intro b' hb'
          simp only [Option.some.injEq] at hb'
          subst hb'
          omega
      · simp only [hlt, if_false] at h1 h3
        have hm := h3 b rfl
        refine ⟨?_, ?_, ?_⟩
        · rcases h1 with h1 | h1
          · exact Or.inl (List.mem_cons_of_mem _ h1)
          · exact Or.inr h1
        · intro v hv
          rcases List.mem_cons.1 hv with hv | hv
          · rw [hv]; omega
          · exact h2 v hv
        · intro b' hb'
          simp only [Option.some.injEq] at hb'
          subst hb'
          exact hm

/-- The fold of `First` returns nothing only on the empty list. -/
theorem First_fold_none : ∀ (l : List User) (acc : Option User),
    l.foldl (fun (acc : Option User) u =>
        match acc with
        | none => some u
        | some b => if u.ID < b.ID then some u else some b) acc = none →
    l = [] ∧ acc = none := by
  intro l
  induction l with
  | nil => intro acc h; exact ⟨rfl, h⟩
  | cons u l ih =>
    intro acc h
    rw [List.foldl_cons] at h
    have := (ih _ h).2
    cases acc with
    | none => simp at this
    | some b =>
      dsimp only at this
      split_ifs at this

/-- The row `First` returns is a live row of the table that satisfies the
condition and has the least id among those. -/
theorem First_ok (db : DB) (cond : User → Bool) (u : User)
    (h : userRepository.First db cond = Except.ok u) :
    u ∈ db.users ∧ userRepository.live u = true ∧ cond u = true
      ∧ ∀ v ∈ db.users, userRepository.live v = true → cond v = true → u.ID ≤ v.ID := by
  unfold userRepository.First at h
  dsimp only at h
  split at h
  · simp at h
  · rename_i m hm
    simp only [Except.ok.injEq] at h
    subst h
    obtain ⟨h1, h2, _⟩ := First_fold_some _ _ _ hm
    rcases h1 with h1 | h1
    · have hmem := List.mem_filter.1 h1
      simp only [Bool.and_eq_true] at hmem
      refine ⟨hmem.1, hmem.2.1, hmem.2.2, fun v hv hl hc => ?_⟩
      exact h2 v (List.mem_filter.2 ⟨hv, by simp [hl, hc]⟩)
    · simp at h1

/-- `First` fails, with `user not found`, exactly when no live row satisfies
the condition. -/
theorem First_error (db : DB) (cond : User → Bool) (err : String)
    (h : userRepository.First db cond = Except.error err) :
    err = "user not found"
      ∧ ∀ v ∈ db.users, ¬ (userRepository.live v = true ∧ cond v = true) := by
  unfold userRepository.First at h
  dsimp only at h
  split at h
  · rename_i hm
    simp only [Except.error.injEq] at h
    refine ⟨h.symm, fun v hv hlc => ?_⟩
    have hnil := (First_fold_none _ _ hm).1
    have : v ∈ db.users.filter (fun u => userRepository.live u && cond u) :=
      List.mem_filter.2 ⟨hv, by simp [hlc.1, hlc.2]⟩
    rw [hnil] at this
    cases this
  · simp at h

/-- `First` succeeds when some live row satisfies the condition. -/
theorem First_exists (db : DB) (cond : User → Bool) (v : User) (hv : v ∈ db.users)
    (hl : userRepository.live v = true) (hc : cond v = true) :
    ∃ u, userRepository.First db cond = Except.ok u := by
  cases h : userRepository.First db cond with
  | ok u => exact ⟨u, rfl⟩
  | error err => exact absurd ⟨hl, hc⟩ ((First_error db cond err h).2 v hv)

/-- `First` reads the live rows that satisfy the condition, nothing else. -/
theorem First_congr (db db' : DB) (cond : User → Bool)
    (h : db'.users.filter (fun u => userRepository.live u && cond u)
      = db.users.filter (fun u => userRepository.live u && cond u)) :
    userRepository.First db' cond = userRepository.First db cond := by
  unfold userRepository.First
  dsimp only
  rw [h]

/-- Rewriting the rows of one id: when every row with the id of the row that
`First` picks becomes `row`, the other rows stay, and `row` is live, satisfies
the condition and keeps the id, `First` picks `row` afterwards. -/
theorem First_map (db db' : DB) (cond : User → Bool) (f : User → User) (user row : User)
    (hfirst : userRepository.First db cond = Except.ok user)
    (husers : db'.users = db.users.map f)
    (hrow : ∀ r ∈ db.users, r.ID = user.ID → f r = row)
    (hother : ∀ r ∈ db.users, r.ID ≠ user.ID → f r = r)
    (hlive : userRepository.live row = true) (hcond : cond row = true)
    (hid : row.ID = user.ID) :
    userRepository.First db' cond = Except.ok row := by
  obtain ⟨hmem, _, _, hmin⟩ := First_ok db cond user hfirst
  have hrowmem : row ∈ db'.users := by
    rw [husers]
    exact List.mem_map.2 ⟨user, hmem, hrow user hmem rfl⟩
  obtain ⟨u', hu'⟩ := First_exists db' cond row hrowmem hlive hcond
  obtain ⟨hmem', hl', hc', hmin'⟩ := First_ok db' cond u' hu'
  rw [husers] at hmem'
  obtain ⟨v, hv, hfv⟩ := List.mem_map.1 hmem'
  by_cases hvid : v.ID = user.ID
  · rw [hrow v hv hvid] at hfv
    rw [hu', hfv]
  · exfalso
    rw [hother v hv hvid] at hfv
    subst hfv
    have h1 := hmin v hv hl' hc'
    have h2 := hmin' row hrowmem hlive hcond
    omega

/-! ## Password-change scenario -/

/-- Rewriting the live rows of one id: when every live row with the id of the
row that `First` picks becomes `row`, the other rows stay, and `row` is live,
satisfies the condition and keeps the id, `First` picks `row` afterwards. -/
theorem First_map_live (db db' : DB) (cond : User → Bool) (f : User → User) (user row : User)
    (hfirst : userRepository.First db cond = Except.ok user)
    (husers : db'.users = db.users.map f)
    (hrow : ∀ r ∈ db.users, r.ID = user.ID → userRepository.live r = true → f r = row)
    (hother : ∀ r ∈ db.users, ¬ (r.ID = user.ID ∧ userRepository.live r = true) → f r = r)
    (hlive : userRepository.live row = true) (hcond : cond row = true)
    (hid : row.ID = user.ID) :
    userRepository.First db' cond = Except.ok row := by
  obtain ⟨hmem, hulive, _, hmin⟩ := First_ok db cond user hfirst
  have hrowmem : row ∈ db'.users := by
    rw [husers]
    exact List.mem_map.2 ⟨user, hmem, hrow user hmem rfl hulive⟩
  obtain ⟨u', hu'⟩ := First_exists db' cond row hrowmem hlive hcond
  obtain ⟨hmem', hl', hc', hmin'⟩ := First_ok db' cond u' hu'
  rw [husers] at hmem'
  obtain ⟨v, hv, hfv⟩ := List.mem_map.1 hmem'
  by_cases hvid : v.ID = user.ID ∧ userRepository.live v = true
  · rw [hrow v hv hvid.1 hvid.2] at hfv
    rw [hu', hfv]
  · exfalso
    rw [hother v hv hvid] at hfv
    subst hfv
    have hne : v.ID ≠ user.ID := fun h => hvid ⟨h, hl'⟩
    have h1 := hmin v hv hl' hc'
    have h2 := hmin' row hrowmem hlive hcond
    omega

/-- A successful `Update` of a record whose id and username a live row of the
table has: every live row with that id is overwritten with the record, stamped
with the current time. -/
theorem Update_ok_existing (user row : User) (db db' : DB)
    (hmem : ∃ r ∈ db.users, r.ID = user.ID ∧ userRepository.live r = true
      ∧ r.Username = user.Username)
    (h : userRepository.Update user db = (Except.ok row, db')) :
    row = { user with UpdatedAt := db.now }
      ∧ db'.users = db.users.map
          (fun r => if r.ID = user.ID ∧ userRepository.live r = true
            then { user with UpdatedAt := db.now } else r) := by
  obtain ⟨r, hr, hrid, hrlive, hrname⟩ := hmem
  unfold userRepository.Update at h
  by_cases h0 : user.ID = 0
  · exfalso
    rw [if_pos h0] at h
    unfold userRepository.Create at h
    dsimp only at h
    rw [if_pos h0] at h
    have hcols := (BeforeCreate_columns user db.now).1
    split at h
    · simp at h
    · by_cases hn : r.ID = db.nextID
      · have hany : (db.users.any fun x => x.ID == db.nextID) = true :=
          List.any_eq_true.2 ⟨r, hr, by simp [hn]⟩
        simp [hany] at h
      · have hv : userRepository.violatesUnique db
            { user.BeforeCreate db.now with ID := db.nextID, IsActive := true } = true := by
          unfold userRepository.violatesUnique
          refine List.any_eq_true.2 ⟨r, hr, ?_⟩
          simp [hn, hcols, hrname]
        simp [hv] at h
  · rw [if_neg h0] at h
    dsimp only at h
    have hany : (db.users.any fun x => x.ID == user.ID && userRepository.live x) = true :=
      List.any_eq_true.2 ⟨r, hr, by simp [hrid, hrlive]⟩
    rw [if_pos hany] at h
    split at h
    · simp at h
    · split_ifs at h with h1
      · simp at h
      · simp only [Prod.mk.injEq, Except.ok.injEq] at h
        obtain ⟨hrow, hdb⟩ := h
        subst hdb
        exact ⟨hrow.symm, rfl⟩

/-- A successful `ChangePassword` on the table: the old password verified,
the new one was hashed, and the live rows of that id now hold the record with
the new hash. -/
theorem ChangePassword_db_ok (cfg : Config) (utils : Utils) (ceilDiv : Int → Int → Int)
    (list deleteList : PaginationQuery → DB → Result DB (List User × Int))
    (id : Nat) (req : ChangePasswordRequest) (db : DB) (user : User)
    (hfind : userRepository.First db (fun u => u.ID == id) = Except.ok user)
    (hok : ((dbService cfg utils ceilDiv list deleteList).ChangePassword id req db).1
      = Except.ok ()) :
    ∃ hashed, utils.HashPassword req.NewPassword = Except.ok hashed
      ∧ utils.CheckPassword user.Password req.OldPassword = true
      ∧ ((dbService cfg utils ceilDiv list deleteList).ChangePassword id req db).2.users
          = db.users.map (fun r => if r.ID = user.ID ∧ userRepository.live r = true
              then { user with Password := hashed, UpdatedAt := db.now } else r) := by
  have hf : (dbService cfg utils ceilDiv list deleteList).repo.FindByID id db
      = (userRepository.First db (fun u => u.ID == id), db) := rfl
  have hu : (dbService cfg utils ceilDiv list deleteList).utils = utils := rfl
  have hrepo : (dbService cfg utils ceilDiv list deleteList).repo.Update
      = userRepository.Update := rfl
  unfold userService.ChangePassword at hok ⊢
  rw [hf, hu, hfind, orReturn_ok] at hok ⊢
  cases hc : utils.CheckPassword user.Password req.OldPassword with
  | false =>
    rw [hc] at hok
    simp at hok
  | true =>
    rw [hc] at hok
    cases hh : utils.HashPassword req.NewPassword with
    | error e =>
      rw [hh] at hok
      simp at hok
    | ok hashed =>
      rw [hh] at hok
      simp only [Bool.not_true, Bool.false_eq_true, if_false, hrepo] at hok ⊢
      rcases hup : userRepository.Update { user with Password := hashed } db with ⟨res, db1⟩
      rw [hup] at hok
      cases res with
      | error e => simp [orReturn] at hok
      | ok row =>
        obtain ⟨hmem, hulive, _, _⟩ := First_ok db _ user hfind
        obtain ⟨_, husers⟩ := Update_ok_existing { user with Password := hashed } row db db1
          ⟨user, hmem, rfl, hulive, rfl⟩ hup
        exact ⟨hashed, rfl, trivial, husers⟩

/-- C23: on the table, with a password codec for which a hash verifies its own
password and no other one: for a live account `id` that is active and that the
login identifier `x` resolves to, and a new password different from the old
one, after `ChangePassword(id, old, new)` has succeeded, `Login` with `x` and
the old password fails with `invalid credentials`, and `Login` with `x` and
the new password passes the credential check: it returns the token that
`GenerateToken` issues for the account, with the profile of the account. -/
theorem password_change_scenario (cfg : Config) (utils : Utils) (ceilDiv : Int → Int → Int)
    (list deleteList : PaginationQuery → DB → Result DB (List User × Int))
    (db : DB) (id : Nat) (user : User) (x old new : String)
    (hverify : ∀ p hashed, utils.HashPassword p = Except.ok hashed →
      utils.CheckPassword hashed p = true)
    (hreject : ∀ p q hashed, utils.HashPassword p = Except.ok hashed → q ≠ p →
      utils.CheckPassword hashed q = false)
    (hfind : userRepository.First db (fun u => u.ID == id) = Except.ok user)
    (hlogin : userRepository.First db (fun u => u.Username == x || u.Email == x)
      = Except.ok user)
    (hactive : user.IsActive = true)
    (hne : new ≠ old)
    (hchange : ((dbService cfg utils ceilDiv list deleteList).ChangePassword id
      { OldPassword := old, NewPassword := new } db).1 = Except.ok ()) :
    ∃ hashed, utils.HashPassword new = Except.ok hashed
      ∧ (dbService cfg utils ceilDiv list deleteList).Login
            { UsernameOrEmail := x, Password := old }
            ((dbService cfg utils ceilDiv list deleteList).ChangePassword id
              { OldPassword := old, NewPassword := new } db).2
          = (Except.error "invalid credentials",
              ((dbService cfg utils ceilDiv list deleteList).ChangePassword id
                { OldPassword := old, NewPassword := new } db).2)
      ∧ ∀ token expiresAt,
          utils.GenerateToken user.ID user.Username user.Email user.Role cfg.JWT.Secret
              cfg.JWT.ExpiredTime = Except.ok (token, expiresAt) →
          (dbService cfg utils ceilDiv list deleteList).Login
              { UsernameOrEmail := x, Password := new }
              ((dbService cfg utils ceilDiv list deleteList).ChangePassword id
                { OldPassword := old, NewPassword := new } db).2
            = (Except.ok { Token := token, ExpiresAt := expiresAt,
                           User := userService.toUserResponse
                             { user with Password := hashed, UpdatedAt := db.now } },
                ((dbService cfg utils ceilDiv list deleteList).ChangePassword id
                  { OldPassword := old, NewPassword := new } db).2) := by
  obtain ⟨hashed, hh, _, husers⟩ := ChangePassword_db_ok cfg utils ceilDiv list deleteList id
    { OldPassword := old, NewPassword := new } db user hfind hchange
  obtain ⟨_, hlive, hcond, _⟩ := First_ok db _ user hlogin
  generalize ((dbService cfg utils ceilDiv list deleteList).ChangePassword id
    { OldPassword := old, NewPassword := new } db).2 = db' at husers ⊢
  have hfirst : userRepository.First db' (fun u => u.Username == x || u.Email == x)
      = Except.ok { user with Password := hashed, UpdatedAt := db.now } :=
    First_map_live db db' _ _ user _ hlogin husers
      (fun r _ hr hl => by simp only [hr, hl, and_self, if_true])
      (fun r _ hr => by simp only [hr, if_false])
      hlive hcond rfl
  have hrepo : (dbService cfg utils ceilDiv list deleteList).repo.FindByUsernameOrEmail x db'
      = (Except.ok { user with Password := hashed, UpdatedAt := db.now }, db') := by
    simp only [dbService, NewUserRepository, userRepository.FindByUsernameOrEmail, hfirst]
  refine ⟨hashed, hh, ?_, ?_⟩
  · exact Login_of_wrong_password _ { UsernameOrEmail := x, Password := old } db' db' _ hrepo
      hactive (hreject new old hashed hh (Ne.symm hne))
  · intro token expiresAt htoken
    have hcheck : utils.CheckPassword hashed new = true := hverify new hashed hh
    have hu : (dbService cfg utils ceilDiv list deleteList).utils = utils := rfl
    have hcfg : (dbService cfg utils ceilDiv list deleteList).config = cfg := rfl
    simp only [userService.Login, hrepo, hactive, hu, hcfg, hcheck, htoken, Bool.not_true,
      Bool.false_eq_true, if_false]

theorem password_change_scenario_witness :
    testService.Login { UsernameOrEmail := "alice", Password := "alicepass" }
        (testService.ChangePassword 1
          { OldPassword := "alicepass", NewPassword := "newpass123" } testDB).2
      = (Except.error "invalid credentials",
          (testService.ChangePassword 1
            { OldPassword := "alicepass", NewPassword := "newpass123" } testDB).2) := by
  obtain ⟨_, _, h, _⟩ := password_change_scenario testConfig testUtils
    (fun total pageSize => (total + pageSize - 1) / pageSize) testList testList testDB 1
    { ID := 1, Username := "alice", Email := "alice@x.com", Phone := "0811111111",
      Password := "hash:alicepass", Role := "patient", IsActive := true,
      CreatedAt := 10, UpdatedAt := 10, DeletedAt := none }
    "alice" "alicepass" "newpass123"
    (by intro p hashed h
        simp only [testUtils, Except.ok.injEq] at h
        simp [testUtils, ← h])
    (by intro p q hashed h hq
        simp only [testUtils, Except.ok.injEq] at h
        simp only [testUtils, ← h, beq_eq_false_iff_ne, ne_eq]
        intro heq
        have hdata := congrArg String.data heq
        simp only [String.data_append] at hdata
        exact hq (String.ext (List.append_cancel_left hdata)).symm)
    (by decide) (by decide) rfl (by decide) (by decide)
  exact h

/-! ## Soft delete and restore -/

/-- After the soft delete of `id`, the live rows that satisfy a condition are
those of the table without the rows of `id`. -/
theorem SoftDelete_filter (id now : Nat) (cond : User → Bool) : ∀ l : List User,
    (l.map (fun r => if r.ID = id ∧ userRepository.live r
        then { r with DeletedAt := some now } else r)).filter
        (fun u => userRepository.live u && cond u)
      = (l.filter (fun r => r.ID != id)).filter (fun u => userRepository.live u && cond u) := by
  intro l
  induction l with
  | nil => rfl
  | cons r l ih =>
    rw [List.map_cons]
    by_cases hid : r.ID = id
    · have h2 : (r.ID != id) = false := by simp [hid]
      rw [List.filter_cons_of_neg (p := fun r : User => r.ID != id) (by simp [h2])]
      by_cases hl : userRepository.live r = true
      · rw [if_pos ⟨hid, hl⟩, List.filter_cons_of_neg (by simp [userRepository.live])]
        exact ih
      · rw [if_neg (fun h => hl h.2), List.filter_cons_of_neg (by simp [hl])]
        exact ih
    · have h2 : (r.ID != id) = true := by simp [hid]
      rw [List.filter_cons_of_pos (p := fun r : User => r.ID != id) (by simp [h2]),
        if_neg (fun h => hid h.1), List.filter_cons, List.filter_cons, ih]

/-- After the soft delete of `id`, `First` answers as on the table from which
the rows of `id` are removed. -/
theorem First_SoftDelete (id : Nat) (db : DB) (cond : User → Bool) :
    userRepository.First (userRepository.SoftDelete id db).2 cond
      = userRepository.First (userRepository.HardDelete id db).2 cond :=
  First_congr _ _ cond (SoftDelete_filter id db.now cond db.users)

/-- The result of `Login` on the table is decided by the row that `First`
picks for the identifier. -/
theorem Login_db_congr (cfg : Config) (utils : Utils) (ceilDiv : Int → Int → Int)
    (list deleteList : PaginationQuery → DB → Result DB (List User × Int))
    (req : LoginRequest) (db db' : DB)
    (h : userRepository.First db'
        (fun u => u.Username == req.UsernameOrEmail || u.Email == req.UsernameOrEmail)
      = userRepository.First db
        (fun u => u.Username == req.UsernameOrEmail || u.Email == req.UsernameOrEmail)) :
    ((dbService cfg utils ceilDiv list deleteList).Login req db').1
      = ((dbService cfg utils ceilDiv list deleteList).Login req db).1 := by
  simp only [userService.Login, dbService, NewUserRepository,
    userRepository.FindByUsernameOrEmail, h]
  cases userRepository.First db
      (fun u => u.Username == req.UsernameOrEmail || u.Email == req.UsernameOrEmail) with
  | error e => rfl
  | ok user =>
    dsimp only
    split_ifs
    · rfl
    · rfl
    · cases utils.GenerateToken user.ID user.Username user.Email user.Role cfg.JWT.Secret
        cfg.JWT.ExpiredTime with
      | error e => rfl
      | ok r => rfl

/-- C24: on the table with its primary key (no two rows share an id), for a
live account `id`: `SoftDeleteUser(id)` succeeds, and afterwards
`FindByUsernameOrEmail` and `Login` answer for every identifier as on the
table from which the account is removed, so that an identifier naming no
other live record is unknown (`user not found`, and `Login` fails with
`invalid credentials`); after the following `RestoreUser(id)` every identifier
that found the account before the deletion finds it again, with the role, the
credential hash and the active flag (and the id, username, email and phone) it
had before the deletion. -/
theorem soft_delete_restore_round_trip (cfg : Config) (utils : Utils)
    (ceilDiv : Int → Int → Int)
    (list deleteList : PaginationQuery → DB → Result DB (List User × Int))
    (db : DB) (id : Nat) (user : User)
    (hfind : userRepository.First db (fun u => u.ID == id) = Except.ok user)
    (hpk : (db.users.map User.ID).Nodup) :
    ((dbService cfg utils ceilDiv list deleteList).SoftDeleteUser id db).1 = Except.ok ()
      ∧ (∀ x, (userRepository.FindByUsernameOrEmail x
              ((dbService cfg utils ceilDiv list deleteList).SoftDeleteUser id db).2).1
            = (userRepository.FindByUsernameOrEmail x (userRepository.HardDelete id db).2).1)
      ∧ (∀ req, ((dbService cfg utils ceilDiv list deleteList).Login req
              ((dbService cfg utils ceilDiv list deleteList).SoftDeleteUser id db).2).1
            = ((dbService cfg utils ceilDiv list deleteList).Login req
              (userRepository.HardDelete id db).2).1)
      ∧ (∀ req : LoginRequest,
          (∀ v ∈ db.users, v.DeletedAt = none →
            (v.Username = req.UsernameOrEmail ∨ v.Email = req.UsernameOrEmail) → v.ID = id) →
          (userRepository.FindByUsernameOrEmail req.UsernameOrEmail
              ((dbService cfg utils ceilDiv list deleteList).SoftDeleteUser id db).2).1
            = Except.error "user not found"
          ∧ ((dbService cfg utils ceilDiv list deleteList).Login req
              ((dbService cfg utils ceilDiv list deleteList).SoftDeleteUser id db).2).1
            = Except.error "invalid credentials")
      ∧ ((dbService cfg utils ceilDiv list deleteList).RestoreUser id
            ((dbService cfg utils ceilDiv list deleteList).SoftDeleteUser id db).2).1
          = Except.ok ()
      ∧ (∀ x, (userRepository.FindByUsernameOrEmail x db).1 = Except.ok user →
          (userRepository.FindByUsernameOrEmail x
              ((dbService cfg utils ceilDiv list deleteList).RestoreUser id
                ((dbService cfg utils ceilDiv list deleteList).SoftDeleteUser id db).2).2).1
            = Except.ok { user with DeletedAt := none, UpdatedAt := db.now }) := by
  obtain ⟨hmem, hlive, hidb, _⟩ := First_ok db _ user hfind
  have hid : user.ID = id := by simpa using hidb
  have hsoft : (dbService cfg utils ceilDiv list deleteList).SoftDeleteUser id db
      = userRepository.SoftDelete id db := by
    simp only [userService.SoftDeleteUser, dbService, NewUserRepository,
      userRepository.FindByID, hfind, orReturn_ok]
  have hrestore : ∀ st, (dbService cfg utils ceilDiv list deleteList).RestoreUser id st
      = userRepository.Restore id st := fun _ => rfl
  rw [hsoft]
  refine ⟨rfl, ?_, ?_, ?_, ?_, ?_⟩
  · intro x
    exact First_SoftDelete id db _
  · intro req
    exact Login_db_congr cfg utils ceilDiv list deleteList req _ _ (First_SoftDelete id db _)
  · intro req honly
    have hnone : userRepository.First (userRepository.HardDelete id db).2
        (fun u => u.Username == req.UsernameOrEmail || u.Email == req.UsernameOrEmail)
          = Except.error "user not found" := by
      cases hF : userRepository.First (userRepository.HardDelete id db).2
          (fun u => u.Username == req.UsernameOrEmail || u.Email == req.UsernameOrEmail) with
      | error e => rw [(First_error _ _ e hF).1]
      | ok u =>
        exfalso
        obtain ⟨hu, hl, hc, _⟩ := First_ok _ _ u hF
        have hu' : u ∈ db.users.filter (fun r => r.ID != id) := hu
        obtain ⟨hu1, hu2⟩ := List.mem_filter.1 hu'
        have hdel : u.DeletedAt = none := by
          simpa [userRepository.live] using hl
        have hor : u.Username = req.UsernameOrEmail ∨ u.Email = req.UsernameOrEmail := by
          simpa using hc
        have := honly u hu1 hdel hor
        simp [this] at hu2
    have hfirst := (First_SoftDelete id db
      (fun u => u.Username == req.UsernameOrEmail || u.Email == req.UsernameOrEmail)).trans hnone
    refine ⟨hfirst, ?_⟩
    have hrepo : (dbService cfg utils ceilDiv list deleteList).repo.FindByUsernameOrEmail
        req.UsernameOrEmail (userRepository.SoftDelete id db).2
          = (Except.error "user not found", (userRepository.SoftDelete id db).2) := by
      simp only [dbService, NewUserRepository, userRepository.FindByUsernameOrEmail, hfirst]
    rw [Login_of_unknown _ req _ _ _ hrepo]
  · rw [hrestore]
    rfl
  · intro x hx
    rw [hrestore]
    have hx' : userRepository.First db (fun u => u.Username == x || u.Email == x)
        = Except.ok user := hx
    obtain ⟨_, _, hcond, _⟩ := First_ok db _ user hx'
    have hinj := List.inj_on_of_nodup_map hpk
    refine First_map db _ _
      (fun r => (fun r : User => if r.ID = id
          then { r with DeletedAt := none, UpdatedAt := db.now } else r)
        (if r.ID = id ∧ userRepository.live r then { r with DeletedAt := some db.now } else r))
      user _ hx' ?_ ?_ ?_ rfl hcond rfl
    · simp only [userRepository.Restore, userRepository.SoftDelete, List.map_map]
      rfl
    · intro r hr hrid
      have hru : r = user := hinj hr hmem hrid
      subst hru
      simp only [hid, hlive, and_self, if_true]
    · intro r _ hrid
      have hne : ¬ r.ID = id := fun h => hrid (h.trans hid.symm)
      simp only [hne, false_and, if_false]

theorem soft_delete_restore_round_trip_witness :
    (userRepository.FindByUsernameOrEmail "alice@x.com"
        (testService.RestoreUser 1 (testService.SoftDeleteUser 1 testDB).2).2).1
      = Except.ok { ID := 1, Username := "alice", Email := "alice@x.com", Phone := "0811111111",
                    Password := "hash:alicepass", Role := "patient", IsActive := true,
                    CreatedAt := 10, UpdatedAt := 100, DeletedAt := none } :=
  (soft_delete_restore_round_trip testConfig testUtils
    (fun total pageSize => (total + pageSize - 1) / pageSize) testList testList testDB 1
    { ID := 1, Username := "alice", Email := "alice@x.com", Phone := "0811111111",
      Password := "hash:alicepass", Role := "patient", IsActive := true,
      CreatedAt := 10, UpdatedAt := 10, DeletedAt := none }
    (by decide) (by decide)).2.2.2.2.2 "alice@x.com" (by decide)

/-! ## Self-registration -/

/-- `Create` of a record without id succeeds when its values fit their
columns, no row has the next id of the sequence and no row holds the username,
the email or the phone: the row stored takes the next id and the columns of
the record. -/
theorem Create_fresh (user : User) (db : DB) (h0 : user.ID = 0)
    (hfit : user.Username.length ≤ 50 ∧ user.Email.length ≤ 100 ∧ user.Phone.length ≤ 15
      ∧ user.Password.length ≤ 255
      ∧ (if user.Role = "" then RolePatient else user.Role).length ≤ 20)
    (hseq : ∀ r ∈ db.users, r.ID ≠ db.nextID)
    (hunused : ∀ r ∈ db.users,
      r.Username ≠ user.Username ∧ r.Email ≠ user.Email ∧ r.Phone ≠ user.Phone) :
    ∃ row : User,
      userRepository.Create user db
          = (Except.ok row, { db with users := db.users ++ [row], nextID := db.nextID + 1 })
        ∧ row.ID = db.nextID ∧ row.IsActive = true ∧ row.Username = user.Username
        ∧ row.Email = user.Email ∧ row.Phone = user.Phone ∧ row.Password = user.Password
        ∧ row.DeletedAt = user.DeletedAt
        ∧ row.Role = (if user.Role = "" then RolePatient else user.Role) := by
  obtain ⟨c1, c2, c3, c4, c5, c6⟩ := BeforeCreate_columns user db.now
  have hany : (db.users.any fun r => r.ID == db.nextID) = false := by
    rw [List.any_eq_false]
    intro r hr
    simpa using hseq r hr
  have hv : userRepository.violatesUnique db
      { user.BeforeCreate db.now with ID := db.nextID, IsActive := true } = false := by
    unfold userRepository.violatesUnique
    rw [List.any_eq_false]
    intro r hr
    obtain ⟨h1, h2, h3⟩ := hunused r hr
    simp [c1, c2, c3, h1, h2, h3]
  have hsize : userRepository.columnSizeError
      { user.BeforeCreate db.now with ID := db.nextID, IsActive := true } = none := by
    rw [columnSizeError_none]
    dsimp only
    rw [c1, c2, c3, c4, c6]
    exact hfit
  refine ⟨{ user.BeforeCreate db.now with ID := db.nextID, IsActive := true }, ?_, rfl, rfl,
    c1, c2, c3, c4, c5, c6⟩
  unfold userRepository.Create
  simp only [h0, if_true, hsize, hany, hv, Bool.or_false, Bool.false_eq_true, if_false]

/-- C30: on the table, for every `Register` request whose role is one of
`patient`, `doctor`, `receptionist`, `admin`, `super_admin`: whenever
`Register` succeeds, it has stored one new row, live and active, with exactly
the requested role (`admin` and `super_admin` included), the role that the
response carries too; it does succeed, storing the username, email and phone
of the request with the hash of the password, and the handler `Register`
answers `201` with that account for every request context, whatever it
carries, when no row holds the username, the email or the phone, the password
hashes, the values fit their columns and the id sequence is ahead of the
rows; and the route
`POST /api/v1/auth/register` that `setupAuthRouter` registers has the chain of
the middleware the group inherits followed by the handler: no `AuthMiddleware`
and no role evaluator is put in front of it. -/
theorem Register_honours_requested_role (cfg : Config) (utils : Utils)
    (ceilDiv : Int → Int → Int)
    (list deleteList : PaginationQuery → DB → Result DB (List User × Int))
    (req : RegisterRequest) (db : DB)
    (hrole : req.Role = "patient" ∨ req.Role = "doctor" ∨ req.Role = "receptionist"
      ∨ req.Role = "admin" ∨ req.Role = "super_admin") :
    (∀ resp db',
        (dbService cfg utils ceilDiv list deleteList).Register req db = (Except.ok resp, db') →
        ∃ row : User, db'.users = db.users ++ [row] ∧ row.Role = req.Role
          ∧ row.IsActive = true ∧ row.DeletedAt = none ∧ resp.Role = req.Role)
      ∧ (∀ hashed,
          (∀ r ∈ db.users,
            r.Username ≠ req.Username ∧ r.Email ≠ req.Email ∧ r.Phone ≠ req.Phone) →
          (∀ r ∈ db.users, r.ID ≠ db.nextID) →
          utils.HashPassword req.Password = Except.ok hashed →
          req.Username.length ≤ 50 → req.Email.length ≤ 100 → req.Phone.length ≤ 15 →
          hashed.length ≤ 255 →
          ∃ row : User,
            row.Role = req.Role ∧ row.ID = db.nextID ∧ row.Username = req.Username
              ∧ row.Email = req.Email ∧ row.Phone = req.Phone ∧ row.Password = hashed
              ∧ row.IsActive = true ∧ row.DeletedAt = none
              ∧ (dbService cfg utils ceilDiv list deleteList).Register req db
                  = (Except.ok (userService.toUserResponse row),
                      { db with users := db.users ++ [row], nextID := db.nextID + 1 })
              ∧ (∀ (bind : Binding) (ctx : Context),
                  bind.bindRegisterRequest ctx.Body = Except.ok req →
                  handler.Register (NewUserService (dbService cfg utils ceilDiv list deleteList))
                      bind ctx db
                    = (SuccessResponse ctx StatusCreated "User registered successfully"
                          (some (ResponseData.user (userService.toUserResponse row))),
                        { db with users := db.users ++ [row], nextID := db.nextID + 1 })))
      ∧ (∀ (pre : List HandlerFunc) (routes : RouteConfig),
          findRoute (setupAuthRouter { basePath := "/api/v1", Handlers := pre } routes)
              "POST" "/api/v1/auth/register"
            = some (pre ++ [routes.UserHandler.Register])) := by
  have hvalid : ValidateRole req.Role = true := (ValidateRole_iff req.Role).2 hrole
  have hne : req.Role ≠ "" := by
    rcases hrole with h | h | h | h | h <;> (rw [h]; decide)
  have hlen : req.Role.length ≤ 20 := by
    rcases hrole with h | h | h | h | h <;> (rw [h]; decide)
  refine ⟨?_, ?_, ?_⟩
  · intro resp db' h
    obtain ⟨row, h1, h2, h3, h4, h5, h6, h7, h8⟩ :=
      Register_db_ok cfg utils ceilDiv list deleteList req db db' resp h
    rw [if_neg hne] at h3
    refine ⟨row, h1, h3, h2, h7, ?_⟩
    rw [h8, ← h3]
    rfl
  · intro hashed hunused hseq hhash hf1 hf2 hf3 hf4
    have hrec : newUserRecord req.Username req.Email req.Phone hashed req.Role
        = { ID := 0, Username := req.Username, Email := req.Email, Phone := req.Phone,
            Password := hashed, Role := req.Role, IsActive := true, CreatedAt := 0,
            UpdatedAt := 0, DeletedAt := none } := by
      simp only [newUserRecord, if_neg hne]
    obtain ⟨row, hcreate, r1, r2, r3, r4, r5, r6, r7, r8⟩ := Create_fresh
      (newUserRecord req.Username req.Email req.Phone hashed req.Role)
      db (by rw [hrec]) (by rw [hrec]; simp only [if_neg hne]; exact ⟨hf1, hf2, hf3, hf4, hlen⟩)
      hseq (by rw [hrec]; exact hunused)
    rw [hrec] at r3 r4 r5 r6 r7 r8
    have h1 : ¬ heldByLive db User.Username req.Username := by
      rintro ⟨u, hu, _, h⟩
      exact (hunused u hu).1 h
    have h2 : ¬ heldByLive db User.Email req.Email := by
      rintro ⟨u, hu, _, h⟩
      exact (hunused u hu).2.1 h
    have h3 : ¬ heldByLive db User.Phone req.Phone := by
      rintro ⟨u, hu, _, h⟩
      exact (hunused u hu).2.2 h
    have hreg : (dbService cfg utils ceilDiv list deleteList).Register req db
        = (Except.ok (userService.toUserResponse row),
            { db with users := db.users ++ [row], nextID := db.nextID + 1 }) := by
      rw [Register_db, if_neg h1, if_neg h2, if_neg h3, hhash]
      simp only [if_neg hne, hvalid, Bool.true_eq_false, if_false, hcreate, orReturn_ok]
    refine ⟨row, ?_, r1, r3, r4, r5, r6, r2, r7, hreg, ?_⟩
    · rw [r8]
      simp only [if_neg hne]
    · intro bind ctx hbind
      have hs : (NewUserService (dbService cfg utils ceilDiv list deleteList)).Register
          = (dbService cfg utils ceilDiv list deleteList).Register := rfl
      simp only [handler.Register, hbind, hs, hreg]
  · intro pre routes
    rfl

theorem Register_honours_requested_role_witness :
    ∃ row : User, row.Role = "super_admin" ∧ row.ID = 4
      ∧ testService.Register
            { Username := "dave", Email := "dave@x.com", Phone := "0844444444",
              Password := "davepass1", Role := "super_admin" } testDB
          = (Except.ok (userService.toUserResponse row),
              { testDB with users := testDB.users ++ [row], nextID := testDB.nextID + 1 }) := by
  obtain ⟨row, h1, h2, _, _, _, _, _, _, h9, _⟩ := (Register_honours_requested_role testConfig
    testUtils (fun total pageSize => (total + pageSize - 1) / pageSize) testList testList
    { Username := "dave", Email := "dave@x.com", Phone := "0844444444",
      Password := "davepass1", Role := "super_admin" } testDB
    (Or.inr (Or.inr (Or.inr (Or.inr rfl))))).2.1 "hash:davepass1" (by decide) (by decide) rfl
    (by decide) (by decide) (by decide) (by decide)
  exact ⟨row, h1, h2, h9⟩

/-! ## Page count -/

theorem roundHalfEven_ge (num den : Nat) : num / den ≤ roundHalfEven num den := by
  unfold roundHalfEven
  dsimp only
  split_ifs <;> omega

theorem roundHalfEven_le (num den : Nat) : roundHalfEven num den ≤ num / den + 1 := by
  unfold roundHalfEven
  dsimp only
  split_ifs <;> omega

theorem roundHalfEven_exact (num den : Nat) (hden : 0 < den) (h : num % den = 0) :
    roundHalfEven num den = num / den := by
  unfold roundHalfEven
  dsimp only
  rw [if_pos (by omega)]

theorem roundHalfEven_up (num den : Nat) (h : den < 2 * (num % den)) :
    roundHalfEven num den = num / den + 1 := by
  unfold roundHalfEven
  dsimp only
  rw [if_neg (by omega), if_pos h]

theorem log2_step (n : Nat) : Nat.log2 n = if n < 2 then 0 else Nat.log2 (n / 2) + 1 := by
  rw [Nat.log2]
  split_ifs <;> omega

/-- With enough fuel `floorLog2` is the binary logarithm. -/
theorem floorLog2_eq : ∀ (fuel n : Nat), n ≤ fuel → floorLog2 fuel n = Nat.log2 n := by
  intro fuel
  induction fuel with
  | zero =>
    intro n hn
    have h0 : n = 0 := by omega
    subst h0
    rw [log2_step]
    simp [floorLog2]
  | succ fuel ih =>
    intro n hn
    rw [log2_step n]
    simp only [floorLog2]
    split_ifs with h2
    · rfl
    · rw [ih (n / 2) (by omega)]

/-- An integer with at most 53 significant bits is a `float64`. -/
theorem float64OfNat_exact (n : Nat) (h : n < 2 ^ 53) : float64OfNat n = n := by
  unfold float64OfNat
  rw [if_pos h]

/-- Rounding to 53 significant bits does not take an integer below `2 ^ 53`. -/
theorem float64OfNat_large (n : Nat) (h : 2 ^ 53 ≤ n) : 2 ^ 53 ≤ float64OfNat n := by
  unfold float64OfNat
  rw [if_neg (by omega)]
  dsimp only
  rw [floorLog2_eq n n (le_refl n)]
  have hn0 : n ≠ 0 := by
    have : 0 < 2 ^ 53 := by norm_num
    omega
  have hlog : 53 ≤ Nat.log2 n := (Nat.le_log2 hn0).2 h
  have hself : 2 ^ Nat.log2 n ≤ n := Nat.log2_self_le hn0
  have hsplit : 2 ^ Nat.log2 n = 2 ^ 52 * 2 ^ (Nat.log2 n - 52) := by
    rw [← pow_add]
    congr 1
    omega
  have hpos : 0 < 2 ^ (Nat.log2 n - 52) := pow_pos (by norm_num) _
  have hdiv : 2 ^ 52 ≤ n / 2 ^ (Nat.log2 n - 52) := by
    rw [Nat.le_div_iff_mul_le hpos, ← hsplit]
    exact hself
  have hm := roundHalfEven_ge n (2 ^ (Nat.log2 n - 52))
  calc 2 ^ 53 ≤ 2 ^ Nat.log2 n := Nat.pow_le_pow_right (by norm_num) hlog
    _ = 2 ^ 52 * 2 ^ (Nat.log2 n - 52) := hsplit
    _ ≤ roundHalfEven n (2 ^ (Nat.log2 n - 52)) * 2 ^ (Nat.log2 n - 52) :=
        Nat.mul_le_mul_right _ (le_trans hdiv hm)

/-- Taking a significand `m` in units of `1 / P` upward, when `m` lies in
`(k P, (k + 1) P]`. -/
theorem ceil_units (m P k : Nat) (hP : 0 < P) (hlo : k * P < m) (hhi : m ≤ k * P + P) :
    (m + P - 1) / P = k + 1 := by
  apply Nat.div_eq_of_lt_le
  · have : (k + 1) * P = k * P + P := by ring
    omega
  · have : (k + 1 + 1) * P = k * P + P + P := by ring
    omega

/-- The quotient of two integers `x ≥ y`, `x < 2 ^ 53`, computed in `float64`
and taken upward, is the ceiling of the exact quotient. -/
theorem ceilQuotient_of_le (x y : Nat) (hy : 0 < y) (hyx : y ≤ x) (hx : x < 2 ^ 53) :
    ceilQuotient x y = (x + y - 1) / y := by
  have hx0 : x ≠ 0 := by omega
  have hk1 : 1 ≤ x / y := (Nat.le_div_iff_mul_le hy).2 (by omega)
  have hk0 : x / y ≠ 0 := by omega
  have hk53 : x / y < 2 ^ 53 := lt_of_le_of_lt (Nat.div_le_self x y) hx
  have he : Nat.log2 (x / y) ≤ 52 := by
    have := (Nat.log2_lt hk0).2 hk53
    omega
  have hpow : 2 ^ Nat.log2 (x / y) ≤ x / y := Nat.log2_self_le hk0
  unfold ceilQuotient
  rw [if_neg hx0, if_pos hyx]
  dsimp only
  rw [floorLog2_eq _ _ (le_refl _), if_pos he]
  generalize hs : 52 - Nat.log2 (x / y) = s
  have hP : 0 < 2 ^ s := pow_pos (by norm_num) _
  -- the divisor is below two units of the significand
  have hy2 : y < 2 * 2 ^ s := by
    have h53 : 2 ^ Nat.log2 (x / y) * (2 * 2 ^ s) = 2 ^ 53 := by
      rw [← pow_succ', ← pow_add]
      congr 1
      omega
    have hky : x / y * y ≤ x := Nat.div_mul_le_self x y
    have h1 : 2 ^ Nat.log2 (x / y) * y ≤ x / y * y := Nat.mul_le_mul_right y hpow
    have h2 : 2 ^ Nat.log2 (x / y) * y < 2 ^ Nat.log2 (x / y) * (2 * 2 ^ s) := by
      rw [h53]
      omega
    exact Nat.lt_of_mul_lt_mul_left h2
  generalize hPdef : 2 ^ s = P at hP hy2 ⊢
  -- x = y * k + r0
  have hdm : y * (x / y) + x % y = x := Nat.div_add_mod x y
  have hr0 : x % y < y := Nat.mod_lt x hy
  generalize hk : x / y = k at hdm hk1
  generalize hr : x % y = r0 at hdm hr0
  have hN : x * P = r0 * P + y * (k * P) := by
    rw [← hdm]
    ring
  have hNdiv : x * P / y = r0 * P / y + k * P := by
    rw [hN, Nat.add_mul_div_left _ _ hy]
  have hNmod : x * P % y = r0 * P % y := by
    rw [hN, Nat.add_mul_mod_self_left]
  have hQ : r0 * P / y < P := by
    apply Nat.div_lt_of_lt_mul
    exact Nat.mul_lt_mul_of_pos_right hr0 hP
  have hge := roundHalfEven_ge (x * P) y
  have hle := roundHalfEven_le (x * P) y
  rw [hNdiv] at hge hle
  by_cases hzero : r0 = 0
  · -- exact quotient
    subst hzero
    have hmod0 : x * P % y = 0 := by rw [hNmod]; simp
    rw [roundHalfEven_exact _ _ hy hmod0, hNdiv]
    simp only [Nat.zero_mul, Nat.zero_div, Nat.zero_add]
    have h1 : (k * P + P - 1) / P = k := by
      apply Nat.div_eq_of_lt_le
      · omega
      · have : (k + 1) * P = k * P + P := by ring
        omega
    have h2 : (x + y - 1) / y = k := by
      apply Nat.div_eq_of_lt_le
      · have : k * y = y * k := Nat.mul_comm k y
        omega
      · have : (k + 1) * y = y * k + y := by ring
        omega
    rw [h1, h2]
  · have hrhs : (x + y - 1) / y = k + 1 := by
      apply Nat.div_eq_of_lt_le
      · have : (k + 1) * y = y * k + y := by ring
        omega
      · have : (k + 1 + 1) * y = y * k + y + y := by ring
        omega
    rw [hrhs]
    clear hrhs
    apply ceil_units _ P k hP
    · by_cases hq : r0 * P / y = 0
      · have hlt : r0 * P < y := (Nat.div_eq_zero_iff hy).1 hq
        have hmod : x * P % y = r0 * P := by rw [hNmod, Nat.mod_eq_of_lt hlt]
        have hPle : P ≤ r0 * P := Nat.le_mul_of_pos_left P (by omega)
        rw [roundHalfEven_up _ _ (by rw [hmod]; omega), hNdiv, hq]
        omega
      · generalize r0 * P / y = Q at hq hge
        omega
    · generalize r0 * P / y = Q at hQ hle
      omega

/-- The quotient of two integers `0 < x < y` computed in `float64` and taken
upward is `1`. -/
theorem ceilQuotient_of_lt (x y : Nat) (hx : 0 < x) (hxy : x < y) : ceilQuotient x y = 1 := by
  have hx0 : x ≠ 0 := by omega
  have hy : 0 < y := by omega
  unfold ceilQuotient
  rw [if_neg hx0, if_neg (by omega)]
  dsimp only
  rw [floorLog2_eq _ _ (le_refl _)]
  generalize hc : Nat.log2 ((y - 1) / x) + 1 = c
  have hcpow : (y - 1) / x < 2 ^ c := by
    rw [← hc]
    exact Nat.lt_log2_self
  have hxc : y ≤ x * 2 ^ c := by
    have hdm : x * ((y - 1) / x) + (y - 1) % x = y - 1 := Nat.div_add_mod (y - 1) x
    have hmod : (y - 1) % x < x := Nat.mod_lt _ hx
    have h1 : x * ((y - 1) / x + 1) ≤ x * 2 ^ c := Nat.mul_le_mul_left x hcpow
    have h2 : x * ((y - 1) / x + 1) = x * ((y - 1) / x) + x := by ring
    omega
  have hsplit : (2 : Nat) ^ (52 + c) = 2 ^ 52 * 2 ^ c := pow_add 2 52 c
  have hP : 0 < 2 ^ (52 + c) := pow_pos (by norm_num) _
  have hxs : y ≤ x * 2 ^ (52 + c) := by
    have h52 : 1 ≤ 2 ^ 52 := Nat.one_le_two_pow
    have : x * 2 ^ c ≤ x * 2 ^ (52 + c) := by
      rw [hsplit]
      apply Nat.mul_le_mul_left
      exact Nat.le_mul_of_pos_left _ (by omega)
    omega
  generalize 2 ^ (52 + c) = P at hP hxs ⊢
  have hq1 : 1 ≤ x * P / y := (Nat.le_div_iff_mul_le hy).2 (by omega)
  have hq2 : x * P / y < P := by
    apply Nat.div_lt_of_lt_mul
    rw [Nat.mul_comm y P, Nat.mul_comm x P]
    exact Nat.mul_lt_mul_of_pos_left hxy hP
  have hge := roundHalfEven_ge (x * P) y
  have hle := roundHalfEven_le (x * P) y
  have := ceil_units (roundHalfEven (x * P) y) P 0 hP (by omega) (by omega)
  simpa using this

/-- The page count computed in `float64` is the ceiling of the exact quotient
for every count below `2 ^ 53` and every page size `≥ 1`. -/
theorem ceilQuotient_float64 (total pageSize : Nat) (htotal : total < 2 ^ 53)
    (hsize : 1 ≤ pageSize) :
    ceilQuotient (float64OfNat total) (float64OfNat pageSize)
      = (total + pageSize - 1) / pageSize := by
  rw [float64OfNat_exact total htotal]
  by_cases hle : pageSize ≤ total
  · rw [float64OfNat_exact pageSize (by omega)]
    exact ceilQuotient_of_le total pageSize (by omega) hle htotal
  · have hlt : total < float64OfNat pageSize := by
      by_cases hp : pageSize < 2 ^ 53
      · rw [float64OfNat_exact pageSize hp]
        omega
      · have := float64OfNat_large pageSize (by omega)
        omega
    by_cases h0 : total = 0
    · subst h0
      have : (0 + pageSize - 1) / pageSize = 0 := Nat.div_eq_of_lt (by omega)
      rw [this]
      rfl
    · rw [ceilQuotient_of_lt total _ (by omega) hlt]
      symm
      apply Nat.div_eq_of_lt_le
      · omega
      · omega

/-- The source expression for the page count is the ceiling of
`total / pageSize` for every count `0 ≤ total < 2 ^ 53` and every page size
`≥ 1`. -/
theorem pageCount_eq_ceil (other : Int → Int → Int) (total pageSize : Int)
    (h0 : 0 ≤ total) (h53 : total < 2 ^ 53) (hsize : 1 ≤ pageSize) :
    pageCount other total pageSize = Int.ceil ((total : ℚ) / (pageSize : ℚ)) := by
  lift total to ℕ using h0 with t
  lift pageSize to ℕ using (by omega) with p
  have ht : t < 2 ^ 53 := by exact_mod_cast h53
  have hp : 1 ≤ p := by exact_mod_cast hsize
  have hq := ceilQuotient_float64 t p ht hp
  have hz1 : p * ((t + p - 1) / p) ≤ t + p - 1 := Nat.mul_div_le _ _
  have hz2 : t + p - 1 < p * ((t + p - 1) / p + 1) := Nat.lt_mul_div_succ _ (by omega)
  have hz3 : (t + p - 1) / p ≤ t := by
    rcases Nat.eq_zero_or_pos t with h | h
    · subst h
      rw [Nat.div_eq_of_lt (by omega)]
    · apply Nat.div_le_of_le_mul
      obtain ⟨p', rfl⟩ : ∃ p', p = p' + 1 := ⟨p - 1, by omega⟩
      obtain ⟨t', rfl⟩ : ∃ t', t = t' + 1 := ⟨t - 1, by omega⟩
      have : (p' + 1) * (t' + 1) = p' * t' + p' + t' + 1 := by ring
      omega
  unfold pageCount
  rw [if_pos ⟨by positivity, hsize⟩]
  simp only [Int.toNat_ofNat, hq]
  have hlt : (t + p - 1) / p < 2 ^ 63 := by
    have : (2 : ℕ) ^ 53 < 2 ^ 63 := by norm_num
    omega
  rw [if_pos hlt]
  symm
  rw [Int.ceil_eq_iff]
  generalize (t + p - 1) / p = z at hz1 hz2
  have hpq : (0 : ℚ) < (p : ℚ) := by exact_mod_cast hp
  have e2 : p * (z + 1) = p * z + p := by ring
  have h1 : ((p * z : ℕ) : ℚ) < (t : ℚ) + (p : ℚ) := by
    have : p * z < t + p := by omega
    exact_mod_cast this
  have h2 : (t : ℚ) ≤ ((p * z : ℕ) : ℚ) := by
    have : t ≤ p * z := by omega
    exact_mod_cast this
  push_cast at h1 h2 ⊢
  constructor
  · rw [lt_div_iff₀ hpq]
    nlinarith
  · rw [div_le_iff₀ hpq]
    nlinarith

/-- The normalisation of page and page size. -/
theorem normalizeQuery_page {σ : Type} (s : userService σ) (sortBy : String)
    (query : PaginationQuery)
    (hcfg : 1 ≤ s.config.Pagination.DefaultPageSize
      ∧ s.config.Pagination.DefaultPageSize ≤ s.config.Pagination.MaxPageSize) :
    1 ≤ (s.normalizeQuery sortBy query).Page
      ∧ 1 ≤ (s.normalizeQuery sortBy query).PageSize
      ∧ (s.normalizeQuery sortBy query).PageSize ≤ s.config.Pagination.MaxPageSize
      ∧ (1 ≤ query.Page → (s.normalizeQuery sortBy query).Page = query.Page)
      ∧ (1 ≤ query.PageSize → query.PageSize ≤ s.config.Pagination.MaxPageSize →
          (s.normalizeQuery sortBy query).PageSize = query.PageSize) := by
  obtain ⟨h1, h2⟩ := hcfg
  unfold userService.normalizeQuery
  dsimp only
  split_ifs <;> (try dsimp only at *) <;> refine ⟨?_, ?_, ?_, ?_, ?_⟩ <;> intros <;> omega

/-- C29, refuted as stated: with the default page sizes (10 and 100), a query
for page 1 with page size 1 and a repository that reports
`2 ^ 53 + 1 = 9007199254740993` rows, `ListUsers` returns
`TotalPages = 9007199254740992`, while the ceiling of `total / PageSize` is
`9007199254740993`: `float64(total)` rounds the count to 53 significant bits. -/
theorem ListUsers_total_pages_counterexample :
    (pagedService 9007199254740993).ListUsers
        { Page := 1, PageSize := 1, Search := "", Role := "", IsActive := none,
          SortBy := "", SortDir := "" } testDB
      = (Except.ok { Data := [],
                     Meta := { Page := 1, PageSize := 1, TotalItems := 9007199254740993,
                               TotalPages := 9007199254740992 } }, testDB)
      ∧ Int.ceil ((9007199254740993 : ℚ) / (1 : ℚ)) = 9007199254740993 := by
  constructor
  · decide
  · rw [div_one]
    exact_mod_cast Int.ceil_natCast 9007199254740993

/-- C29, amended: with a configuration in which
`1 ≤ DefaultPageSize ≤ MaxPageSize`, for every query (any integer page and page
size) whose role filter passes and every count `0 ≤ total < 2 ^ 53` that the
repository returns for the normalised query, `ListUsers` and `DeleteListUsers`
return a `Meta` with `Page ≥ 1`, `1 ≤ PageSize ≤ MaxPageSize`,
`TotalItems = total` and `TotalPages` the ceiling of `total / PageSize`; a
page `≥ 1` and a page size in `[1, MaxPageSize]` are returned unchanged. -/
theorem ListUsers_pagination {σ : Type} (repo : UserRepository σ) (cfg : Config)
    (utils : Utils) (other : Int → Int → Int) (query : PaginationQuery)
    (hcfg : 1 ≤ cfg.Pagination.DefaultPageSize
      ∧ cfg.Pagination.DefaultPageSize ≤ cfg.Pagination.MaxPageSize)
    (hrole : query.Role = "" ∨ ValidateRole query.Role = true) :
    (∀ (st st' : σ) (users : List User) (total : Int),
        repo.List (userService.normalizeQuery
          { repo := repo, config := cfg, utils := utils, ceilDiv := pageCount other }
          "created_at" query) st = (Except.ok (users, total), st') →
        0 ≤ total → total < 2 ^ 53 →
        ∃ resp : UserListResponse,
          userService.ListUsers
              { repo := repo, config := cfg, utils := utils, ceilDiv := pageCount other }
              query st = (Except.ok resp, st')
            ∧ 1 ≤ resp.Meta.Page ∧ 1 ≤ resp.Meta.PageSize
            ∧ resp.Meta.PageSize ≤ cfg.Pagination.MaxPageSize
            ∧ resp.Meta.TotalItems = total
            ∧ resp.Meta.TotalPages = Int.ceil ((total : ℚ) / (resp.Meta.PageSize : ℚ))
            ∧ (1 ≤ query.Page → resp.Meta.Page = query.Page)
            ∧ (1 ≤ query.PageSize → query.PageSize ≤ cfg.Pagination.MaxPageSize →
                resp.Meta.PageSize = query.PageSize))
      ∧ (∀ (st st' : σ) (users : List User) (total : Int),
        repo.DeleteList (userService.normalizeQuery
          { repo := repo, config := cfg, utils := utils, ceilDiv := pageCount other }
          "deleted_at" query) st = (Except.ok (users, total), st') →
        0 ≤ total → total < 2 ^ 53 →
        ∃ resp : DeletedUserListResponse,
          userService.DeleteListUsers
              { repo := repo, config := cfg, utils := utils, ceilDiv := pageCount other }
              query st = (Except.ok resp, st')
            ∧ 1 ≤ resp.Meta.Page ∧ 1 ≤ resp.Meta.PageSize
            ∧ resp.Meta.PageSize ≤ cfg.Pagination.MaxPageSize
            ∧ resp.Meta.TotalItems = total
            ∧ resp.Meta.TotalPages = Int.ceil ((total : ℚ) / (resp.Meta.PageSize : ℚ))
            ∧ (1 ≤ query.Page → resp.Meta.Page = query.Page)
            ∧ (1 ≤ query.PageSize → query.PageSize ≤ cfg.Pagination.MaxPageSize →
                resp.Meta.PageSize = query.PageSize)) := by
  have hnot : ∀ sortBy, ¬ ((userService.normalizeQuery
      { repo := repo, config := cfg, utils := utils, ceilDiv := pageCount other }
      sortBy query).Role ≠ ""
      ∧ (!ValidateRole (userService.normalizeQuery
          { repo := repo, config := cfg, utils := utils, ceilDiv := pageCount other }
          sortBy query).Role) = true) := by
    intro sortBy
    rw [normalizeQuery_Role]
    rintro ⟨h1, h2⟩
    rcases hrole with h | h
    · exact h1 h
    · simp [h] at h2
  constructor
  · intro st st' users total hlist h0 h53
    have hn := normalizeQuery_page
      { repo := repo, config := cfg, utils := utils, ceilDiv := pageCount other }
      "created_at" query hcfg
    have hr := hnot "created_at"
    simp only [userService.ListUsers]
    generalize userService.normalizeQuery
      { repo := repo, config := cfg, utils := utils, ceilDiv := pageCount other }
      "created_at" query = q at hlist hn hr ⊢
    obtain ⟨n1, n2, n3, n4, n5⟩ := hn
    refine ⟨{ Data := users.map userService.toUserResponse,
              Meta := { Page := q.Page, PageSize := q.PageSize, TotalItems := total,
                        TotalPages := pageCount other total q.PageSize } },
      ?_, n1, n2, n3, rfl, ?_, n4, n5⟩
    · rw [if_neg hr, hlist, orReturn_ok]
    · exact pageCount_eq_ceil other total _ h0 h53 n2
  · intro st st' users total hlist h0 h53
    have hn := normalizeQuery_page
      { repo := repo, config := cfg, utils := utils, ceilDiv := pageCount other }
      "deleted_at" query hcfg
    have hr := hnot "deleted_at"
    simp only [userService.DeleteListUsers]
    generalize userService.normalizeQuery
      { repo := repo, config := cfg, utils := utils, ceilDiv := pageCount other }
      "deleted_at" query = q at hlist hn hr ⊢
    obtain ⟨n1, n2, n3, n4, n5⟩ := hn
    refine ⟨{ Data := users.map userService.toDeletedUserResponse,
              Meta := { Page := q.Page, PageSize := q.PageSize, TotalItems := total,
                        TotalPages := pageCount other total q.PageSize } },
      ?_, n1, n2, n3, rfl, ?_, n4, n5⟩
    · rw [if_neg hr, hlist, orReturn_ok]
    · exact pageCount_eq_ceil other total _ h0 h53 n2

theorem ListUsers_pagination_witness :
    ∃ resp : UserListResponse,
      (pagedService 25).ListUsers
          { Page := 0, PageSize := 500, Search := "", Role := "doctor", IsActive := none,
            SortBy := "", SortDir := "" } testDB = (Except.ok resp, testDB)
        ∧ 1 ≤ resp.Meta.Page ∧ 1 ≤ resp.Meta.PageSize ∧ resp.Meta.PageSize ≤ 100
        ∧ resp.Meta.TotalItems = 25
        ∧ resp.Meta.TotalPages = Int.ceil ((25 : ℚ) / (resp.Meta.PageSize : ℚ)) := by
  obtain ⟨resp, h1, h2, h3, h4, h5, h6, _⟩ := (ListUsers_pagination
    (NewUserRepository (countingList 25) (countingList 25)) pageConfig testUtils
    (fun _ _ => 0)
    { Page := 0, PageSize := 500, Search := "", Role := "doctor", IsActive := none,
      SortBy := "", SortDir := "" } (by decide) (Or.inr (by decide))).1 testDB testDB [] 25
    rfl (by decide) (by decide)
  exact ⟨resp, h1, h2, h3, h4, h5, by exact_mod_cast h6⟩

/-! ## Token round trip -/

/-- C27: for a serialization that parses back what it wrote, all claims `c`
(subject id, username, email, role), every secret, every issue time and
lifetime: the token that `GenerateToken` issues with the secret expires at
issue time plus lifetime; `ValidateToken` with the same secret returns exactly
`c` at every time before the expiry, and fails with `Expired` at every time at
or past the expiry. -/
theorem token_round_trip {Sig Wire : Type} [DecidableEq Sig] (scheme : TokenScheme Sig Wire)
    (hcodec : ∀ t, scheme.decode (scheme.encode t) = some t)
    (c : Claims) (secret : String) (issuedAt expiredTime now : Nat) :
    (GenerateToken scheme issuedAt c.UserID c.Username c.Email c.Role secret expiredTime).2
        = issuedAt + expiredTime
      ∧ (now < issuedAt + expiredTime →
          ValidateToken scheme now
              (GenerateToken scheme issuedAt c.UserID c.Username c.Email c.Role secret
                expiredTime).1 secret
            = Except.ok c)
      ∧ (issuedAt + expiredTime ≤ now →
          ValidateToken scheme now
              (GenerateToken scheme issuedAt c.UserID c.Username c.Email c.Role secret
                expiredTime).1 secret
            = Except.error TokenError.Expired) := by
  refine ⟨rfl, ?_, ?_⟩
  · intro h
    simp only [ValidateToken, GenerateToken, hcodec, ne_eq, not_true_eq_false, if_false,
      ge_iff_le]
    rw [if_neg (by omega)]
  · intro h
    simp only [ValidateToken, GenerateToken, hcodec, ne_eq, not_true_eq_false, if_false,
      ge_iff_le]
    rw [if_pos h]

theorem token_round_trip_witness :
    ValidateToken recordingScheme 86399
        (GenerateToken recordingScheme 0 1 "testuser" "test@example.com" "patient"
          "test-secret-key" 86400).1 "test-secret-key"
      = Except.ok { UserID := 1, Username := "testuser", Email := "test@example.com",
                    Role := "patient" } :=
  (token_round_trip recordingScheme (fun _ => rfl)
    { UserID := 1, Username := "testuser", Email := "test@example.com", Role := "patient" }
    "test-secret-key" 0 86400 86399).2.1 (by decide)

end RekamMedis
